import Mathlib

/-!
# Credential and service-client provisioning of the provider `Config`

A shallow embedding of `huaweicloud/config/config.go`.

* A Go method on `*Config` becomes a program `Prog α`: a function from the
  current state (the `Config` and the log of what has happened so far) to an
  outcome and the next state.  The state is kept on every path, also when the
  Go code would panic, so that what was done before can still be observed.
* A Go `error` is a value: functions that return `error` return
  `Option String` (`none` is `nil`), functions that return `(T, error)` return
  `Except String T`.  A run-time panic (nil pointer dereference, failed type
  assertion) is the separate outcome `Outcome.panic`.
* Everything outside the process (the metadata endpoint, the identity service,
  the file system, the clock, the SDK's `Authenticate`) is a field of `Env`.
  Each of them is given the number of events logged so far, so that two calls
  made at different moments may be answered differently.
* The two mutexes only serialise callers; the embedding is sequential and
  leaves them out.  `log.Printf` calls are left out as well.
-/

namespace HuaweiCloud

/-! ## Data model -/

/-- A `time.Time`, as far as the code looks at it: the Unix seconds returned
by `Unix()` and the nanoseconds within the second. -/
structure Time where
  sec : Int
  nsec : Nat
  deriving DecidableEq, Repr

/-- Unix seconds of the zero `time.Time` (January 1, year 1, 00:00:00 UTC). -/
def zeroTimeUnix : Int := -62135596800

/-- The zero value of `time.Time`. -/
def Time.zero : Time := ⟨zeroTimeUnix, 0⟩

/-- Go `Time.IsZero`. -/
def Time.IsZero (t : Time) : Bool := t.sec == zeroTimeUnix && t.nsec == 0

/-- Go `Time.Unix`. -/
def Time.Unix (t : Time) : Int := t.sec

/-- Two's complement wrap-around of a 64 bit signed integer. -/
def wrapInt64 (x : Int) : Int := (x + 2 ^ 63) % 2 ^ 64 - 2 ^ 63

/-- The constant `keyExpiresDuration`. -/
def keyExpiresDuration : Int := 600

/-- The fields of `golangsdk.AKSKAuthOptions` that `config.go` sets or reads. -/
structure AKSKAuthOptions where
  IdentityEndpoint : String := ""
  Region : String := ""
  ProjectId : String := ""
  ProjectName : String := ""
  Domain : String := ""
  DomainID : String := ""
  BssDomain : String := ""
  BssDomainID : String := ""
  AccessKey : String := ""
  SecretKey : String := ""
  SecurityToken : String := ""
  AgencyName : String := ""
  AgencyDomainName : String := ""
  DelegatedProject : String := ""
  WithUserCatalog : Bool := false
  deriving DecidableEq, Repr

/-- The fields of `golangsdk.AuthOptions` that `config.go` sets. -/
structure AuthOptions where
  IdentityEndpoint : String := ""
  Username : String := ""
  UserID : String := ""
  Password : String := ""
  DomainID : String := ""
  DomainName : String := ""
  TenantID : String := ""
  TenantName : String := ""
  TokenID : String := ""
  AgencyName : String := ""
  AgencyDomainName : String := ""
  DelegatedProject : String := ""
  deriving DecidableEq, Repr

/-- The interface `golangsdk.AuthOptionsProvider`: the two kinds of options
`genClient` is called with. -/
inductive AuthOptionsProvider where
  | authOptions (ao : AuthOptions)
  | akskAuthOptions (ao : AKSKAuthOptions)
  deriving DecidableEq, Repr

/-- The fields of `golangsdk.ProviderClient` that `config.go` reads or writes. -/
structure ProviderClient where
  ProjectID : String := ""
  DomainID : String := ""
  TokenID : String := ""
  AKSKAuthOptions : AKSKAuthOptions := {}
  deriving DecidableEq, Repr

/-- A `golangsdk.ServiceClient`.  `ProviderClient` is a pointer in Go and may be
nil. -/
structure ServiceClient where
  ProviderClient : Option ProviderClient := none
  Endpoint : String := ""
  ResourceBase : String := ""
  deriving DecidableEq, Repr

/-- The fields of a `ServiceCatalog` entry that `config.go` reads. -/
structure ServiceCatalog where
  Name : String := ""
  Version : String := ""
  Scope : String := ""
  Admin : Bool := false
  ResourceBase : String := ""
  WithOutProjectID : Bool := false
  deriving DecidableEq, Repr

/-- One entry of the shared config file. -/
structure Profile where
  Name : String := ""
  Mode : String := ""
  AccessKeyId : String := ""
  SecretAccessKey : String := ""
  SecurityToken : String := ""
  Region : String := ""
  ProjectId : String := ""
  DomainId : String := ""
  AgencyDomainId : String := ""
  AgencyDomainName : String := ""
  AgencyName : String := ""
  deriving DecidableEq, Repr

/-- The shared config file of the CLI. -/
structure SharedConfig where
  Current : String := ""
  Profiles : List Profile := []
  deriving DecidableEq, Repr

/-- The provider configuration.  A Go map is a list of key/value pairs read
with `List.lookup`; an insertion puts the pair in front, so the newest value
of a key is the one found. -/
structure Config where
  AccessKey : String := ""
  SecretKey : String := ""
  CACertFile : String := ""
  ClientCertFile : String := ""
  ClientKeyFile : String := ""
  DomainID : String := ""
  DomainName : String := ""
  IdentityEndpoint : String := ""
  Insecure : Bool := false
  Password : String := ""
  Region : String := ""
  TenantID : String := ""
  TenantName : String := ""
  Token : String := ""
  SecurityToken : String := ""
  Username : String := ""
  UserID : String := ""
  AgencyName : String := ""
  AgencyDomainName : String := ""
  DelegatedProject : String := ""
  Cloud : String := ""
  MaxRetries : Int := 0
  TerraformVersion : String := ""
  RegionClient : Bool := false
  EnterpriseProjectID : String := ""
  SharedConfigFile : String := ""
  Profile : String := ""
  SecurityKeyExpiresAt : Time := Time.zero
  HwClient : Option ProviderClient := none
  DomainClient : Option ProviderClient := none
  Endpoints : List (String × String) := []
  RegionProjectIDMap : List (String × String) := []
  deriving DecidableEq, Repr

/-! ## JSON values and the outside world -/

/-- A decoded JSON document (`json.Unmarshal` into `interface{}`).  The value
of a number is never looked at, so it is kept as its text. -/
inductive JSON where
  | null
  | bool (b : Bool)
  | num (text : String)
  | str (s : String)
  | arr (items : List JSON)
  | obj (fields : List (String × JSON))

/-- What reading and decoding the body of the metadata response gives. -/
inductive MetaBody where
  | readError (msg : String)
  | invalidJSON (msg : String)
  | parsed (v : JSON)

/-- What `httpClient.Do` gives for the metadata request. -/
inductive MetaReply where
  | requestError (msg : String)
  | response (status : Int) (body : MetaBody)

/-- What reading the shared config file gives. -/
inductive SharedFile where
  | notExist
  | readError (msg : String)
  | invalidJSON (msg : String)
  | parsed (cfg : SharedConfig)

/-- An item of a listing of the identity service (project, domain or user). -/
structure Entity where
  ID : String
  Name : String
  deriving DecidableEq, Repr

/-- What `List(...).AllPages()` followed by `Extract...` gives. -/
inductive Listing where
  | pagesError (msg : String)
  | extractError (msg : String)
  | items (all : List Entity)

/-- The arguments of `obs.New`. -/
structure ObsClient where
  ak : String
  sk : String
  endpoint : String
  signature : Option String
  securityToken : Option String
  deriving DecidableEq, Repr

/-- The five arms of the credential decision in `LoadAndValidate`. -/
inductive Branch where
  | token
  | aksk
  | password
  | sharedConfig
  | metadata
  deriving DecidableEq, Repr

/-- The functions whose calls are logged. -/
inductive Fn where
  | reloadSecurityKey
  | getAuthConfigByMeta
  | buildClientByToken
  | buildClientByAKSK
  | buildClientByPassword
  | buildClientByConfig
  | genClient
  | loadUserProjects
  | getDomainID
  | getUserIDbyName
  | obsNew
  | queryPluginDetail
  deriving DecidableEq, Repr

/-- What is logged: the arm of the credential decision that is entered, and
the calls of the functions of `Fn`. -/
inductive Event where
  | branch (b : Branch)
  | call (f : Fn)
  deriving DecidableEq, Repr

/-- The outside world and the static tables.  The `Nat` each of them takes is
the number of events logged when it is asked. -/
structure Env where
  /-- The table `allServiceCatalog`. -/
  allServiceCatalog : List (String × ServiceCatalog)
  /-- The wall clock, `time.Now().Unix()`. -/
  now : Nat → Int
  /-- The metadata endpoint `securityKeyURL`. -/
  metadata : Nat → MetaReply
  /-- The library function `time.Parse(time.RFC3339, s)`. -/
  parseRFC3339 : String → Except String Time
  /-- The result of `huaweisdk.NewClient`, the TLS set-up and
  `huaweisdk.Authenticate`, which make up `genClient`. -/
  authenticate : Nat → Config → AuthOptionsProvider → Except String ProviderClient
  /-- The library function `homedir.Expand`. -/
  homedirExpand : String → Except String String
  /-- The file system, for the shared config file at an expanded path. -/
  sharedFile : Nat → String → SharedFile
  /-- The call `projects.List` through a service client, with the domain ID
  and the name of the list options. -/
  projectsList : Nat → ServiceClient → String → String → Listing
  /-- The call `domains.List` through a service client. -/
  domainsList : Nat → ServiceClient → Listing
  /-- The call `users.List` through a service client, with a name. -/
  usersList : Nat → ServiceClient → String → Listing
  /-- The error of `obs.New`, if any. -/
  obsNew : ObsClient → Option String

/-! ## Programs -/

/-- The state a method of `Config` runs in. -/
structure St where
  c : Config
  trace : List Event

/-- How a Go function ends: it returns, or it panics. -/
inductive Outcome (α : Type) where
  | ret (a : α)
  | panic (msg : String)

/-- A Go function over the `Config`. -/
def Prog (α : Type) : Type := St → Outcome α × St

/-- Sequencing: a panic ends the run. -/
def Prog.bind {α β : Type} (m : Prog α) (f : α → Prog β) : Prog β := fun s =>
  match m s with
  | (Outcome.ret a, s1) => f a s1
  | (Outcome.panic p, s1) => (Outcome.panic p, s1)

instance : Monad Prog where
  pure a := fun s => (Outcome.ret a, s)
  bind := Prog.bind

/-- Read the `Config`. -/
def getC : Prog Config := fun s => (Outcome.ret s.c, s)

/-- Write the `Config`. -/
def modifyC (f : Config → Config) : Prog Unit := fun s => (Outcome.ret (), { s with c := f s.c })

/-- Log an event. -/
def logEvent (e : Event) : Prog Unit := fun s => (Outcome.ret (), { s with trace := s.trace ++ [e] })

/-- The number of events logged so far. -/
def tick : Prog Nat := fun s => (Outcome.ret s.trace.length, s)

/-- A run-time panic. -/
def panicWith {α : Type} (msg : String) : Prog α := fun s => (Outcome.panic msg, s)

/-- Go map insertion. -/
def mapInsert (m : List (String × String)) (k v : String) : List (String × String) := (k, v) :: m

/-! ## Building the identity clients -/

/-- The function `genClient`: everything it does is done by the SDK and the
TLS set-up, whose result is `Env.authenticate`. -/
def genClient (env : Env) (ao : AuthOptionsProvider) : Prog (Except String ProviderClient) := do
  logEvent (Event.call Fn.genClient)
  let n ← tick
  let c ← getC
  pure (env.authenticate n c ao)

/-- The function `genClients`. -/
def genClients (env : Env) (pao dao : AuthOptionsProvider) : Prog (Option String) := do
  match ← genClient env pao with
  | Except.error err => pure (some err)
  | Except.ok client =>
    modifyC (fun c => { c with HwClient := some client })
    match ← genClient env dao with
    | Except.ok client =>
      modifyC (fun c => { c with DomainClient := some client })
      pure none
    | Except.error err => pure (some err)

/-- The function `buildClientByToken`. -/
def buildClientByToken (env : Env) : Prog (Option String) := do
  logEvent (Event.call Fn.buildClientByToken)
  let c ← getC
  let pao : AuthOptions :=
    if c.AgencyDomainName ≠ "" ∧ c.AgencyName ≠ "" then
      { AgencyName := c.AgencyName, AgencyDomainName := c.AgencyDomainName,
        DelegatedProject := c.DelegatedProject }
    else
      { DomainID := c.DomainID, DomainName := c.DomainName,
        TenantID := c.TenantID, TenantName := c.TenantName }
  let dao : AuthOptions :=
    if c.AgencyDomainName ≠ "" ∧ c.AgencyName ≠ "" then
      { AgencyName := c.AgencyName, AgencyDomainName := c.AgencyDomainName }
    else
      { DomainID := c.DomainID, DomainName := c.DomainName }
  let fill : AuthOptions → AuthOptions := fun ao =>
    { ao with IdentityEndpoint := c.IdentityEndpoint, TokenID := c.Token }
  genClients env (AuthOptionsProvider.authOptions (fill pao)) (AuthOptionsProvider.authOptions (fill dao))

/-- The function `buildClientByAKSK`. -/
def buildClientByAKSK (env : Env) : Prog (Option String) := do
  logEvent (Event.call Fn.buildClientByAKSK)
  let c ← getC
  let pao : AKSKAuthOptions :=
    if c.AgencyDomainName ≠ "" ∧ c.AgencyName ≠ "" then
      { DomainID := c.DomainID, Domain := c.DomainName, AgencyName := c.AgencyName,
        AgencyDomainName := c.AgencyDomainName, DelegatedProject := c.DelegatedProject }
    else
      { BssDomainID := c.DomainID, BssDomain := c.DomainName,
        ProjectName := c.TenantName, ProjectId := c.TenantID }
  let dao : AKSKAuthOptions :=
    if c.AgencyDomainName ≠ "" ∧ c.AgencyName ≠ "" then
      { DomainID := c.DomainID, Domain := c.DomainName, AgencyName := c.AgencyName,
        AgencyDomainName := c.AgencyDomainName }
    else
      { DomainID := c.DomainID, Domain := c.DomainName }
  let fill : AKSKAuthOptions → AKSKAuthOptions := fun ao =>
    let ao := { ao with IdentityEndpoint := c.IdentityEndpoint,
                        AccessKey := c.AccessKey, SecretKey := c.SecretKey }
    let ao := if c.Region ≠ "" then { ao with Region := c.Region } else ao
    if c.SecurityToken ≠ "" then
      { ao with SecurityToken := c.SecurityToken, WithUserCatalog := true }
    else ao
  genClients env (AuthOptionsProvider.akskAuthOptions (fill pao))
    (AuthOptionsProvider.akskAuthOptions (fill dao))

/-- The loop of `buildClientByConfig` that fetches the current profile: the
first profile of that name, or the empty profile. -/
def findProfile (current : String) : List Profile → Profile
  | [] => {}
  | v :: rest => if current = v.Name then v else findProfile current rest

/-- The function `buildClientByConfig`. -/
def buildClientByConfig (env : Env) : Prog (Option String) := do
  logEvent (Event.call Fn.buildClientByConfig)
  let c ← getC
  match env.homedirExpand c.SharedConfigFile with
  | Except.error err => pure (some err)
  | Except.ok profilePath =>
    let n ← tick
    match env.sharedFile n profilePath with
    | SharedFile.notExist =>
      pure (some ("The specified shared config file " ++ profilePath ++ " does not exist"))
    | SharedFile.readError msg =>
      pure (some ("Err reading from shared config file: " ++ msg))
    | SharedFile.invalidJSON msg => pure (some msg)
    | SharedFile.parsed sharedConfig =>
      let current := if c.Profile = "" then sharedConfig.Current else c.Profile
      let providerConfig := findProfile current sharedConfig.Profiles
      if providerConfig = {} then
        pure (some ("Error finding profile " ++ current ++ " from shared config file"))
      else if providerConfig.Mode = "AKSK" then do
        modifyC (fun c =>
          let c := { c with AccessKey := providerConfig.AccessKeyId,
                            SecretKey := providerConfig.SecretAccessKey }
          let c := if providerConfig.Region ≠ "" then { c with Region := providerConfig.Region } else c
          let c := if providerConfig.DomainId ≠ "" then { c with DomainID := providerConfig.DomainId } else c
          if providerConfig.ProjectId ≠ "" then { c with TenantID := providerConfig.ProjectId } else c)
        buildClientByAKSK env
      else
        pure (some ("Unsupported mode " ++ providerConfig.Mode ++ " in shared config file"))

/-- The function `buildClientByPassword`. -/
def buildClientByPassword (env : Env) : Prog (Option String) := do
  logEvent (Event.call Fn.buildClientByPassword)
  let c ← getC
  let pao : AuthOptions :=
    if c.AgencyDomainName ≠ "" ∧ c.AgencyName ≠ "" then
      { DomainID := c.DomainID, DomainName := c.DomainName, AgencyName := c.AgencyName,
        AgencyDomainName := c.AgencyDomainName, DelegatedProject := c.DelegatedProject }
    else
      { DomainID := c.DomainID, DomainName := c.DomainName,
        TenantID := c.TenantID, TenantName := c.TenantName }
  let dao : AuthOptions :=
    if c.AgencyDomainName ≠ "" ∧ c.AgencyName ≠ "" then
      { DomainID := c.DomainID, DomainName := c.DomainName, AgencyName := c.AgencyName,
        AgencyDomainName := c.AgencyDomainName }
    else
      { DomainID := c.DomainID, DomainName := c.DomainName }
  let fill : AuthOptions → AuthOptions := fun ao =>
    { ao with IdentityEndpoint := c.IdentityEndpoint, Password := c.Password,
              Username := c.Username, UserID := c.UserID }
  genClients env (AuthOptionsProvider.authOptions (fill pao)) (AuthOptionsProvider.authOptions (fill dao))

/-! ## The metadata credential fetcher -/

/-- A field of a JSON object as `jmespath` reads it: the null value when the
value is not an object or has no such key. -/
def jmesField (v : JSON) (key : String) : JSON :=
  match v with
  | JSON.obj fields => (fields.lookup key).getD JSON.null
  | _ => JSON.null

/-- The library call `jmespath.Search` for a path of two keys, which cannot
fail. -/
def jmesSearch (k1 k2 : String) (v : JSON) : JSON := jmesField (jmesField v k1) k2

/-- The Go test `x == nil` on a decoded JSON value. -/
def JSON.isNil : JSON → Bool
  | JSON.null => true
  | _ => false

/-- The type assertion `x.(string)`, which panics on every other value. -/
def assertString (v : JSON) : Prog String :=
  match v with
  | JSON.str s => pure s
  | _ => panicWith "interface conversion: interface {} is not string"

/-- The function `getAuthConfigByMeta`.  Building the request from the
constant URL cannot fail and is left out. -/
def getAuthConfigByMeta (env : Env) : Prog (Option String) := do
  logEvent (Event.call Fn.getAuthConfigByMeta)
  let n ← tick
  match env.metadata n with
  | MetaReply.requestError msg => pure (some ("Error requesting metadata API: " ++ msg))
  | MetaReply.response status body =>
    if status ≠ 200 then
      pure (some ("Error requesting metadata API: status code = " ++ toString status))
    else
      match body with
      | MetaBody.readError msg => pure (some ("Error parsing metadata API response: " ++ msg))
      | MetaBody.invalidJSON msg =>
        pure (some ("Error unmarshal metadata API, agency_name is empty: " ++ msg))
      | MetaBody.parsed parsedBody =>
        let expiresAt := jmesSearch "credential" "expires_at" parsedBody
        let accessKey := jmesSearch "credential" "access" parsedBody
        let secretKey := jmesSearch "credential" "secret" parsedBody
        let securityToken := jmesSearch "credential" "securitytoken" parsedBody
        if accessKey.isNil || secretKey.isNil || securityToken.isNil || expiresAt.isNil then
          pure (some "Error fetching metadata authentication information.")
        else do
          let expiresText ← assertString expiresAt
          match env.parseRFC3339 expiresText with
          | Except.error err => pure (some err)
          | Except.ok expairesTime =>
            let ak ← assertString accessKey
            let sk ← assertString secretKey
            let st ← assertString securityToken
            modifyC (fun c => { c with AccessKey := ak, SecretKey := sk, SecurityToken := st,
                                       SecurityKeyExpiresAt := expairesTime })
            pure none

/-- The function `Config.reloadSecurityKey`. -/
def reloadSecurityKey (env : Env) : Prog (Option String) := do
  logEvent (Event.call Fn.reloadSecurityKey)
  match ← getAuthConfigByMeta env with
  | some err => pure (some ("Error reloading Auth credentials from ECS Metadata API: " ++ err))
  | none => buildClientByAKSK env

/-! ## Object storage clients -/

/-- The function `getObsEndpoint`. -/
def getObsEndpoint (c : Config) (region : String) : String :=
  match c.Endpoints.lookup "obs" with
  | some endpoint => endpoint
  | none => "https://obs." ++ region ++ "." ++ c.Cloud ++ "/"

/-- The library call `obs.New`: the client keeps its arguments. -/
def obsNew (env : Env) (args : ObsClient) : Prog (Except String ObsClient) := do
  logEvent (Event.call Fn.obsNew)
  match env.obsNew args with
  | some err => pure (Except.error err)
  | none => pure (Except.ok args)

/-- The function `Config.ObjectStorageClientWithSignature`.  The set-up of the
SDK log is left out. -/
def ObjectStorageClientWithSignature (env : Env) (region : String) : Prog (Except String ObsClient) := do
  let c ← getC
  if c.AccessKey = "" ∨ c.SecretKey = "" then
    pure (Except.error "missing credentials for OBS, need access_key and secret_key values for provider")
  else
    let obsEndpoint := getObsEndpoint c region
    if c.SecurityToken ≠ "" then
      obsNew env ⟨c.AccessKey, c.SecretKey, obsEndpoint, some "OBS", some c.SecurityToken⟩
    else
      obsNew env ⟨c.AccessKey, c.SecretKey, obsEndpoint, some "OBS", none⟩

/-- The expiry check that `ObjectStorageClient` and `NewServiceClient` make
in the same words, under `SecurityKeyLock`: when `SecurityKeyExpiresAt` is not
the zero time and the clock plus `keyExpiresDuration` is past it,
`reloadSecurityKey` is called.  The value that `reloadSecurityKey` returns is
not looked at. -/
def refreshIfExpiring (env : Env) : Prog Unit := do
  let c ← getC
  if !c.SecurityKeyExpiresAt.IsZero then
    let n ← tick
    let timeNow := env.now n
    let expairesAtInt := c.SecurityKeyExpiresAt.Unix
    if wrapInt64 (timeNow + keyExpiresDuration) > expairesAtInt then
      let _ ← reloadSecurityKey env

/-- The function `Config.ObjectStorageClient`.  The set-up of the SDK log is
left out. -/
def ObjectStorageClient (env : Env) (region : String) : Prog (Except String ObsClient) := do
  let c ← getC
  if c.AccessKey = "" ∨ c.SecretKey = "" then
    pure (Except.error "missing credentials for OBS, need access_key and secret_key values for provider")
  else do
    refreshIfExpiring env
    let c ← getC
    let obsEndpoint := getObsEndpoint c region
    if c.SecurityToken ≠ "" then
      obsNew env ⟨c.AccessKey, c.SecretKey, obsEndpoint, none, some c.SecurityToken⟩
    else
      obsNew env ⟨c.AccessKey, c.SecretKey, obsEndpoint, none, none⟩

/-! ## Service clients -/

/-- The function `Config.loadUserProjects`.  Reading `client.DomainID` through
a nil pointer panics. -/
def loadUserProjects (env : Env) (client : Option ProviderClient) (region : String) :
    Prog (Option String) := do
  logEvent (Event.call Fn.loadUserProjects)
  match client with
  | none => panicWith "invalid memory address or nil pointer dereference"
  | some pc =>
    let c ← getC
    let domainID := pc.DomainID
    let sc : ServiceClient := { Endpoint := c.IdentityEndpoint ++ "/", ProviderClient := client }
    let n ← tick
    match env.projectsList n sc domainID region with
    | Listing.pagesError msg => pure (some ("List projects failed, err=" ++ msg))
    | Listing.extractError msg => pure (some ("Extract projects failed, err=" ++ msg))
    | Listing.items all =>
      if all.length = 0 then
        pure (some ("Wrong name or no access to the region: " ++ region))
      else do
        modifyC (fun c =>
          let regionProjectIDMap := all.foldl (fun m item => mapInsert m item.Name item.ID) c.RegionProjectIDMap
          { c with RegionProjectIDMap := regionProjectIDMap })
        pure none

/-- The look-up of the project ID in `newServiceClientByName`: the entry of
`RegionProjectIDMap` for the region, and when there is none, the entry after
`loadUserProjects` has run (the empty string when there is still none). -/
def resolveProjectID (env : Env) (client : Option ProviderClient) (region : String) :
    Prog (Except String String) := do
  let c ← getC
  match c.RegionProjectIDMap.lookup region with
  | some projectID => pure (Except.ok projectID)
  | none =>
    match ← loadUserProjects env client region with
    | some err => pure (Except.error err)
    | none =>
      let c ← getC
      pure (Except.ok ((c.RegionProjectIDMap.lookup region).getD ""))

/-- The end of `newServiceClientByName`: the copy of the identity client with
the project ID and the region set, the endpoint and the resource base. -/
def assembleByName (c : Config) (pc : ProviderClient) (catalog : ServiceCatalog)
    (region projectID : String) : ServiceClient :=
  let clone : ProviderClient :=
    { pc with ProjectID := projectID,
              AKSKAuthOptions := { pc.AKSKAuthOptions with ProjectId := projectID, Region := region } }
  let endpoint :=
    if catalog.Scope = "global" ∧ ¬ c.RegionClient then
      "https://" ++ catalog.Name ++ "." ++ c.Cloud ++ "/"
    else
      "https://" ++ catalog.Name ++ "." ++ region ++ "." ++ c.Cloud ++ "/"
  let resourceBase := endpoint
  let resourceBase :=
    if catalog.Version ≠ "" then resourceBase ++ catalog.Version ++ "/" else resourceBase
  let resourceBase :=
    if ¬ catalog.WithOutProjectID then resourceBase ++ projectID ++ "/" else resourceBase
  let resourceBase :=
    if catalog.ResourceBase ≠ "" then resourceBase ++ catalog.ResourceBase ++ "/" else resourceBase
  { ProviderClient := some clone, Endpoint := endpoint, ResourceBase := resourceBase }

/-- The function `Config.newServiceClientByName`.  Copying `*client` through a
nil pointer panics. -/
def newServiceClientByName (env : Env) (client : Option ProviderClient) (catalog : ServiceCatalog)
    (region : String) : Prog (Except String ServiceClient) := do
  let c ← getC
  if catalog.Name = "" then
    pure (Except.error "must specify the service name")
  else if region ≠ c.Region ∧ (c.AccessKey = "" ∨ c.SecretKey = "") then
    pure (Except.error ("Resource-level region must be the same as Provider-level region " ++
      "when using non AK/SK authentication if Resource-level region set"))
  else do
    match ← resolveProjectID env client region with
    | Except.error err => pure (Except.error err)
    | Except.ok projectID =>
      let c ← getC
      match client with
      | none => panicWith "invalid memory address or nil pointer dereference"
      | some pc => pure (Except.ok (assembleByName c pc catalog region projectID))

/-- The resource base that `newServiceClientByEndpoint` appends to the
endpoint, with the project ID of the client. -/
def assembleByEndpoint (client : Option ProviderClient) (catalog : ServiceCatalog)
    (endpoint projectID : String) : ServiceClient :=
  let resourceBase := endpoint
  let resourceBase :=
    if catalog.Version ≠ "" then resourceBase ++ catalog.Version ++ "/" else resourceBase
  let resourceBase :=
    if ¬ catalog.WithOutProjectID then resourceBase ++ projectID ++ "/" else resourceBase
  let resourceBase :=
    if catalog.ResourceBase ≠ "" then resourceBase ++ catalog.ResourceBase ++ "/" else resourceBase
  { ProviderClient := client, Endpoint := endpoint, ResourceBase := resourceBase }

/-- The function `Config.newServiceClientByEndpoint`.  Reading
`client.ProjectID` through a nil pointer panics; it is read only when the
entry has `WithOutProjectID` unset. -/
def newServiceClientByEndpoint (env : Env) (client : Option ProviderClient) (srv endpoint : String) :
    Prog (Except String ServiceClient) := do
  match env.allServiceCatalog.lookup srv with
  | none => pure (Except.error ("service type " ++ srv ++ " is invalid or not supportted"))
  | some catalog =>
    match client with
    | some pc => pure (Except.ok (assembleByEndpoint client catalog endpoint pc.ProjectID))
    | none =>
      if ¬ catalog.WithOutProjectID then
        panicWith "invalid memory address or nil pointer dereference"
      else
        pure (Except.ok (assembleByEndpoint client catalog endpoint ""))

/-- The end of `NewServiceClient`, after the expiry check: the domain client
for an `Admin` entry and `HwClient` otherwise, then the constructor by
endpoint when `Endpoints` has an override for the service and the
constructor by name when it has none. -/
def buildServiceClient (env : Env) (srv region : String) (serviceCatalog : ServiceCatalog) :
    Prog (Except String ServiceClient) := do
  let c ← getC
  let client := if serviceCatalog.Admin then c.DomainClient else c.HwClient
  match c.Endpoints.lookup srv with
  | some endpoint => newServiceClientByEndpoint env client srv endpoint
  | none => newServiceClientByName env client serviceCatalog region

/-- The function `Config.NewServiceClient`. -/
def NewServiceClient (env : Env) (srv region : String) : Prog (Except String ServiceClient) := do
  match env.allServiceCatalog.lookup srv with
  | none => pure (Except.error ("service type " ++ srv ++ " is invalid or not supportted"))
  | some serviceCatalog =>
    refreshIfExpiring env
    buildServiceClient env srv region serviceCatalog

/-- The function `Config.IdentityV3Client`. -/
def IdentityV3Client (env : Env) (region : String) : Prog (Except String ServiceClient) :=
  NewServiceClient env "identity" region

/-- The function `Config.getDomainID`. -/
def getDomainID (env : Env) : Prog (Except String String) := do
  logEvent (Event.call Fn.getDomainID)
  let c ← getC
  match ← IdentityV3Client env c.Region with
  | Except.error err => pure (Except.error ("Error creating IAM client: " ++ err))
  | Except.ok identityClient =>
    let identityClient := { identityClient with ResourceBase := identityClient.ResourceBase ++ "auth/" }
    let n ← tick
    match env.domainsList n identityClient with
    | Listing.pagesError msg => pure (Except.error ("List domains failed, err=" ++ msg))
    | Listing.extractError msg => pure (Except.error ("Extract domains failed, err=" ++ msg))
    | Listing.items [] => pure (Except.error "domain was not found")
    | Listing.items (first :: _) =>
      let c ← getC
      if c.DomainName ≠ "" ∧ c.DomainName ≠ first.Name then
        pure (Except.error ("domain " ++ c.DomainName ++ " was not found, got " ++ first.Name))
      else
        pure (Except.ok first.ID)

/-- The function `Config.getUserIDbyName`. -/
def getUserIDbyName (env : Env) (name : String) : Prog (Except String String) := do
  logEvent (Event.call Fn.getUserIDbyName)
  let c ← getC
  match ← IdentityV3Client env c.Region with
  | Except.error err => pure (Except.error ("Error creating IAM client: " ++ err))
  | Except.ok identityClient =>
    let n ← tick
    match env.usersList n identityClient name with
    | Listing.pagesError msg => pure (Except.error ("query IAM user " ++ name ++ " failed, err=" ++ msg))
    | Listing.extractError msg => pure (Except.error ("Extract users failed, err=" ++ msg))
    | Listing.items [] => pure (Except.error ("IAM user " ++ name ++ " was not found"))
    | Listing.items (first :: _) =>
      if name ≠ "" ∧ name ≠ first.Name then
        pure (Except.error ("IAM user " ++ name ++ " was not found, got " ++ first.Name))
      else
        pure (Except.ok first.ID)

/-! ## The authenticator -/

/-- The part of `Config.LoadAndValidate` after the credentials are resolved
(from the test of the region to the end). -/
def afterCredentials (env : Env) : Prog (Option String) := do
  let c ← getC
  if c.Region = "" then
    pure (some "region should be provided.")
  else do
    match c.HwClient with
    | some hw =>
      if hw.ProjectID ≠ "" then
        modifyC (fun c => { c with RegionProjectIDMap := mapInsert c.RegionProjectIDMap c.Region hw.ProjectID })
    | none => pure ()
    if c.DomainID = "" then
      match ← getDomainID env with
      | Except.ok domainID =>
        modifyC (fun c => { c with DomainID := domainID })
        let c ← getC
        match c.DomainClient with
        | none => panicWith "invalid memory address or nil pointer dereference"
        | some dc =>
          if dc.AKSKAuthOptions.AccessKey ≠ "" then
            modifyC (fun c =>
              let akskAuthOptions := { dc.AKSKAuthOptions with DomainID := c.DomainID }
              { c with DomainClient := some { dc with AKSKAuthOptions := akskAuthOptions } })
      | Except.error _ => pure ()
    let c ← getC
    if c.UserID = "" ∧ c.Username ≠ "" then
      match ← getUserIDbyName env c.Username with
      | Except.ok userID => modifyC (fun c => { c with UserID := userID })
      | Except.error _ => pure ()
    pure none

/-- The function `Config.LoadAndValidate`.  Each arm of the credential
decision logs that it is entered. -/
def LoadAndValidate (env : Env) : Prog (Option String) := do
  let c ← getC
  if c.MaxRetries < 0 then
    pure (some "max_retries should be a positive value")
  else do
    let err ← (
      if c.Token ≠ "" then do
        logEvent (Event.branch Branch.token)
        buildClientByToken env
      else if c.AccessKey ≠ "" ∧ c.SecretKey ≠ "" then do
        logEvent (Event.branch Branch.aksk)
        buildClientByAKSK env
      else if c.Password ≠ "" then do
        logEvent (Event.branch Branch.password)
        if c.Username = "" ∧ c.UserID = "" then
          pure (some "\"password\": one of `user_name, user_id` must be specified")
        else
          buildClientByPassword env
      else if c.SharedConfigFile ≠ "" then do
        logEvent (Event.branch Branch.sharedConfig)
        buildClientByConfig env
      else do
        logEvent (Event.branch Branch.metadata)
        match ← getAuthConfigByMeta env with
        | some err =>
          pure (some ("Error fetching Auth credentials from ECS Metadata API, " ++
            "AkSk or ECS agency must be provided: " ++ err))
        | none => buildClientByAKSK env : Prog (Option String))
    match err with
    | some err => pure (some err)
    | none => afterCredentials env

/-! ## The retry back-off -/

/-- The conversion `int(math.Pow(2, float64(retries)))` of `retryBackoffFunc`.
A power of two below `2 ^ 63` is exact as a `float64` and converts to itself.
From `2 ^ 63` on the float is outside `int`, and Go leaves the result of the
conversion to the implementation; it is the parameter `outOfRange` (the
minimum `int64` on amd64, the maximum on arm64). -/
def powToInt (outOfRange : Int) (retries : Nat) : Int :=
  if retries < 63 then 2 ^ retries else outOfRange

/-- The constant `time.Minute`, in nanoseconds. -/
def minuteNanoseconds : Int := 60000000000

/-- The variable `minutes` of `retryBackoffFunc`, after the cap. -/
def backoffMinutes (outOfRange : Int) (retries : Nat) : Int :=
  let minutes := powToInt outOfRange retries
  if minutes > 30 then 30 else minutes

/-- The variable `sleep` of `retryBackoffFunc`, a `time.Duration` in
nanoseconds: the 64 bit product `time.Duration(minutes) * time.Minute`. -/
def backoffSleep (outOfRange : Int) (retries : Nat) : Int :=
  wrapInt64 (backoffMinutes outOfRange retries * minuteNanoseconds)

/-- The result of converting an out-of-range float to `int` on amd64. -/
def minInt64 : Int := -9223372036854775808

/-- A `context.Context`, as far as `retryBackoffFunc` looks at it: the moment,
in nanoseconds after the call, at which `Done()` is closed, if ever. -/
structure Context where
  doneAt : Option Nat
  deriving DecidableEq, Repr

/-- What a call of `retryBackoffFunc` gives: the returned error (`none` is
`nil`) and the nanoseconds that have passed when it returns. -/
structure Backoff where
  err : Option String
  elapsed : Nat
  deriving DecidableEq, Repr

/-- The function `retryBackoffFunc`.  The argument `respErr` is not used by
the code and is left out.  A timer of a duration that is not positive fires at
once.  The `select` returns with the channel that is ready first; `tie` says
whether it takes `ctx.Done()` when both are ready at the same moment. -/
def retryBackoffFunc (outOfRange : Int) (ctx : Option Context) (tie : Bool) (e : Option String)
    (retries : Nat) : Backoff :=
  let minutes := powToInt outOfRange retries
  let minutes := if minutes > 30 then 30 else minutes
  let sleep := wrapInt64 (minutes * minuteNanoseconds)
  match ctx with
  | some ctx =>
    match ctx.doneAt with
    | some t =>
      if t < sleep.toNat then ⟨e, t⟩
      else if sleep.toNat < t then ⟨none, sleep.toNat⟩
      else if tie then ⟨e, t⟩
      else ⟨none, sleep.toNat⟩
    | none => ⟨none, sleep.toNat⟩
  | none => ⟨none, sleep.toNat⟩

/-! ## Resource data and its accessors -/

/-- The zero value test that `ResourceData.GetOk` of the plugin SDK applies
to a value: the empty string, `false`, zero, an empty list or map. -/
def JSON.isZero : JSON → Bool
  | JSON.null => true
  | JSON.bool b => !b
  | JSON.num text => text == "0"
  | JSON.str s => s == ""
  | JSON.arr items => items.isEmpty
  | JSON.obj fields => fields.isEmpty

/-- A `schema.ResourceData` of the plugin SDK, as far as the code reads it:
the values of the attributes that are set, and the ID. -/
structure ResourceData where
  attrs : List (String × JSON) := []
  id : String := ""

/-- The SDK method `ResourceData.GetOk`: the value of the attribute, and
whether it is set to a value that is not the zero value of its type. -/
def ResourceData.GetOk (d : ResourceData) (key : String) : JSON × Bool :=
  match d.attrs.lookup key with
  | some v => (v, !v.isZero)
  | none => (JSON.null, false)

/-- The type assertion `v.(string)` outside a method of `Config`. -/
def stringOf (v : JSON) : Outcome String :=
  match v with
  | JSON.str s => Outcome.ret s
  | _ => Outcome.panic "interface conversion: interface {} is not string"

/-- The function `Config.GetRegion`. -/
def GetRegion (c : Config) (d : ResourceData) : Outcome String :=
  match d.GetOk "region" with
  | (v, true) => stringOf v
  | (_, false) => Outcome.ret c.Region

/-- The function `Config.GetEnterpriseProjectID`. -/
def GetEnterpriseProjectID (c : Config) (d : ResourceData) : Outcome String :=
  match d.GetOk "enterprise_project_id" with
  | (v, true) => stringOf v
  | (_, false) => Outcome.ret c.EnterpriseProjectID

/-- The function `Config.DataGetEnterpriseProjectID`. -/
def DataGetEnterpriseProjectID (c : Config) (d : ResourceData) : Outcome String :=
  match d.GetOk "enterprise_project_id" with
  | (v, true) => stringOf v
  | (_, false) =>
    if c.EnterpriseProjectID ≠ "" then Outcome.ret c.EnterpriseProjectID
    else Outcome.ret "all_granted_eps"

/-! ## The RDS PG plugin resource -/

/-- The library function `strings.Split` for a separator of one character,
on the characters of the string: the pieces between the separators, one more
than there are separators. -/
def splitChars (sep : Char) : List Char → List (List Char)
  | [] => [[]]
  | c :: rest =>
    if c = sep then [] :: splitChars sep rest
    else
      match splitChars sep rest with
      | [] => [[c]]
      | first :: more => (c :: first) :: more

/-- The library function `strings.Split` for a separator of one character. -/
def stringsSplit (s : String) (sep : Char) : List String :=
  (splitChars sep s.data).map String.mk

/-- The expression `d.Get(key).(string)` for an attribute that the schema
declares as a string: the value, or the empty string when it is not set. -/
def ResourceData.getString (d : ResourceData) (key : String) : String :=
  match d.attrs.lookup key with
  | some (JSON.str s) => s
  | _ => ""

/-- Whether a JMESPath filter keeps a value: every value but null, `false`,
the empty string, the empty list and the empty object. -/
def JSON.truthy : JSON → Bool
  | JSON.null => false
  | JSON.bool b => b
  | JSON.num _ => true
  | JSON.str s => s != ""
  | JSON.arr items => !items.isEmpty
  | JSON.obj fields => !fields.isEmpty

/-- Modelled from the spec: the helper `utils.PathSearch` of this repository
is not under src; for an expression that is one key it is the field of that
key, and the default value when there is none or it is null. -/
def pathSearchKey (key : String) (obj defaultValue : JSON) : JSON :=
  match jmesField obj key with
  | JSON.null => defaultValue
  | v => v

/-- The JMESPath comparison `name=='<name>'` on an element of a list. -/
def isNamed (name : String) (e : JSON) : Bool :=
  match jmesField e "name" with
  | JSON.str s => s == name
  | _ => false

/-- The name can stand between the quotes of a JMESPath literal as it is: it
has no single quote and no backslash. -/
def plainName (name : String) : Prop :=
  ∀ c ∈ name.data, c ≠ Char.ofNat 39 ∧ c ≠ Char.ofNat 92

instance (name : String) : Decidable (plainName name) := by
  unfold plainName
  infer_instance

/-- Modelled from the spec: the helper `utils.PathSearch` of this repository
is not under src; for the expression `extensions[?name=='<name>']|[?created]|[0]`
and the default value nil it is the first of the elements of the list
`extensions` that have the name and a `created` that the filter keeps, and
nil when there is none or `extensions` is not a list.  That is for a name
that stands between the quotes as it is; with another name the expression
is another one, and what the helper gives for it is the parameter
`quoted`. -/
def pathSearchPlugin (quoted : String → JSON → JSON) (name : String) (obj : JSON) : JSON :=
  if plainName name then
    match jmesField obj "extensions" with
    | JSON.arr items =>
      match (items.filter (isNamed name)).filter (fun e => (jmesField e "created").truthy) with
      | first :: _ => first
      | [] => JSON.null
    | _ => JSON.null
  else quoted name obj

/-- What `pagination.ListAllItems` gives: the response and an error, or the
response alone. -/
inductive ListResult where
  | failure (resp : JSON) (err : String)
  | success (resp : JSON)

/-- The error of `queryPluginDetail`: `golangsdk.ErrDefault404{}` or an error
made with `fmt.Errorf`. -/
inductive QueryError where
  | notFound
  | other (msg : String)
  deriving DecidableEq, Repr

/-- The service behind the RDS client.  The `Nat` each of them takes is the
number of events logged when it is asked. -/
structure RdsEnv where
  /-- The call `pagination.ListAllItems` with a request path. -/
  listAllItems : Nat → ServiceClient → String → ListResult
  /-- The error, if any, of the retried `POST` of `resourceRdsPgPluginCreate`,
  with the request path, the database name and the extension name. -/
  createPlugin : Nat → ServiceClient → String → String → String → Option String
  /-- What `utils.PathSearch` gives for the expression of `queryPluginDetail`
  made with a name that has a single quote or a backslash. -/
  searchQuoted : String → JSON → JSON

/-- The function `parseErrCode`.  Encoding the response and decoding it again
gives the response back. -/
def parseErrCode (resp : JSON) : Outcome String :=
  stringOf (pathSearchKey "errCode" resp (JSON.str ""))

/-- The function `queryPluginDetail`, which logs that it is called.  Reading
`client.ProjectID` through a nil `ProviderClient` panics. -/
def queryPluginDetail (rds : RdsEnv) (client : ServiceClient)
    (instanceId databaseName name : String) : Prog (Except QueryError JSON) := do
  logEvent (Event.call Fn.queryPluginDetail)
  match client.ProviderClient with
  | none => panicWith "invalid memory address or nil pointer dereference"
  | some pc =>
    let reqUri := "v3/{project_id}/instances/{instance_id}/extensions?database_name={database_name}"
    let reqPath := client.Endpoint ++ reqUri
    let reqPath := reqPath.replace "{project_id}" pc.ProjectID
    let reqPath := reqPath.replace "{instance_id}" instanceId
    let reqPath := reqPath.replace "{database_name}" databaseName
    let n ← tick
    match rds.listAllItems n client reqPath with
    | ListResult.failure resp err =>
      match parseErrCode resp with
      | Outcome.panic p => panicWith p
      | Outcome.ret errCode =>
        if errCode = "DBS.280238" ∨ errCode = "DBS.200823" then
          pure (Except.error QueryError.notFound)
        else
          pure (Except.error (QueryError.other ("error retrieving PG plugin: " ++ err)))
    | ListResult.success resp =>
      let pluginDetail := pathSearchPlugin rds.searchQuoted name resp
      if pluginDetail.isNil then
        pure (Except.error QueryError.notFound)
      else
        pure (Except.ok pluginDetail)

/-- The ID that `resourceRdsPgPluginCreate` writes with
`fmt.Sprintf("%s/%s/%s", ...)`. -/
def pluginID (instanceId databaseName name : String) : String :=
  instanceId ++ "/" ++ databaseName ++ "/" ++ name

/-- How `resourceRdsPgPluginRead` ends.  The last two name what it hands over
to: `common.CheckDeletedDiag` with the error of the query, and the setting of
the attributes from the plugin found. -/
inductive ReadResult where
  | clientError (msg : String)
  | invalidID (msg : String)
  | queryFailed (err : QueryError)
  | found (pluginDetail : JSON)

/-- The function `resourceRdsPgPluginRead`, up to the result of the query. -/
def resourceRdsPgPluginRead (env : Env) (rds : RdsEnv) (d : ResourceData) : Prog ReadResult := do
  let cfg ← getC
  match GetRegion cfg d with
  | Outcome.panic p => panicWith p
  | Outcome.ret region =>
    match ← NewServiceClient env "rds" region with
    | Except.error err => pure (ReadResult.clientError ("error creating RDS PG plugin client: " ++ err))
    | Except.ok client =>
      match stringsSplit d.id '/' with
      | [a, b, c] =>
        match ← queryPluginDetail rds client a b c with
        | Except.error err => pure (ReadResult.queryFailed err)
        | Except.ok pluginDetail => pure (ReadResult.found pluginDetail)
      | _ => pure (ReadResult.invalidID ("invalid ID format in ReadContext: " ++ d.id))

/-- How `resourceRdsPgPluginCreate` ends. -/
inductive CreateResult where
  | clientError (msg : String)
  | queryFailed (msg : String)
  | alreadyCreated (pluginDetail : JSON)
  | requestFailed (msg : String)
  | created (id : String) (read : ReadResult)

/-- The function `resourceRdsPgPluginCreate`.  The retried `POST` is one call
of `RdsEnv.createPlugin`. -/
def resourceRdsPgPluginCreate (env : Env) (rds : RdsEnv) (d : ResourceData) : Prog CreateResult := do
  let cfg ← getC
  match GetRegion cfg d with
  | Outcome.panic p => panicWith p
  | Outcome.ret region =>
    match ← NewServiceClient env "rds" region with
    | Except.error err => pure (CreateResult.clientError ("error creating RDS PG plugin client: " ++ err))
    | Except.ok client =>
      match ← queryPluginDetail rds client (d.getString "instance_id") (d.getString "database_name")
          (d.getString "name") with
      | Except.error (QueryError.other msg) => pure (CreateResult.queryFailed msg)
      | Except.ok pluginDetail => pure (CreateResult.alreadyCreated pluginDetail)
      | Except.error QueryError.notFound =>
        match client.ProviderClient with
        | none => panicWith "invalid memory address or nil pointer dereference"
        | some pc =>
          let reqUri := "v3/{project_id}/instances/{instance_id}/extensions"
          let reqPath := client.Endpoint ++ reqUri
          let reqPath := reqPath.replace "{project_id}" pc.ProjectID
          let reqPath := reqPath.replace "{instance_id}" (d.getString "instance_id")
          let n ← tick
          match rds.createPlugin n client reqPath (d.getString "database_name") (d.getString "name") with
          | some err => pure (CreateResult.requestFailed ("error creating RDS PG plugin: " ++ err))
          | none =>
            let id := pluginID (d.getString "instance_id") (d.getString "database_name")
              (d.getString "name")
            let d := { d with id := id }
            let read ← resourceRdsPgPluginRead env rds d
            pure (CreateResult.created id read)

/-! ## The enum wrappers of the CDN request model -/

/-- The four hexadecimal digits of a number below 65536. -/
def hex4 (n : Nat) : String :=
  String.mk ([n / 4096 % 16, n / 256 % 16, n / 16 % 16, n % 16].map
    (fun d => "0123456789abcdef".data.getD d '0'))

/-- What the encoder of `encoding/json` writes for one character of a string:
the escapes that JSON requires (the double quote, the backslash, the control
characters), the escapes of the two line separators U+2028 and U+2029, which
it always adds, and, when `escapeHTML` is set, the escapes of `<`, `>` and
`&`. -/
def jsonEscape (escapeHTML : Bool) (c : Char) : String :=
  if c = '"' then "\\\""
  else if c = '\\' then "\\\\"
  else if c = '\n' then "\\n"
  else if c = '\r' then "\\r"
  else if c = '\t' then "\\t"
  else if c.toNat < 32 then "\\u" ++ hex4 c.toNat
  else if c.toNat = 8232 ∨ c.toNat = 8233 then "\\u" ++ hex4 c.toNat
  else if escapeHTML ∧ (c = '<' ∨ c = '>' ∨ c = '&') then "\\u" ++ hex4 c.toNat
  else String.singleton c

/-- Modelled from the spec: the helper `utils.Marshal` of the vendored SDK is
not under src; it encodes with `Encode` of a `json.Encoder`, which for a
string writes the JSON text of the string, the characters between two double
quotes, each written as the encoder writes it, and a line feed after it. -/
def utilsMarshal (escapeHTML : Bool) (value : String) : Except String String :=
  Except.ok ("\"" ++ String.join (value.data.map (jsonEscape escapeHTML)) ++ "\"" ++ "\n")

/-- The library function `strings.Trim` for a cutset of one character. -/
def stringsTrim (s : String) (cut : Char) : String :=
  String.mk (((s.data.dropWhile (fun c => c = cut)).reverse.dropWhile (fun c => c = cut)).reverse)

/-- Modelled from the spec: the package `converter` of the vendored SDK is not
under src; `StringConverterFactory` returns a converter for the type name
`string` (nil for a name it does not know), and the method
`CovertStringToInterface` of that converter returns the string as it is. -/
def stringConverterFactory (vType : String) : Option (String → Except String JSON) :=
  if vType = "string" then some (fun value => Except.ok (JSON.str value)) else none

/-- The type `ShowHistoryTasksRequestStatus`. -/
structure ShowHistoryTasksRequestStatus where
  value : String
  deriving DecidableEq, Repr

/-- The type `ShowHistoryTasksRequestFileType`. -/
structure ShowHistoryTasksRequestFileType where
  value : String
  deriving DecidableEq, Repr

/-- The type `ShowHistoryTasksRequestTaskType`. -/
structure ShowHistoryTasksRequestTaskType where
  value : String
  deriving DecidableEq, Repr

/-- The constants of `GetShowHistoryTasksRequestStatusEnum`. -/
def statusEnum : List ShowHistoryTasksRequestStatus := [⟨"task_inprocess"⟩, ⟨"task_done"⟩]

/-- The constants of `GetShowHistoryTasksRequestFileTypeEnum`. -/
def fileTypeEnum : List ShowHistoryTasksRequestFileType := [⟨"file"⟩, ⟨"directory"⟩]

/-- The constants of `GetShowHistoryTasksRequestTaskTypeEnum`. -/
def taskTypeEnum : List ShowHistoryTasksRequestTaskType := [⟨"refresh"⟩, ⟨"preheating"⟩]

/-- The method `ShowHistoryTasksRequestStatus.Value`. -/
def ShowHistoryTasksRequestStatus.Value (c : ShowHistoryTasksRequestStatus) : String := c.value

/-- The method `ShowHistoryTasksRequestFileType.Value`. -/
def ShowHistoryTasksRequestFileType.Value (c : ShowHistoryTasksRequestFileType) : String := c.value

/-- The method `ShowHistoryTasksRequestTaskType.Value`. -/
def ShowHistoryTasksRequestTaskType.Value (c : ShowHistoryTasksRequestTaskType) : String := c.value

/-- The method `ShowHistoryTasksRequestStatus.MarshalJSON`. -/
def ShowHistoryTasksRequestStatus.MarshalJSON (escapeHTML : Bool) (c : ShowHistoryTasksRequestStatus) :
    Except String String :=
  utilsMarshal escapeHTML c.value

/-- The method `ShowHistoryTasksRequestFileType.MarshalJSON`. -/
def ShowHistoryTasksRequestFileType.MarshalJSON (escapeHTML : Bool)
    (c : ShowHistoryTasksRequestFileType) : Except String String :=
  utilsMarshal escapeHTML c.value

/-- The method `ShowHistoryTasksRequestTaskType.MarshalJSON`. -/
def ShowHistoryTasksRequestTaskType.MarshalJSON (escapeHTML : Bool)
    (c : ShowHistoryTasksRequestTaskType) : Except String String :=
  utilsMarshal escapeHTML c.value

/-- The body that the three methods `UnmarshalJSON` share: the string that
the wrapper is given, or the error. -/
def unmarshalEnumValue (b : String) : Except String String :=
  match stringConverterFactory "string" with
  | none => Except.error "unsupported StringConverter type: string"
  | some myConverter =>
    match myConverter (stringsTrim b '"') with
    | Except.error err => Except.error err
    | Except.ok interf =>
      match interf with
      | JSON.str val => Except.ok val
      | _ => Except.error "convert enum data to string error"

/-- The method `ShowHistoryTasksRequestStatus.UnmarshalJSON`: the wrapper
after the call, or the error. -/
def ShowHistoryTasksRequestStatus.UnmarshalJSON (b : String) :
    Except String ShowHistoryTasksRequestStatus :=
  match unmarshalEnumValue b with
  | Except.ok val => Except.ok ⟨val⟩
  | Except.error err => Except.error err

/-- The method `ShowHistoryTasksRequestFileType.UnmarshalJSON`. -/
def ShowHistoryTasksRequestFileType.UnmarshalJSON (b : String) :
    Except String ShowHistoryTasksRequestFileType :=
  match unmarshalEnumValue b with
  | Except.ok val => Except.ok ⟨val⟩
  | Except.error err => Except.error err

/-- The method `ShowHistoryTasksRequestTaskType.UnmarshalJSON`. -/
def ShowHistoryTasksRequestTaskType.UnmarshalJSON (b : String) :
    Except String ShowHistoryTasksRequestTaskType :=
  match unmarshalEnumValue b with
  | Except.ok val => Except.ok ⟨val⟩
  | Except.error err => Except.error err

/-! ## Notions used by the statements -/

/-- A relation between the `Config` before and after that programs can be
framed by. -/
structure Frame (F : Config → Config → Prop) : Prop where
  refl : ∀ c, F c c
  trans : ∀ a b c, F a b → F b c → F a c

/-- The program only appends events that satisfy `A`, and relates the `Config`
before and after by `F`; on every path, a panic included. -/
structure Steps {α : Type} (A : Event → Prop) (F : Config → Config → Prop) (m : Prog α) : Prop where
  run : ∀ s, (∃ l, (m s).2.trace = s.trace ++ l ∧ ∀ e ∈ l, A e) ∧ F s.c (m s).2.c

/-- Every change of the `Config` is allowed. -/
def anyChange : Config → Config → Prop := fun _ _ => True

/-- The event is the call of a function. -/
def isCall (e : Event) : Prop := ∃ f, e = Event.call f

/-- The arms of the credential decision that a log records, in order. -/
def branchesOf (t : List Event) : List Branch :=
  t.filterMap (fun e => match e with
    | Event.branch b => some b
    | Event.call _ => none)

/-- The arm that the documented precedence order selects: the first of token,
AK/SK, password, shared config file whose fields are set, else the instance
metadata. -/
def firstMatch (c : Config) : Branch :=
  if c.Token ≠ "" then Branch.token
  else if c.AccessKey ≠ "" ∧ c.SecretKey ≠ "" then Branch.aksk
  else if c.Password ≠ "" then Branch.password
  else if c.SharedConfigFile ≠ "" then Branch.sharedConfig
  else Branch.metadata

/-- What each arm of the credential decision of `LoadAndValidate` runs once
it is entered. -/
def credentialArm (env : Env) (c : Config) : Branch → Prog (Option String)
  | Branch.token => buildClientByToken env
  | Branch.aksk => buildClientByAKSK env
  | Branch.password =>
    if c.Username = "" ∧ c.UserID = "" then
      pure (some "\"password\": one of `user_name, user_id` must be specified")
    else
      buildClientByPassword env
  | Branch.sharedConfig => buildClientByConfig env
  | Branch.metadata => do
    match ← getAuthConfigByMeta env with
    | some err =>
      pure (some ("Error fetching Auth credentials from ECS Metadata API, " ++
        "AkSk or ECS agency must be provided: " ++ err))
    | none => buildClientByAKSK env

/-- The resource base as the spec words it: the endpoint, then the version,
the project ID and the fixed suffix, each followed by the separator and each
only when applicable. -/
def resourceBaseSpec (E V P : String) (w : Bool) (R : String) : String :=
  E ++ (if V ≠ "" then V ++ "/" else "") ++ (if w then "" else P ++ "/") ++
    (if R ≠ "" then R ++ "/" else "")

/-- Only `RegionProjectIDMap` differs between the two configurations. -/
def onlyProjectsChange (a b : Config) : Prop := b = { a with RegionProjectIDMap := b.RegionProjectIDMap }

/-- The number of calls of `reloadSecurityKey` that a log records. -/
def reloadCalls (t : List Event) : Nat := t.count (Event.call Fn.reloadSecurityKey)

/-- The event is not the call of `reloadSecurityKey`. -/
def notReload (e : Event) : Prop := e ≠ Event.call Fn.reloadSecurityKey

/-- The two configurations have the same `SecurityKeyExpiresAt`. -/
def sameExpiry (a b : Config) : Prop := b.SecurityKeyExpiresAt = a.SecurityKeyExpiresAt

/-- The number of calls of `loadUserProjects` that a log records. -/
def projectLookups (t : List Event) : Nat := t.count (Event.call Fn.loadUserProjects)

/-- The second configuration has the `RegionProjectIDMap` and the `Endpoints`
of the first, and each identity client that is set in the first is set in
the second. -/
def overridesKept (a b : Config) : Prop :=
  b.RegionProjectIDMap = a.RegionProjectIDMap ∧ b.Endpoints = a.Endpoints ∧
  (a.HwClient ≠ none → b.HwClient ≠ none) ∧ (a.DomainClient ≠ none → b.DomainClient ≠ none)

/-- The `RegionProjectIDMap` of the second configuration is the one of the
first with further pairs written in front of it: entries were written, none
was deleted. -/
def mapGrows (a b : Config) : Prop :=
  ∃ written : List (String × String), b.RegionProjectIDMap = written ++ a.RegionProjectIDMap

/-- The name of the profile that `buildClientByConfig` looks for: the one of
`Config.Profile`, or the field `current` of the file when that is empty. -/
def profileName (c : Config) (sharedConfig : SharedConfig) : String :=
  if c.Profile = "" then sharedConfig.Current else c.Profile

/-- The second configuration has the `AccessKey`, `SecretKey`, `Region`,
`DomainID` and `TenantID` of the first. -/
def profileFieldsKept (a b : Config) : Prop :=
  b.AccessKey = a.AccessKey ∧ b.SecretKey = a.SecretKey ∧ b.Region = a.Region ∧
  b.DomainID = a.DomainID ∧ b.TenantID = a.TenantID

/-- What the two identity look-ups of `LoadAndValidate` leave as it is: an
identity client that is set stays set, and `Region`, `DomainID`, `DomainName`,
`UserID` and `Username` keep their values. -/
def identityKept (a b : Config) : Prop :=
  (a.HwClient ≠ none → b.HwClient ≠ none) ∧ (a.DomainClient ≠ none → b.DomainClient ≠ none) ∧
  b.Region = a.Region ∧ b.DomainID = a.DomainID ∧ b.DomainName = a.DomainName ∧
  b.UserID = a.UserID ∧ b.Username = a.Username

/-- What `getDomainID` makes of the listing of the domains: the ID of the
first domain, unless the listing failed, is empty, or `DomainName` is set and
is not the name of the first domain. -/
def domainFromListing (c : Config) (l : Listing) : Except String String :=
  match l with
  | Listing.pagesError msg => Except.error ("List domains failed, err=" ++ msg)
  | Listing.extractError msg => Except.error ("Extract domains failed, err=" ++ msg)
  | Listing.items [] => Except.error "domain was not found"
  | Listing.items (first :: _) =>
    if c.DomainName ≠ "" ∧ c.DomainName ≠ first.Name then
      Except.error ("domain " ++ c.DomainName ++ " was not found, got " ++ first.Name)
    else
      Except.ok first.ID

/-- What `getUserIDbyName` makes of the listing of the users. -/
def userFromListing (name : String) (l : Listing) : Except String String :=
  match l with
  | Listing.pagesError msg => Except.error ("query IAM user " ++ name ++ " failed, err=" ++ msg)
  | Listing.extractError msg => Except.error ("Extract users failed, err=" ++ msg)
  | Listing.items [] => Except.error ("IAM user " ++ name ++ " was not found")
  | Listing.items (first :: _) =>
    if name ≠ "" ∧ name ≠ first.Name then
      Except.error ("IAM user " ++ name ++ " was not found, got " ++ first.Name)
    else
      Except.ok first.ID

/-- The `Config` after the statement of `LoadAndValidate` that records the
project of `Config.Region`: the project ID of `HwClient`, when there is one
and it is not empty, is written into `RegionProjectIDMap`. -/
def withRegionProject (c : Config) : Config :=
  match c.HwClient with
  | some hw =>
    if hw.ProjectID ≠ "" then
      { c with RegionProjectIDMap := mapInsert c.RegionProjectIDMap c.Region hw.ProjectID }
    else c
  | none => c

/-- The `Config` after `LoadAndValidate` has adopted a domain ID, for a
domain client `dc`: `DomainID` is set, and so is the `DomainID` of the AK/SK
options of the domain client when these hold an access key. -/
def adoptDomainID (domainID : String) (dc : ProviderClient) (c : Config) : Config :=
  if dc.AKSKAuthOptions.AccessKey ≠ "" then
    { c with DomainID := domainID,
             DomainClient := some { dc with AKSKAuthOptions := { dc.AKSKAuthOptions with DomainID := domainID } } }
  else { c with DomainID := domainID }

/-- The end of `LoadAndValidate`: the inference of the user ID from the user
name, and the return of nil. -/
def inferUserID (env : Env) : Prog (Option String) := do
  let c ← getC
  if c.UserID = "" ∧ c.Username ≠ "" then
    match ← getUserIDbyName env c.Username with
    | Except.ok userID => modifyC (fun c => { c with UserID := userID })
    | Except.error _ => pure ()
  pure none

/-- The credential decision of `LoadAndValidate`: the if/else-if chain that
picks and runs one of the five ways to build the identity clients. -/
def resolveCredentials (env : Env) : Prog (Option String) := do
  let c ← getC
  if c.Token ≠ "" then do
    logEvent (Event.branch Branch.token)
    buildClientByToken env
  else if c.AccessKey ≠ "" ∧ c.SecretKey ≠ "" then do
    logEvent (Event.branch Branch.aksk)
    buildClientByAKSK env
  else if c.Password ≠ "" then do
    logEvent (Event.branch Branch.password)
    if c.Username = "" ∧ c.UserID = "" then
      pure (some "\"password\": one of `user_name, user_id` must be specified")
    else
      buildClientByPassword env
  else if c.SharedConfigFile ≠ "" then do
    logEvent (Event.branch Branch.sharedConfig)
    buildClientByConfig env
  else do
    logEvent (Event.branch Branch.metadata)
    match ← getAuthConfigByMeta env with
    | some err =>
      pure (some ("Error fetching Auth credentials from ECS Metadata API, " ++
        "AkSk or ECS agency must be provided: " ++ err))
    | none => buildClientByAKSK env

/-- A program that, whenever it returns nil, has set both identity clients. -/
structure SetsClients (m : Prog (Option String)) : Prop where
  run : ∀ s, (m s).1 = Outcome.ret none →
    (m s).2.c.HwClient ≠ none ∧ (m s).2.c.DomainClient ≠ none

/-- The string needs no JSON escaping: the encoder writes every character of
it as it is. -/
def needsNoEscaping (escapeHTML : Bool) (value : String) : Prop :=
  ∀ c ∈ value.data, jsonEscape escapeHTML c = String.singleton c

/-- The text without the line feed at its end, when it has one. -/
def withoutLineFeed (b : String) : String :=
  match b.data.reverse with
  | '\n' :: rest => String.mk rest.reverse
  | _ => b

/-- The state after `queryPluginDetail` has logged its call. -/
def queried (s : St) : St :=
  { s with trace := s.trace ++ [Event.call Fn.queryPluginDetail] }

/-- The first element of the list `extensions` of a response that has the
name and a `created` that counts as true; none when there is no such element
or `extensions` is not a list. -/
def firstCreatedPlugin (name : String) (resp : JSON) : Option JSON :=
  match jmesField resp "extensions" with
  | JSON.arr items => items.find? (fun e => isNamed name e && (jmesField e "created").truthy)
  | _ => none

/-! ### A sample world -/

/-- A small service catalog. -/
def sampleCatalog : List (String × ServiceCatalog) :=
  [("vpc", { Name := "vpc", Version := "v1" }),
   ("iam", { Name := "iam", Version := "v3", ResourceBase := "users" }),
   ("identity", { Name := "iam", Version := "v3", Scope := "global", Admin := true,
                  WithOutProjectID := true })]

/-- A metadata document with the four credential fields. -/
def sampleCredential (expiresAt : String) : JSON :=
  JSON.obj [("credential", JSON.obj [("access", JSON.str "AK2"), ("secret", JSON.str "SK2"),
    ("securitytoken", JSON.str "ST2"), ("expires_at", JSON.str expiresAt)])]

/-- A world in which every request succeeds: the clock stands at 1000, the
metadata endpoint hands out a credential that expires at 1000000000, the
project listing returns one project named as asked. -/
def sampleEnv : Env where
  allServiceCatalog := sampleCatalog
  now := fun _ => 1000
  metadata := fun _ => MetaReply.response 200 (MetaBody.parsed (sampleCredential "2001-09-09T01:46:40Z"))
  parseRFC3339 := fun text =>
    if text = "2001-09-09T01:46:40Z" then Except.ok ⟨1000000000, 0⟩
    else if text = "1970-01-01T00:20:00Z" then Except.ok ⟨1200, 0⟩
    else Except.error "cannot parse the time"
  authenticate := fun _ _ ao =>
    match ao with
    | AuthOptionsProvider.authOptions _ => Except.ok { ProjectID := "p1", DomainID := "d1" }
    | AuthOptionsProvider.akskAuthOptions o =>
      Except.ok { ProjectID := "p1", DomainID := "d1", AKSKAuthOptions := o }
  homedirExpand := fun path => Except.ok path
  sharedFile := fun _ _ => SharedFile.notExist
  projectsList := fun _ _ _ name => Listing.items [⟨"project-of-" ++ name, name⟩]
  domainsList := fun _ _ => Listing.items [⟨"d1", "domain"⟩]
  usersList := fun _ _ name => Listing.items [⟨"u1", name⟩]
  obsNew := fun _ => none

/-- A configuration with a token and with AK/SK, for the region `r1`. -/
def tokenAndAkskConfig : Config :=
  { Token := "tok", AccessKey := "AK", SecretKey := "SK", Region := "r1", Cloud := "example.com" }

/-- A configuration with AK/SK that has authenticated, for the region `r1`. -/
def akskConfig : Config :=
  { AccessKey := "AK", SecretKey := "SK", Region := "r1", Cloud := "example.com",
    HwClient := some { ProjectID := "p1", DomainID := "d1" },
    DomainClient := some { DomainID := "d1" },
    RegionProjectIDMap := [("r1", "p1")] }

/-- A configuration with AK/SK that has authenticated, for the region named
`region`. -/
def regionConfig : Config :=
  { AccessKey := "AK", SecretKey := "SK", Region := "region", Cloud := "example.com",
    HwClient := some { ProjectID := "p1", DomainID := "d1" },
    DomainClient := some { DomainID := "d1" },
    RegionProjectIDMap := [("region", "p1")] }

/-- A configuration with temporary credentials that expire at 1100. -/
def expiringConfig : Config :=
  { akskConfig with SecurityToken := "ST", SecurityKeyExpiresAt := ⟨1100, 0⟩ }

/-- The sample world with a metadata endpoint that answers 500. -/
def failingMetadataEnv : Env :=
  { sampleEnv with metadata := fun _ => MetaReply.response 500 (MetaBody.readError "") }

/-- The sample world with a metadata endpoint whose credential expires at
1200, less than 600 seconds after the clock. -/
def shortLivedEnv : Env :=
  { sampleEnv with
    metadata := fun _ => MetaReply.response 200 (MetaBody.parsed (sampleCredential "1970-01-01T00:20:00Z")) }

/-- The sample world with a project listing that returns a project of another
name than the one asked for. -/
def strayProjectEnv : Env :=
  { sampleEnv with projectsList := fun _ _ _ _ => Listing.items [⟨"p9", "another-region"⟩] }

/-- A configuration with a password and neither a user name nor a user ID. -/
def passwordOnlyConfig : Config :=
  { Password := "secret", Region := "r1", Cloud := "example.com" }

/-- A configuration with a token, without AK/SK, for the region `r1`, with
an endpoint override for `vpc`, before it authenticates. -/
def overrideTokenConfig : Config :=
  { Token := "tok", Region := "r1", Cloud := "example.com",
    Endpoints := [("vpc", "https://vpc.example.org/")] }

/-- The sample world with a project listing that returns two projects of the
same name. -/
def duplicateNameEnv : Env :=
  { sampleEnv with projectsList := fun _ _ _ name => Listing.items [⟨"pa", name⟩, ⟨"pb", name⟩] }

/-- The sample world with a project listing that returns no project. -/
def noProjectEnv : Env :=
  { sampleEnv with projectsList := fun _ _ _ _ => Listing.items [] }

/-- The sample world with a project listing that returns, after the project
of the region asked for, a project `p7` of the name `r1`. -/
def overwritingEnv : Env :=
  { sampleEnv with
    projectsList := fun _ _ _ name => Listing.items [⟨"project-of-" ++ name, name⟩, ⟨"p7", "r1"⟩] }

/-- A configuration with a token for the region `r1` whose map holds the
project `p0` for `r1`. -/
def staleProjectConfig : Config :=
  { Token := "tok", Region := "r1", Cloud := "example.com", DomainID := "d1",
    RegionProjectIDMap := [("r1", "p0")] }

/-- A configuration that has authenticated, for the region `r1`, with an
endpoint override for `vpc` that has neither a scheme nor a final separator. -/
def bareOverrideConfig : Config :=
  { AccessKey := "AK", SecretKey := "SK", Region := "r1", Cloud := "example.com",
    HwClient := some { ProjectID := "p1", DomainID := "d1" },
    DomainClient := some { DomainID := "d1" },
    Endpoints := [("vpc", "vpc.example.org")],
    RegionProjectIDMap := [("r1", "p1")] }

/-- The sample world with a shared config file of two profiles named
`default`, the first with the mode `AKSK`, and one profile of another mode. -/
def sharedFileEnv : Env :=
  { sampleEnv with
    sharedFile := fun _ _ => SharedFile.parsed
      { Current := "default",
        Profiles :=
          [{ Name := "sso", Mode := "SSO" },
           { Name := "default", Mode := "AKSK", AccessKeyId := "AK9", SecretAccessKey := "SK9",
             Region := "r9" },
           { Name := "default", Mode := "AKSK", AccessKeyId := "AK8", SecretAccessKey := "SK8" }] } }

/-- A configuration with a shared config file and no profile name. -/
def sharedFileConfig : Config :=
  { SharedConfigFile := "config.json", Region := "r1", Cloud := "example.com",
    DomainID := "d0", TenantID := "t0" }

/-- The sample world for a domain-scoped credential: the authenticated client
has no project ID, and the project listing returns no project. -/
def domainScopedEnv : Env :=
  { sampleEnv with
    authenticate := fun _ _ _ => Except.ok { DomainID := "d1" }
    projectsList := fun _ _ _ _ => Listing.items [] }

/-- A configuration with a token for the region `r1`, without a domain ID and
without a domain name. -/
def tokenConfig : Config :=
  { Token := "tok", Region := "r1", Cloud := "example.com" }

/-- The sample world with a metadata endpoint that answers 200 with a valid
JSON document whose `credential.access` and `credential.expires_at` are the
given values; the secret and the security token are strings. -/
def typedCredentialEnv (access expiresAt : JSON) : Env :=
  { sampleEnv with
    metadata := fun _ => MetaReply.response 200 (MetaBody.parsed
      (JSON.obj [("credential", JSON.obj [("access", access), ("secret", JSON.str "SK2"),
        ("securitytoken", JSON.str "ST2"), ("expires_at", expiresAt)])])) }

/-- The sample world with an entry for `rds` in the service catalog. -/
def rdsCatalogEnv : Env :=
  { sampleEnv with allServiceCatalog := ("rds", { Name := "rds", Version := "v3" }) :: sampleCatalog }

/-- A listed extension of a database. -/
def sampleExtension (name : String) (created : Bool) : JSON :=
  JSON.obj [("name", JSON.str name), ("database_name", JSON.str "db1"), ("created", JSON.bool created)]

/-- An RDS service whose listing returns three extensions, the first not
created, and whose `POST` succeeds. -/
def sampleRds : RdsEnv where
  listAllItems := fun _ _ _ => ListResult.success (JSON.obj [("extensions",
    JSON.arr [sampleExtension "pg_cron" false, sampleExtension "pg_trgm" true,
      sampleExtension "pg_cron" true])])
  createPlugin := fun _ _ _ _ _ => none
  searchQuoted := fun _ _ => JSON.null

/-- An RDS service whose listing fails with the given response. -/
def failingRds (resp : JSON) : RdsEnv where
  listAllItems := fun _ _ _ => ListResult.failure resp "Bad Request"
  createPlugin := fun _ _ _ _ _ => none
  searchQuoted := fun _ _ => JSON.null

/-- The RDS client that `NewServiceClient` builds from `akskConfig` in
`rdsCatalogEnv` for the region `r1`. -/
def sampleRdsClient : ServiceClient :=
  { ProviderClient := some { ProjectID := "p1", DomainID := "d1",
                             AKSKAuthOptions := { ProjectId := "p1", Region := "r1" } },
    Endpoint := "https://rds.r1.example.com/",
    ResourceBase := "https://rds.r1.example.com/v3/p1/" }

/-- The provider client of `sampleRdsClient`. -/
def sampleRdsProvider : ProviderClient :=
  { ProjectID := "p1", DomainID := "d1", AKSKAuthOptions := { ProjectId := "p1", Region := "r1" } }

/-- An RDS service that lists no extension at first and, from the second
request on, the extension `pg_cron` as created; its `POST` succeeds. -/
def freshRds : RdsEnv where
  listAllItems := fun n _ _ =>
    if n < 2 then ListResult.success (JSON.obj [("extensions", JSON.arr [])])
    else ListResult.success (JSON.obj [("extensions", JSON.arr [sampleExtension "pg_cron" true])])
  createPlugin := fun _ _ _ _ _ => none
  searchQuoted := fun _ _ => JSON.null

/-- An RDS service whose listing returns the extension `pg_cron` with the
number 0 as its `created`. -/
def numberFlagRds : RdsEnv where
  listAllItems := fun _ _ _ => ListResult.success (JSON.obj [("extensions",
    JSON.arr [JSON.obj [("name", JSON.str "pg_cron"), ("created", JSON.num "0")]])])
  createPlugin := fun _ _ _ _ _ => none
  searchQuoted := fun _ _ => JSON.null

/-- The attributes of the plugin `pg_cron` of the database `db1` of the
instance `i1`. -/
def pluginData : ResourceData :=
  { attrs := [("instance_id", JSON.str "i1"), ("database_name", JSON.str "db1"),
      ("name", JSON.str "pg_cron")] }

/-! ## Reasoning about programs -/

@[simp] theorem pure_run {α : Type} (a : α) (s : St) : (pure a : Prog α) s = (Outcome.ret a, s) := rfl

@[simp] theorem bind_run {α β : Type} (m : Prog α) (f : α → Prog β) (s : St) :
    (m >>= f) s = match m s with
      | (Outcome.ret a, s1) => f a s1
      | (Outcome.panic p, s1) => (Outcome.panic p, s1) := rfl

@[simp] theorem getC_run (s : St) : getC s = (Outcome.ret s.c, s) := rfl

@[simp] theorem modifyC_run (f : Config → Config) (s : St) :
    modifyC f s = (Outcome.ret (), { s with c := f s.c }) := rfl

@[simp] theorem logEvent_run (e : Event) (s : St) :
    logEvent e s = (Outcome.ret (), { s with trace := s.trace ++ [e] }) := rfl

@[simp] theorem tick_run (s : St) : tick s = (Outcome.ret s.trace.length, s) := rfl

@[simp] theorem panicWith_run {α : Type} (msg : String) (s : St) :
    (panicWith msg : Prog α) s = (Outcome.panic msg, s) := rfl

theorem anyChange_frame : Frame anyChange := ⟨fun _ => trivial, fun _ _ _ _ _ => trivial⟩

theorem isCall_call (f : Fn) : isCall (Event.call f) := ⟨f, rfl⟩

theorem Steps.pure {α : Type} {A : Event → Prop} {F : Config → Config → Prop} (hF : Frame F) (a : α) :
    Steps A F (pure a : Prog α) :=
  ⟨fun s => ⟨⟨[], by simp, by simp⟩, hF.refl _⟩⟩

theorem Steps.bind {α β : Type} {A : Event → Prop} {F : Config → Config → Prop} (hF : Frame F)
    {m : Prog α} {f : α → Prog β} (hm : Steps A F m) (hf : ∀ a, Steps A F (f a)) :
    Steps A F (m >>= f) := by
  constructor
  intro s
  obtain ⟨⟨l, hl, hA⟩, hc⟩ := hm.run s
  simp only [bind_run]
  cases h : m s with
  | mk o s1 =>
    rw [h] at hl hc
    cases o with
    | panic p => exact ⟨⟨l, hl, hA⟩, hc⟩
    | ret a =>
      obtain ⟨⟨l2, hl2, hA2⟩, hc2⟩ := (hf a).run s1
      refine ⟨⟨l ++ l2, ?_, ?_⟩, hF.trans _ _ _ hc hc2⟩
      · simp only [hl2]; simp at hl; rw [hl]; simp
      · intro e he
        rcases List.mem_append.mp he with h1 | h1
        · exact hA e h1
        · exact hA2 e h1

theorem Steps.getC {A : Event → Prop} {F : Config → Config → Prop} (hF : Frame F) : Steps A F getC :=
  ⟨fun s => ⟨⟨[], by simp, by simp⟩, hF.refl _⟩⟩

theorem Steps.tick {A : Event → Prop} {F : Config → Config → Prop} (hF : Frame F) : Steps A F tick :=
  ⟨fun s => ⟨⟨[], by simp, by simp⟩, hF.refl _⟩⟩

theorem Steps.panicWith {α : Type} {A : Event → Prop} {F : Config → Config → Prop} (hF : Frame F)
    (msg : String) : Steps A F (panicWith msg : Prog α) :=
  ⟨fun s => ⟨⟨[], by simp, by simp⟩, hF.refl _⟩⟩

theorem Steps.logEvent {A : Event → Prop} {F : Config → Config → Prop} (hF : Frame F) {e : Event}
    (he : A e) : Steps A F (logEvent e) :=
  ⟨fun s => ⟨⟨[e], by simp, by simpa using he⟩, hF.refl _⟩⟩

theorem Steps.modifyC {A : Event → Prop} {F : Config → Config → Prop} {f : Config → Config}
    (hf : ∀ c, F c (f c)) : Steps A F (modifyC f) :=
  ⟨fun s => ⟨⟨[], by simp, by simp⟩, hf _⟩⟩

theorem Steps.mono {α : Type} {A B : Event → Prop} {F G : Config → Config → Prop} {m : Prog α}
    (h : Steps A F m) (hAB : ∀ e, A e → B e) (hFG : ∀ a b, F a b → G a b) : Steps B G m := by
  constructor
  intro s
  obtain ⟨⟨l, hl, hA⟩, hc⟩ := h.run s
  exact ⟨⟨l, hl, fun e he => hAB e (hA e he)⟩, hFG _ _ hc⟩

/-- A program that never logs the event `e0` leaves the number of its
occurrences as it is. -/
theorem Steps.count_eq {α : Type} {F : Config → Config → Prop} {m : Prog α} (e0 : Event)
    (h : Steps (fun e => e ≠ e0) F m) (s : St) :
    (m s).2.trace.count e0 = s.trace.count e0 := by
  obtain ⟨⟨l, hl, hA⟩, _⟩ := h.run s
  rw [hl, List.count_append]
  have : l.count e0 = 0 := List.count_eq_zero.mpr (fun hmem => hA e0 hmem rfl)
  omega

theorem genClient_steps (env : Env) (ao : AuthOptionsProvider) {A : Event → Prop} {F : Config → Config → Prop} (hF : Frame F)
    (hA : ∀ f, f ≠ Fn.reloadSecurityKey → A (Event.call f)) : Steps A F (genClient env ao) := by
  unfold genClient
  repeat (first
    | exact Steps.pure hF _ | exact Steps.getC hF | exact Steps.tick hF | exact Steps.panicWith hF _
    | exact Steps.logEvent hF (hA _ (by decide))
    | apply Steps.bind hF | intro _ | split | dsimp only)

theorem genClients_steps (env : Env) (pao dao : AuthOptionsProvider) {A : Event → Prop} {F : Config → Config → Prop} (hF : Frame F)
    (hA : ∀ f, f ≠ Fn.reloadSecurityKey → A (Event.call f))
    (hHw : ∀ c x, F c { c with HwClient := x }) (hDc : ∀ c x, F c { c with DomainClient := x }) :
    Steps A F (genClients env pao dao) := by
  unfold genClients
  repeat (first
    | exact Steps.pure hF _ | exact Steps.getC hF | exact Steps.tick hF | exact Steps.panicWith hF _
    | exact genClient_steps env _ hF hA
    | exact Steps.modifyC (fun c => hHw c _)
    | exact Steps.modifyC (fun c => hDc c _)
    | apply Steps.bind hF | intro _ | split | dsimp only)

theorem buildClientByToken_steps (env : Env) {A : Event → Prop} {F : Config → Config → Prop} (hF : Frame F)
    (hA : ∀ f, f ≠ Fn.reloadSecurityKey → A (Event.call f))
    (hHw : ∀ c x, F c { c with HwClient := x }) (hDc : ∀ c x, F c { c with DomainClient := x }) :
    Steps A F (buildClientByToken env) := by
  unfold buildClientByToken
  repeat (first
    | exact Steps.pure hF _ | exact Steps.getC hF | exact Steps.tick hF | exact Steps.panicWith hF _
    | exact Steps.logEvent hF (hA _ (by decide))
    | exact genClients_steps env _ _ hF hA hHw hDc
    | apply Steps.bind hF | intro _ | split | dsimp only)

theorem buildClientByAKSK_steps (env : Env) {A : Event → Prop} {F : Config → Config → Prop} (hF : Frame F)
    (hA : ∀ f, f ≠ Fn.reloadSecurityKey → A (Event.call f))
    (hHw : ∀ c x, F c { c with HwClient := x }) (hDc : ∀ c x, F c { c with DomainClient := x }) :
    Steps A F (buildClientByAKSK env) := by
  unfold buildClientByAKSK
  repeat (first
    | exact Steps.pure hF _ | exact Steps.getC hF | exact Steps.tick hF | exact Steps.panicWith hF _
    | exact Steps.logEvent hF (hA _ (by decide))
    | exact genClients_steps env _ _ hF hA hHw hDc
    | apply Steps.bind hF | intro _ | split | dsimp only)

theorem buildClientByPassword_steps (env : Env) {A : Event → Prop} {F : Config → Config → Prop} (hF : Frame F)
    (hA : ∀ f, f ≠ Fn.reloadSecurityKey → A (Event.call f))
    (hHw : ∀ c x, F c { c with HwClient := x }) (hDc : ∀ c x, F c { c with DomainClient := x }) :
    Steps A F (buildClientByPassword env) := by
  unfold buildClientByPassword
  repeat (first
    | exact Steps.pure hF _ | exact Steps.getC hF | exact Steps.tick hF | exact Steps.panicWith hF _
    | exact Steps.logEvent hF (hA _ (by decide))
    | exact genClients_steps env _ _ hF hA hHw hDc
    | apply Steps.bind hF | intro _ | split | dsimp only)

theorem buildClientByConfig_steps (env : Env) {A : Event → Prop}
    (hA : ∀ f, f ≠ Fn.reloadSecurityKey → A (Event.call f)) :
    Steps A anyChange (buildClientByConfig env) := by
  have hF := anyChange_frame
  unfold buildClientByConfig
  repeat (first
    | exact Steps.pure hF _ | exact Steps.getC hF | exact Steps.tick hF | exact Steps.panicWith hF _
    | exact Steps.logEvent hF (hA _ (by decide))
    | exact buildClientByAKSK_steps env hF hA (fun _ _ => trivial) (fun _ _ => trivial)
    | exact Steps.modifyC (fun _ => trivial)
    | apply Steps.bind hF | intro _ | split | dsimp only)

theorem assertString_steps (v : JSON) {A : Event → Prop} {F : Config → Config → Prop} (hF : Frame F) :
    Steps A F (assertString v) := by
  unfold assertString
  split
  · exact Steps.pure hF _
  · exact Steps.panicWith hF _

theorem getAuthConfigByMeta_steps (env : Env) {A : Event → Prop} {F : Config → Config → Prop} (hF : Frame F)
    (hA : ∀ f, f ≠ Fn.reloadSecurityKey → A (Event.call f))
    (hCred : ∀ c a b d e, F c { c with AccessKey := a, SecretKey := b, SecurityToken := d, SecurityKeyExpiresAt := e }) :
    Steps A F (getAuthConfigByMeta env) := by
  unfold getAuthConfigByMeta
  repeat (first
    | exact Steps.pure hF _ | exact Steps.getC hF | exact Steps.tick hF | exact Steps.panicWith hF _
    | exact Steps.logEvent hF (hA _ (by decide))
    | exact assertString_steps _ hF
    | exact Steps.modifyC (fun c => hCred c _ _ _ _)
    | apply Steps.bind hF | intro _ | split | dsimp only)

theorem reloadSecurityKey_steps (env : Env) {A : Event → Prop} {F : Config → Config → Prop} (hF : Frame F)
    (hA : ∀ f, A (Event.call f))
    (hCred : ∀ c a b d e, F c { c with AccessKey := a, SecretKey := b, SecurityToken := d, SecurityKeyExpiresAt := e })
    (hHw : ∀ c x, F c { c with HwClient := x }) (hDc : ∀ c x, F c { c with DomainClient := x }) :
    Steps A F (reloadSecurityKey env) := by
  unfold reloadSecurityKey
  repeat (first
    | exact Steps.pure hF _ | exact Steps.getC hF | exact Steps.tick hF | exact Steps.panicWith hF _
    | exact Steps.logEvent hF (hA _)
    | exact getAuthConfigByMeta_steps env hF (fun f _ => hA f) hCred
    | exact buildClientByAKSK_steps env hF (fun f _ => hA f) hHw hDc
    | apply Steps.bind hF | intro _ | split | dsimp only)

theorem obsNew_steps (env : Env) (args : ObsClient) {A : Event → Prop} {F : Config → Config → Prop} (hF : Frame F)
    (hA : ∀ f, f ≠ Fn.reloadSecurityKey → A (Event.call f)) : Steps A F (obsNew env args) := by
  unfold obsNew
  repeat (first
    | exact Steps.pure hF _ | exact Steps.getC hF | exact Steps.tick hF | exact Steps.panicWith hF _
    | exact Steps.logEvent hF (hA _ (by decide))
    | apply Steps.bind hF | intro _ | split | dsimp only)

theorem ObjectStorageClientWithSignature_steps (env : Env) (region : String) {A : Event → Prop} {F : Config → Config → Prop} (hF : Frame F)
    (hA : ∀ f, f ≠ Fn.reloadSecurityKey → A (Event.call f)) :
    Steps A F (ObjectStorageClientWithSignature env region) := by
  unfold ObjectStorageClientWithSignature
  repeat (first
    | exact Steps.pure hF _ | exact Steps.getC hF | exact Steps.tick hF | exact Steps.panicWith hF _
    | exact obsNew_steps env _ hF hA
    | apply Steps.bind hF | intro _ | split | dsimp only)

theorem loadUserProjects_steps (env : Env) (client : Option ProviderClient) (region : String) {A : Event → Prop} {F : Config → Config → Prop} (hF : Frame F)
    (hA : ∀ f, f ≠ Fn.reloadSecurityKey → A (Event.call f))
    (hMap : ∀ c x, F c { c with RegionProjectIDMap := x }) :
    Steps A F (loadUserProjects env client region) := by
  unfold loadUserProjects
  repeat (first
    | exact Steps.pure hF _ | exact Steps.getC hF | exact Steps.tick hF | exact Steps.panicWith hF _
    | exact Steps.logEvent hF (hA _ (by decide))
    | exact Steps.modifyC (fun c => hMap c _)
    | apply Steps.bind hF | intro _ | split | dsimp only)

theorem resolveProjectID_steps (env : Env) (client : Option ProviderClient) (region : String) {A : Event → Prop} {F : Config → Config → Prop} (hF : Frame F)
    (hA : ∀ f, f ≠ Fn.reloadSecurityKey → A (Event.call f))
    (hMap : ∀ c x, F c { c with RegionProjectIDMap := x }) :
    Steps A F (resolveProjectID env client region) := by
  unfold resolveProjectID
  repeat (first
    | exact Steps.pure hF _ | exact Steps.getC hF | exact Steps.tick hF | exact Steps.panicWith hF _
    | exact loadUserProjects_steps env _ _ hF hA hMap
    | apply Steps.bind hF | intro _ | split | dsimp only)

theorem newServiceClientByName_steps (env : Env) (client : Option ProviderClient)
    (catalog : ServiceCatalog) (region : String) {A : Event → Prop} {F : Config → Config → Prop} (hF : Frame F)
    (hA : ∀ f, f ≠ Fn.reloadSecurityKey → A (Event.call f))
    (hMap : ∀ c x, F c { c with RegionProjectIDMap := x }) :
    Steps A F (newServiceClientByName env client catalog region) := by
  unfold newServiceClientByName
  repeat (first
    | exact Steps.pure hF _ | exact Steps.getC hF | exact Steps.tick hF | exact Steps.panicWith hF _
    | exact resolveProjectID_steps env _ _ hF hA hMap
    | apply Steps.bind hF | intro _ | split | dsimp only)

theorem newServiceClientByEndpoint_steps (env : Env) (client : Option ProviderClient)
    (srv endpoint : String) {A : Event → Prop} {F : Config → Config → Prop} (hF : Frame F) :
    Steps A F (newServiceClientByEndpoint env client srv endpoint) := by
  unfold newServiceClientByEndpoint
  repeat (first
    | exact Steps.pure hF _ | exact Steps.getC hF | exact Steps.tick hF | exact Steps.panicWith hF _
    | apply Steps.bind hF | intro _ | split | dsimp only)

theorem refreshIfExpiring_steps (env : Env) {A : Event → Prop} {F : Config → Config → Prop} (hF : Frame F)
    (hA : ∀ f, A (Event.call f))
    (hCred : ∀ c a b d e, F c { c with AccessKey := a, SecretKey := b, SecurityToken := d, SecurityKeyExpiresAt := e })
    (hHw : ∀ c x, F c { c with HwClient := x }) (hDc : ∀ c x, F c { c with DomainClient := x }) :
    Steps A F (refreshIfExpiring env) := by
  unfold refreshIfExpiring
  repeat (first
    | exact Steps.pure hF _ | exact Steps.getC hF | exact Steps.tick hF | exact Steps.panicWith hF _
    | exact reloadSecurityKey_steps env hF hA hCred hHw hDc
    | apply Steps.bind hF | intro _ | split | dsimp only)

theorem ObjectStorageClient_steps (env : Env) (region : String) {A : Event → Prop} {F : Config → Config → Prop} (hF : Frame F)
    (hA : ∀ f, A (Event.call f))
    (hCred : ∀ c a b d e, F c { c with AccessKey := a, SecretKey := b, SecurityToken := d, SecurityKeyExpiresAt := e })
    (hHw : ∀ c x, F c { c with HwClient := x }) (hDc : ∀ c x, F c { c with DomainClient := x }) :
    Steps A F (ObjectStorageClient env region) := by
  unfold ObjectStorageClient
  repeat (first
    | exact Steps.pure hF _ | exact Steps.getC hF | exact Steps.tick hF | exact Steps.panicWith hF _
    | exact refreshIfExpiring_steps env hF hA hCred hHw hDc
    | exact obsNew_steps env _ hF (fun f _ => hA f)
    | apply Steps.bind hF | intro _ | split | dsimp only)

theorem buildServiceClient_steps (env : Env) (srv region : String) (catalog : ServiceCatalog)
    {A : Event → Prop} {F : Config → Config → Prop} (hF : Frame F)
    (hA : ∀ f, f ≠ Fn.reloadSecurityKey → A (Event.call f))
    (hMap : ∀ c x, F c { c with RegionProjectIDMap := x }) :
    Steps A F (buildServiceClient env srv region catalog) := by
  unfold buildServiceClient
  refine Steps.bind hF (Steps.getC hF) ?_
  intro c
  dsimp only
  split
  · exact newServiceClientByEndpoint_steps env _ _ _ hF
  · exact newServiceClientByName_steps env _ _ _ hF hA hMap

theorem NewServiceClient_steps (env : Env) (srv region : String) {A : Event → Prop} {F : Config → Config → Prop} (hF : Frame F)
    (hA : ∀ f, A (Event.call f))
    (hCred : ∀ c a b d e, F c { c with AccessKey := a, SecretKey := b, SecurityToken := d, SecurityKeyExpiresAt := e })
    (hHw : ∀ c x, F c { c with HwClient := x }) (hDc : ∀ c x, F c { c with DomainClient := x })
    (hMap : ∀ c x, F c { c with RegionProjectIDMap := x }) :
    Steps A F (NewServiceClient env srv region) := by
  unfold NewServiceClient
  repeat (first
    | exact Steps.pure hF _ | exact Steps.getC hF | exact Steps.tick hF | exact Steps.panicWith hF _
    | exact refreshIfExpiring_steps env hF hA hCred hHw hDc
    | exact buildServiceClient_steps env _ _ _ hF (fun f _ => hA f) hMap
    | apply Steps.bind hF | intro _ | split | dsimp only)

theorem getDomainID_steps (env : Env) {A : Event → Prop} (hA : ∀ f, A (Event.call f)) :
    Steps A anyChange (getDomainID env) := by
  have hF := anyChange_frame
  unfold getDomainID IdentityV3Client
  repeat (first
    | exact Steps.pure hF _ | exact Steps.getC hF | exact Steps.tick hF | exact Steps.panicWith hF _
    | exact Steps.logEvent hF (hA _)
    | exact NewServiceClient_steps env _ _ hF hA (fun _ _ _ _ _ => trivial) (fun _ _ => trivial) (fun _ _ => trivial) (fun _ _ => trivial)
    | apply Steps.bind hF | intro _ | split | dsimp only)

theorem getUserIDbyName_steps (env : Env) (name : String) {A : Event → Prop} (hA : ∀ f, A (Event.call f)) :
    Steps A anyChange (getUserIDbyName env name) := by
  have hF := anyChange_frame
  unfold getUserIDbyName IdentityV3Client
  repeat (first
    | exact Steps.pure hF _ | exact Steps.getC hF | exact Steps.tick hF | exact Steps.panicWith hF _
    | exact Steps.logEvent hF (hA _)
    | exact NewServiceClient_steps env _ _ hF hA (fun _ _ _ _ _ => trivial) (fun _ _ => trivial) (fun _ _ => trivial) (fun _ _ => trivial)
    | apply Steps.bind hF | intro _ | split | dsimp only)

set_option maxRecDepth 8000 in
theorem afterCredentials_steps (env : Env) {A : Event → Prop} (hA : ∀ f, A (Event.call f)) :
    Steps A anyChange (afterCredentials env) := by
  have hF := anyChange_frame
  unfold afterCredentials
  repeat (first
    | exact Steps.pure hF _ | exact Steps.getC hF | exact Steps.tick hF | exact Steps.panicWith hF _
    | exact getDomainID_steps env hA
    | exact getUserIDbyName_steps env _ hA
    | exact Steps.modifyC (fun _ => trivial)
    | apply Steps.bind hF | intro _ | split | dsimp only)

theorem branchesOf_append (a b : List Event) : branchesOf (a ++ b) = branchesOf a ++ branchesOf b := by
  simp [branchesOf, List.filterMap_append]

theorem branchesOf_calls (l : List Event) (h : ∀ e ∈ l, isCall e) : branchesOf l = [] := by
  induction l with
  | nil => rfl
  | cons e rest ih =>
    obtain ⟨f, hf⟩ := h e (List.mem_cons_self _ _)
    have hrest := ih (fun x hx => h x (List.mem_cons_of_mem _ hx))
    subst hf
    simpa [branchesOf] using hrest

theorem Steps.branchesOf_eq {α : Type} {F : Config → Config → Prop} {m : Prog α}
    (h : Steps isCall F m) (s : St) : branchesOf (m s).2.trace = branchesOf s.trace := by
  obtain ⟨⟨l, hl, hA⟩, _⟩ := h.run s
  rw [hl, branchesOf_append, branchesOf_calls l hA, List.append_nil]

/-- The rest of `LoadAndValidate`, once the builder of an arm has returned,
enters no arm. -/
theorem afterBuilder_steps (env : Env) (err : Option String) :
    Steps isCall anyChange (match err with
      | some err => (pure (some err) : Prog (Option String))
      | none => afterCredentials env) := by
  split
  · exact Steps.pure anyChange_frame _
  · exact afterCredentials_steps env isCall_call

theorem assembleByName_resourceBase (c : Config) (pc : ProviderClient) (catalog : ServiceCatalog)
    (region projectID : String) :
    (assembleByName c pc catalog region projectID).ResourceBase =
      resourceBaseSpec (assembleByName c pc catalog region projectID).Endpoint catalog.Version
        projectID catalog.WithOutProjectID catalog.ResourceBase := by
  unfold resourceBaseSpec assembleByName
  by_cases hV : catalog.Version = "" <;> by_cases hR : catalog.ResourceBase = "" <;>
    cases hw : catalog.WithOutProjectID <;> simp [hV, hR, String.append_assoc]

theorem assembleByEndpoint_resourceBase (client : Option ProviderClient) (catalog : ServiceCatalog)
    (endpoint projectID : String) :
    (assembleByEndpoint client catalog endpoint projectID).ResourceBase =
      resourceBaseSpec endpoint catalog.Version projectID catalog.WithOutProjectID
        catalog.ResourceBase := by
  unfold resourceBaseSpec assembleByEndpoint
  by_cases hV : catalog.Version = "" <;> by_cases hR : catalog.ResourceBase = "" <;>
    cases hw : catalog.WithOutProjectID <;> simp [hV, hR, String.append_assoc]

/-- What a successful `newServiceClientByName` has done. -/
theorem newServiceClientByName_ok (env : Env) (client : Option ProviderClient)
    (catalog : ServiceCatalog) (region : String) (s : St) (sc : ServiceClient)
    (h : (newServiceClientByName env client catalog region s).1 = Outcome.ret (Except.ok sc)) :
    ∃ pc, client = some pc ∧ catalog.Name ≠ "" ∧
      sc = assembleByName (newServiceClientByName env client catalog region s).2.c pc catalog region
        ((((newServiceClientByName env client catalog region s).2.c.RegionProjectIDMap).lookup
          region).getD "") := by
  unfold newServiceClientByName at h ⊢
  simp only [bind_run, getC_run, pure_run] at h ⊢
  split at h
  · simp at h
  · rename_i hname
    split at h
    · simp at h
    · rename_i hguard
      simp only [if_neg hname, if_neg hguard]
      unfold resolveProjectID at h ⊢
      simp only [bind_run, getC_run, pure_run] at h ⊢
      cases hlk : s.c.RegionProjectIDMap.lookup region with
      | some p =>
        simp only [hlk, pure_run] at h ⊢
        cases client with
        | none => simp at h
        | some pc =>
          simp only [bind_run, getC_run, pure_run] at h ⊢
          refine ⟨pc, rfl, hname, ?_⟩
          simp only [hlk, Option.getD_some]
          simpa using h.symm
      | none =>
        simp only [hlk] at h ⊢
        cases hload : loadUserProjects env client region s with
        | mk o s1 =>
          simp only [bind_run, hload] at h ⊢
          cases o with
          | panic p => simp at h
          | ret r =>
            cases r with
            | some err => simp at h
            | none =>
              simp only [pure_run] at h ⊢
              cases client with
              | none => simp at h
              | some pc =>
                simp only [bind_run, getC_run, pure_run] at h ⊢
                refine ⟨pc, rfl, hname, ?_⟩
                simpa using h.symm

theorem onlyProjectsChange_frame : Frame onlyProjectsChange := by
  constructor
  · intro c
    rfl
  · intro a b c hab hbc
    unfold onlyProjectsChange at *
    rw [hbc, hab]

theorem newServiceClientByName_config (env : Env) (client : Option ProviderClient)
    (catalog : ServiceCatalog) (region : String) (s : St) :
    onlyProjectsChange s.c (newServiceClientByName env client catalog region s).2.c :=
  ((newServiceClientByName_steps (A := fun _ => True) env client catalog region
    onlyProjectsChange_frame (fun _ _ => trivial) (fun _ _ => rfl)).run s).2

/-- A successful `newServiceClientByName` when the region is in the map. -/
theorem newServiceClientByName_cached (env : Env) (pc : ProviderClient)
    (catalog : ServiceCatalog) (region projectID : String) (s : St)
    (hname : catalog.Name ≠ "")
    (hguard : region = s.c.Region ∨ (s.c.AccessKey ≠ "" ∧ s.c.SecretKey ≠ ""))
    (hlk : s.c.RegionProjectIDMap.lookup region = some projectID) :
    newServiceClientByName env (some pc) catalog region s =
      (Outcome.ret (Except.ok (assembleByName s.c pc catalog region projectID)), s) := by
  have hg : ¬ (region ≠ s.c.Region ∧ (s.c.AccessKey = "" ∨ s.c.SecretKey = "")) := by
    rintro ⟨h1, h2⟩
    rcases hguard with h | ⟨ha, hs⟩
    · exact h1 h
    · rcases h2 with h | h
      · exact ha h
      · exact hs h
  unfold newServiceClientByName resolveProjectID
  simp only [bind_run, getC_run, pure_run, if_neg hname, if_neg hg, hlk]

theorem newServiceClientByEndpoint_run (env : Env) (client : Option ProviderClient)
    (srv endpoint : String) (catalog : ServiceCatalog) (s : St)
    (hcat : env.allServiceCatalog.lookup srv = some catalog) :
    newServiceClientByEndpoint env client srv endpoint s =
      match client with
      | some pc => (Outcome.ret (Except.ok (assembleByEndpoint client catalog endpoint pc.ProjectID)), s)
      | none =>
        if catalog.WithOutProjectID = false then
          (Outcome.panic "invalid memory address or nil pointer dereference", s)
        else (Outcome.ret (Except.ok (assembleByEndpoint client catalog endpoint "")), s) := by
  unfold newServiceClientByEndpoint
  simp only [hcat]
  cases client with
  | some pc => rfl
  | none => cases hw : catalog.WithOutProjectID <;> simp [hw]

theorem notReload_call (f : Fn) (h : f ≠ Fn.reloadSecurityKey) : notReload (Event.call f) := by
  intro he
  injection he with he
  exact h he

theorem Steps.reloadCalls_eq {α : Type} {F : Config → Config → Prop} {m : Prog α}
    (h : Steps notReload F m) (s : St) : reloadCalls (m s).2.trace = reloadCalls s.trace :=
  Steps.count_eq (Event.call Fn.reloadSecurityKey) h s

theorem reloadCalls_bind {α β : Type} {F : Config → Config → Prop} (m : Prog α) (f : α → Prog β)
    (hf : ∀ a, Steps notReload F (f a)) (s : St) :
    reloadCalls ((m >>= f) s).2.trace = reloadCalls (m s).2.trace := by
  simp only [bind_run]
  cases h : m s with
  | mk o s1 =>
    cases o with
    | panic p => rfl
    | ret a => exact (hf a).reloadCalls_eq s1

theorem reloadSecurityKey_reloadCalls (env : Env) (s : St) :
    reloadCalls (reloadSecurityKey env s).2.trace = reloadCalls s.trace + 1 := by
  have hF := anyChange_frame
  have hrest : Steps notReload anyChange (getAuthConfigByMeta env >>= fun r =>
      match r with
      | some err => (pure (some ("Error reloading Auth credentials from ECS Metadata API: " ++ err)) :
          Prog (Option String))
      | none => buildClientByAKSK env) := by
    refine Steps.bind hF (getAuthConfigByMeta_steps env hF notReload_call (fun _ _ _ _ _ => trivial)) ?_
    intro r
    split
    · exact Steps.pure hF _
    · exact buildClientByAKSK_steps env hF notReload_call (fun _ _ => trivial) (fun _ _ => trivial)
  have h := hrest.reloadCalls_eq { s with trace := s.trace ++ [Event.call Fn.reloadSecurityKey] }
  have hcount : reloadCalls (s.trace ++ [Event.call Fn.reloadSecurityKey]) = reloadCalls s.trace + 1 := by
    simp [reloadCalls]
  rw [← hcount, ← h]
  rfl

/-- What the expiry check does. -/
theorem refreshIfExpiring_run (env : Env) (s : St) :
    refreshIfExpiring env s =
      if s.c.SecurityKeyExpiresAt.IsZero = false ∧
          wrapInt64 (env.now s.trace.length + keyExpiresDuration) > s.c.SecurityKeyExpiresAt.Unix then
        match reloadSecurityKey env s with
        | (Outcome.ret _, s1) => (Outcome.ret (), s1)
        | (Outcome.panic p, s1) => (Outcome.panic p, s1)
      else (Outcome.ret (), s) := by
  unfold refreshIfExpiring
  simp only [bind_run, getC_run, tick_run]
  cases hz : s.c.SecurityKeyExpiresAt.IsZero with
  | true => simp
  | false =>
    by_cases hexp : wrapInt64 (env.now s.trace.length + keyExpiresDuration) > s.c.SecurityKeyExpiresAt.Unix
    · simp only [Bool.not_false, if_true, tick_run, if_pos hexp, true_and, bind_run, and_self]
      cases hr : reloadSecurityKey env s with
      | mk o s1 => cases o <;> simp
    · simp [hexp]

theorem wrapInt64_of_range (x : Int) (h1 : -2 ^ 63 ≤ x) (h2 : x < 2 ^ 63) : wrapInt64 x = x := by
  unfold wrapInt64
  have h3 : (x + 2 ^ 63) % 2 ^ 64 = x + 2 ^ 63 := Int.emod_eq_of_lt (by omega) (by omega)
  omega

/-- For a supported service, `NewServiceClient` is the expiry check followed
by the construction of the client. -/
theorem NewServiceClient_split (env : Env) (srv region : String) (catalog : ServiceCatalog)
    (hsrv : env.allServiceCatalog.lookup srv = some catalog) :
    NewServiceClient env srv region =
      (refreshIfExpiring env >>= fun _ => buildServiceClient env srv region catalog) := by
  unfold NewServiceClient
  simp only [hsrv]

theorem assertString_run (v : JSON) (s : St) :
    assertString v s = match v with
      | JSON.str text => (Outcome.ret text, s)
      | _ => (Outcome.panic "interface conversion: interface {} is not string", s) := by
  unfold assertString
  cases v <;> rfl

/-- What `getAuthConfigByMeta` does with a decoded document. -/
theorem getAuthConfigByMeta_parsed (env : Env) (s : St) (v : JSON)
    (hreply : env.metadata (s.trace.length + 1) = MetaReply.response 200 (MetaBody.parsed v)) :
    getAuthConfigByMeta env s =
      if (jmesSearch "credential" "access" v).isNil || (jmesSearch "credential" "secret" v).isNil ||
          (jmesSearch "credential" "securitytoken" v).isNil ||
          (jmesSearch "credential" "expires_at" v).isNil then
        (Outcome.ret (some "Error fetching metadata authentication information."),
          { s with trace := s.trace ++ [Event.call Fn.getAuthConfigByMeta] })
      else
        match jmesSearch "credential" "expires_at" v with
        | JSON.str text =>
          match env.parseRFC3339 text with
          | Except.error err =>
            (Outcome.ret (some err), { s with trace := s.trace ++ [Event.call Fn.getAuthConfigByMeta] })
          | Except.ok t =>
            match jmesSearch "credential" "access" v, jmesSearch "credential" "secret" v,
                jmesSearch "credential" "securitytoken" v with
            | JSON.str ak, JSON.str sk, JSON.str st =>
              (Outcome.ret none,
                { c := { s.c with AccessKey := ak, SecretKey := sk, SecurityToken := st,
                                  SecurityKeyExpiresAt := t },
                  trace := s.trace ++ [Event.call Fn.getAuthConfigByMeta] })
            | _, _, _ =>
              (Outcome.panic "interface conversion: interface {} is not string",
                { s with trace := s.trace ++ [Event.call Fn.getAuthConfigByMeta] })
        | _ =>
          (Outcome.panic "interface conversion: interface {} is not string",
            { s with trace := s.trace ++ [Event.call Fn.getAuthConfigByMeta] }) := by
  unfold getAuthConfigByMeta
  simp only [bind_run, logEvent_run, tick_run, List.length_append, List.length_singleton, hreply,
    pure_run, ne_eq, not_true_eq_false, if_false]
  generalize jmesSearch "credential" "access" v = a
  generalize jmesSearch "credential" "secret" v = b
  generalize jmesSearch "credential" "securitytoken" v = d
  generalize jmesSearch "credential" "expires_at" v = e
  by_cases hnil : (a.isNil || b.isNil || d.isNil || e.isNil) = true
  · simp [hnil]
  · simp only [hnil, Bool.false_eq_true, if_false]
    cases e with
    | str text =>
      cases hp : env.parseRFC3339 text with
      | error err =>
        simp only [assertString_run, bind_run, hp, pure_run]
      | ok t =>
        cases a <;> cases b <;> cases d <;>
          simp only [assertString_run, bind_run, hp, pure_run, modifyC_run]
    | _ => rfl

/-- What `getAuthConfigByMeta` does when no document is decoded. -/
theorem getAuthConfigByMeta_failed (env : Env) (s : St)
    (hreply : ∀ v, env.metadata (s.trace.length + 1) ≠ MetaReply.response 200 (MetaBody.parsed v)) :
    ∃ err, getAuthConfigByMeta env s =
      (Outcome.ret (some err), { s with trace := s.trace ++ [Event.call Fn.getAuthConfigByMeta] }) := by
  unfold getAuthConfigByMeta
  simp only [bind_run, logEvent_run, tick_run, List.length_append, List.length_singleton, pure_run]
  cases hm : env.metadata (s.trace.length + 1) with
  | requestError msg => exact ⟨_, rfl⟩
  | response status body =>
    by_cases hst : status = 200
    · subst hst
      cases body with
      | readError msg => exact ⟨_, rfl⟩
      | invalidJSON msg => exact ⟨_, rfl⟩
      | parsed v => exact absurd hm (hreply v)
    · simp only [ne_eq, hst, not_false_eq_true, if_true]
      exact ⟨_, rfl⟩

theorem lookup_foldl_mapInsert (k : String) (all : List Entity) :
    ∀ m : List (String × String),
      ((∃ item ∈ all, item.Name = k) ∨ ∃ p, m.lookup k = some p) →
      ∃ p, (all.foldl (fun m item => mapInsert m item.Name item.ID) m).lookup k = some p := by
  induction all with
  | nil =>
    intro m h
    rcases h with ⟨item, hmem, _⟩ | h
    · cases hmem
    · simpa using h
  | cons a rest ih =>
    intro m h
    simp only [List.foldl_cons]
    apply ih
    by_cases hk : a.Name = k
    · right
      exact ⟨a.ID, by simp [mapInsert, List.lookup, hk]⟩
    · rcases h with ⟨item, hmem, hname⟩ | ⟨p, hp⟩
      · rcases List.mem_cons.mp hmem with h1 | h1
        · exact absurd (h1 ▸ hname) hk
        · left
          exact ⟨item, h1, hname⟩
      · right
        refine ⟨p, ?_⟩
        have hne : (k == a.Name) = false := by
          simpa using fun h : k = a.Name => hk h.symm
        simp [mapInsert, List.lookup, hne, hp]

/-- What `loadUserProjects` does with a client. -/
theorem loadUserProjects_run (env : Env) (pc : ProviderClient) (region : String) (s : St) :
    loadUserProjects env (some pc) region s =
      match env.projectsList (s.trace.length + 1)
          { Endpoint := s.c.IdentityEndpoint ++ "/", ProviderClient := some pc } pc.DomainID region with
      | Listing.pagesError msg =>
        (Outcome.ret (some ("List projects failed, err=" ++ msg)),
          { s with trace := s.trace ++ [Event.call Fn.loadUserProjects] })
      | Listing.extractError msg =>
        (Outcome.ret (some ("Extract projects failed, err=" ++ msg)),
          { s with trace := s.trace ++ [Event.call Fn.loadUserProjects] })
      | Listing.items all =>
        if all.length = 0 then
          (Outcome.ret (some ("Wrong name or no access to the region: " ++ region)),
            { s with trace := s.trace ++ [Event.call Fn.loadUserProjects] })
        else
          (Outcome.ret none,
            { c := { s.c with RegionProjectIDMap :=
                       all.foldl (fun m item => mapInsert m item.Name item.ID) s.c.RegionProjectIDMap },
              trace := s.trace ++ [Event.call Fn.loadUserProjects] }) := by
  unfold loadUserProjects
  simp only [bind_run, logEvent_run, getC_run, tick_run, List.length_append, List.length_singleton]
  cases env.projectsList (s.trace.length + 1)
      { Endpoint := s.c.IdentityEndpoint ++ "/", ProviderClient := some pc } pc.DomainID region with
  | pagesError msg => rfl
  | extractError msg => rfl
  | items all =>
    by_cases hlen : all.length = 0
    · simp only [hlen, if_true, pure_run]
    · simp only [hlen, if_false, bind_run, modifyC_run, pure_run]

/-- What `newServiceClientByName` does when the region is not in the map. -/
theorem newServiceClientByName_miss (env : Env) (client : Option ProviderClient)
    (catalog : ServiceCatalog) (region : String) (s : St)
    (hname : catalog.Name ≠ "")
    (hguard : region = s.c.Region ∨ (s.c.AccessKey ≠ "" ∧ s.c.SecretKey ≠ ""))
    (hlk : s.c.RegionProjectIDMap.lookup region = none) :
    newServiceClientByName env client catalog region s =
      match loadUserProjects env client region s with
      | (Outcome.ret (some err), s1) => (Outcome.ret (Except.error err), s1)
      | (Outcome.ret none, s1) =>
        match client with
        | none => (Outcome.panic "invalid memory address or nil pointer dereference", s1)
        | some pc =>
          (Outcome.ret (Except.ok (assembleByName s1.c pc catalog region
            ((s1.c.RegionProjectIDMap.lookup region).getD ""))), s1)
      | (Outcome.panic p, s1) => (Outcome.panic p, s1) := by
  have hg : ¬ (region ≠ s.c.Region ∧ (s.c.AccessKey = "" ∨ s.c.SecretKey = "")) := by
    rintro ⟨h1, h2⟩
    rcases hguard with h | ⟨ha, hs⟩
    · exact h1 h
    · rcases h2 with h | h
      · exact ha h
      · exact hs h
  unfold newServiceClientByName resolveProjectID
  simp only [bind_run, getC_run, pure_run, if_neg hname, if_neg hg, hlk]
  cases hload : loadUserProjects env client region s with
  | mk o s1 =>
    cases o with
    | panic p => rfl
    | ret r =>
      cases r with
      | some err => rfl
      | none =>
        cases client with
        | none => rfl
        | some pc => rfl

theorem sameExpiry_frame : Frame sameExpiry :=
  ⟨fun _ => rfl, fun _ _ _ hab hbc => hbc.trans hab⟩

theorem Steps.after_bind {α β : Type} {A : Event → Prop} {F : Config → Config → Prop} (hF : Frame F)
    (m : Prog α) (f : α → Prog β) (hf : ∀ a, Steps A F (f a)) (s : St) :
    F (m s).2.c ((m >>= f) s).2.c := by
  simp only [bind_run]
  cases h : m s with
  | mk o s1 =>
    cases o with
    | panic p => exact hF.refl _
    | ret a => exact ((hf a).run s1).2

/-- Insertions into `RegionProjectIDMap`, one listed project after the other,
stay within a frame that allows single insertions. -/
theorem frame_foldl_insert {F : Config → Config → Prop} (hF : Frame F)
    (hIns : ∀ c k v, F c { c with RegionProjectIDMap := mapInsert c.RegionProjectIDMap k v }) (all : List Entity) :
    ∀ c : Config,
      F c { c with RegionProjectIDMap := all.foldl (fun m item => mapInsert m item.Name item.ID) c.RegionProjectIDMap } := by
  induction all with
  | nil => exact fun c => hF.refl c
  | cons a rest ih =>
    intro c
    exact hF.trans _ _ _ (hIns c a.Name a.ID)
      (ih { c with RegionProjectIDMap := mapInsert c.RegionProjectIDMap a.Name a.ID })

/-- The fields that `buildClientByConfig` copies from the profile do not
include `RegionProjectIDMap`. -/
theorem profileUpdate_map (providerConfig : Profile) (c : Config) :
    (let c := { c with AccessKey := providerConfig.AccessKeyId,
                       SecretKey := providerConfig.SecretAccessKey }
     let c := if providerConfig.Region ≠ "" then { c with Region := providerConfig.Region } else c
     let c := if providerConfig.DomainId ≠ "" then { c with DomainID := providerConfig.DomainId } else c
     if providerConfig.ProjectId ≠ "" then { c with TenantID := providerConfig.ProjectId } else c).RegionProjectIDMap =
      c.RegionProjectIDMap := by
  by_cases h1 : providerConfig.Region = "" <;> by_cases h2 : providerConfig.DomainId = "" <;>
    by_cases h3 : providerConfig.ProjectId = "" <;> simp [h1, h2, h3]

theorem genClient_logs (env : Env) (ao : AuthOptionsProvider) {A : Event → Prop} {F : Config → Config → Prop} (hF : Frame F)
    (hA : ∀ f ∈ [Fn.genClient], A (Event.call f)) : Steps A F (genClient env ao) := by
  unfold genClient
  repeat (first
    | exact Steps.pure hF _ | exact Steps.getC hF | exact Steps.tick hF | exact Steps.panicWith hF _
    | exact Steps.logEvent hF (hA _ (by decide))
    | apply Steps.bind hF | intro _ | split | dsimp only)

theorem genClients_logs (env : Env) (pao dao : AuthOptionsProvider) {A : Event → Prop} {F : Config → Config → Prop} (hF : Frame F)
    (hA : ∀ f ∈ [Fn.genClient], A (Event.call f))
    (hHw : ∀ (c : Config) (x : ProviderClient), F c { c with HwClient := some x }) (hDc : ∀ (c : Config) (x : ProviderClient), F c { c with DomainClient := some x }) :
    Steps A F (genClients env pao dao) := by
  unfold genClients
  repeat (first
    | exact Steps.pure hF _ | exact Steps.getC hF | exact Steps.tick hF | exact Steps.panicWith hF _
    | exact genClient_logs env _ hF hA
    | exact Steps.modifyC (fun c => hHw c _)
    | exact Steps.modifyC (fun c => hDc c _)
    | apply Steps.bind hF | intro _ | split | dsimp only)

theorem buildClientByToken_logs (env : Env) {A : Event → Prop} {F : Config → Config → Prop} (hF : Frame F)
    (hA : ∀ f ∈ [Fn.buildClientByToken, Fn.genClient], A (Event.call f))
    (hHw : ∀ (c : Config) (x : ProviderClient), F c { c with HwClient := some x }) (hDc : ∀ (c : Config) (x : ProviderClient), F c { c with DomainClient := some x }) :
    Steps A F (buildClientByToken env) := by
  unfold buildClientByToken
  repeat (first
    | exact Steps.pure hF _ | exact Steps.getC hF | exact Steps.tick hF | exact Steps.panicWith hF _
    | exact Steps.logEvent hF (hA _ (by decide))
    | exact genClients_logs env _ _ hF (fun f hf => hA f ((by decide : ∀ g ∈ [Fn.genClient], g ∈ [Fn.buildClientByToken, Fn.genClient]) f hf)) hHw hDc
    | apply Steps.bind hF | intro _ | split | dsimp only)

theorem buildClientByAKSK_logs (env : Env) {A : Event → Prop} {F : Config → Config → Prop} (hF : Frame F)
    (hA : ∀ f ∈ [Fn.buildClientByAKSK, Fn.genClient], A (Event.call f))
    (hHw : ∀ (c : Config) (x : ProviderClient), F c { c with HwClient := some x }) (hDc : ∀ (c : Config) (x : ProviderClient), F c { c with DomainClient := some x }) :
    Steps A F (buildClientByAKSK env) := by
  unfold buildClientByAKSK
  repeat (first
    | exact Steps.pure hF _ | exact Steps.getC hF | exact Steps.tick hF | exact Steps.panicWith hF _
    | exact Steps.logEvent hF (hA _ (by decide))
    | exact genClients_logs env _ _ hF (fun f hf => hA f ((by decide : ∀ g ∈ [Fn.genClient], g ∈ [Fn.buildClientByAKSK, Fn.genClient]) f hf)) hHw hDc
    | apply Steps.bind hF | intro _ | split | dsimp only)

theorem buildClientByPassword_logs (env : Env) {A : Event → Prop} {F : Config → Config → Prop} (hF : Frame F)
    (hA : ∀ f ∈ [Fn.buildClientByPassword, Fn.genClient], A (Event.call f))
    (hHw : ∀ (c : Config) (x : ProviderClient), F c { c with HwClient := some x }) (hDc : ∀ (c : Config) (x : ProviderClient), F c { c with DomainClient := some x }) :
    Steps A F (buildClientByPassword env) := by
  unfold buildClientByPassword
  repeat (first
    | exact Steps.pure hF _ | exact Steps.getC hF | exact Steps.tick hF | exact Steps.panicWith hF _
    | exact Steps.logEvent hF (hA _ (by decide))
    | exact genClients_logs env _ _ hF (fun f hf => hA f ((by decide : ∀ g ∈ [Fn.genClient], g ∈ [Fn.buildClientByPassword, Fn.genClient]) f hf)) hHw hDc
    | apply Steps.bind hF | intro _ | split | dsimp only)

theorem buildClientByConfig_logs (env : Env) {A : Event → Prop} {F : Config → Config → Prop} (hF : Frame F)
    (hA : ∀ f ∈ [Fn.buildClientByConfig, Fn.buildClientByAKSK, Fn.genClient], A (Event.call f))
    (hOther : ∀ a b : Config, b.RegionProjectIDMap = a.RegionProjectIDMap → F a b) :
    Steps A F (buildClientByConfig env) := by
  unfold buildClientByConfig
  repeat (first
    | exact Steps.pure hF _ | exact Steps.getC hF | exact Steps.tick hF | exact Steps.panicWith hF _
    | exact Steps.logEvent hF (hA _ (by decide))
    | exact buildClientByAKSK_logs env hF (fun f hf => hA f ((by decide : ∀ g ∈ [Fn.buildClientByAKSK, Fn.genClient], g ∈ [Fn.buildClientByConfig, Fn.buildClientByAKSK, Fn.genClient]) f hf)) (fun _ _ => hOther _ _ rfl) (fun _ _ => hOther _ _ rfl)
    | exact Steps.modifyC (fun c => hOther _ _ (profileUpdate_map _ c))
    | apply Steps.bind hF | intro _ | split | dsimp only)

theorem getAuthConfigByMeta_logs (env : Env) {A : Event → Prop} {F : Config → Config → Prop} (hF : Frame F)
    (hA : ∀ f ∈ [Fn.getAuthConfigByMeta], A (Event.call f))
    (hCred : ∀ c a b d e, F c { c with AccessKey := a, SecretKey := b, SecurityToken := d, SecurityKeyExpiresAt := e }) :
    Steps A F (getAuthConfigByMeta env) := by
  unfold getAuthConfigByMeta
  repeat (first
    | exact Steps.pure hF _ | exact Steps.getC hF | exact Steps.tick hF | exact Steps.panicWith hF _
    | exact Steps.logEvent hF (hA _ (by decide))
    | exact assertString_steps _ hF
    | exact Steps.modifyC (fun c => hCred c _ _ _ _)
    | apply Steps.bind hF | intro _ | split | dsimp only)

theorem reloadSecurityKey_logs (env : Env) {A : Event → Prop} {F : Config → Config → Prop} (hF : Frame F)
    (hA : ∀ f ∈ [Fn.reloadSecurityKey, Fn.getAuthConfigByMeta, Fn.buildClientByAKSK, Fn.genClient], A (Event.call f))
    (hCred : ∀ c a b d e, F c { c with AccessKey := a, SecretKey := b, SecurityToken := d, SecurityKeyExpiresAt := e })
    (hHw : ∀ (c : Config) (x : ProviderClient), F c { c with HwClient := some x }) (hDc : ∀ (c : Config) (x : ProviderClient), F c { c with DomainClient := some x }) :
    Steps A F (reloadSecurityKey env) := by
  unfold reloadSecurityKey
  repeat (first
    | exact Steps.pure hF _ | exact Steps.getC hF | exact Steps.tick hF | exact Steps.panicWith hF _
    | exact Steps.logEvent hF (hA _ (by decide))
    | exact getAuthConfigByMeta_logs env hF (fun f hf => hA f ((by decide : ∀ g ∈ [Fn.getAuthConfigByMeta], g ∈ [Fn.reloadSecurityKey, Fn.getAuthConfigByMeta, Fn.buildClientByAKSK, Fn.genClient]) f hf)) hCred
    | exact buildClientByAKSK_logs env hF (fun f hf => hA f ((by decide : ∀ g ∈ [Fn.buildClientByAKSK, Fn.genClient], g ∈ [Fn.reloadSecurityKey, Fn.getAuthConfigByMeta, Fn.buildClientByAKSK, Fn.genClient]) f hf)) hHw hDc
    | apply Steps.bind hF | intro _ | split | dsimp only)

theorem obsNew_logs (env : Env) (args : ObsClient) {A : Event → Prop} {F : Config → Config → Prop} (hF : Frame F)
    (hA : ∀ f ∈ [Fn.obsNew], A (Event.call f)) : Steps A F (obsNew env args) := by
  unfold obsNew
  repeat (first
    | exact Steps.pure hF _ | exact Steps.getC hF | exact Steps.tick hF | exact Steps.panicWith hF _
    | exact Steps.logEvent hF (hA _ (by decide))
    | apply Steps.bind hF | intro _ | split | dsimp only)

theorem ObjectStorageClientWithSignature_logs (env : Env) (region : String) {A : Event → Prop} {F : Config → Config → Prop} (hF : Frame F)
    (hA : ∀ f ∈ [Fn.obsNew], A (Event.call f)) :
    Steps A F (ObjectStorageClientWithSignature env region) := by
  unfold ObjectStorageClientWithSignature
  repeat (first
    | exact Steps.pure hF _ | exact Steps.getC hF | exact Steps.tick hF | exact Steps.panicWith hF _
    | exact obsNew_logs env _ hF hA
    | apply Steps.bind hF | intro _ | split | dsimp only)

theorem loadUserProjects_logs (env : Env) (client : Option ProviderClient) (region : String) {A : Event → Prop} {F : Config → Config → Prop} (hF : Frame F)
    (hA : ∀ f ∈ [Fn.loadUserProjects], A (Event.call f))
    (hIns : ∀ c k v, F c { c with RegionProjectIDMap := mapInsert c.RegionProjectIDMap k v }) :
    Steps A F (loadUserProjects env client region) := by
  unfold loadUserProjects
  repeat (first
    | exact Steps.pure hF _ | exact Steps.getC hF | exact Steps.tick hF | exact Steps.panicWith hF _
    | exact Steps.logEvent hF (hA _ (by decide))
    | exact Steps.modifyC (fun c => frame_foldl_insert hF hIns _ c)
    | apply Steps.bind hF | intro _ | split | dsimp only)

theorem resolveProjectID_logs (env : Env) (client : Option ProviderClient) (region : String) {A : Event → Prop} {F : Config → Config → Prop} (hF : Frame F)
    (hA : ∀ f ∈ [Fn.loadUserProjects], A (Event.call f))
    (hIns : ∀ c k v, F c { c with RegionProjectIDMap := mapInsert c.RegionProjectIDMap k v }) :
    Steps A F (resolveProjectID env client region) := by
  unfold resolveProjectID
  repeat (first
    | exact Steps.pure hF _ | exact Steps.getC hF | exact Steps.tick hF | exact Steps.panicWith hF _
    | exact loadUserProjects_logs env _ _ hF hA hIns
    | apply Steps.bind hF | intro _ | split | dsimp only)

theorem newServiceClientByName_logs (env : Env) (client : Option ProviderClient)
    (catalog : ServiceCatalog) (region : String) {A : Event → Prop} {F : Config → Config → Prop} (hF : Frame F)
    (hA : ∀ f ∈ [Fn.loadUserProjects], A (Event.call f))
    (hIns : ∀ c k v, F c { c with RegionProjectIDMap := mapInsert c.RegionProjectIDMap k v }) :
    Steps A F (newServiceClientByName env client catalog region) := by
  unfold newServiceClientByName
  repeat (first
    | exact Steps.pure hF _ | exact Steps.getC hF | exact Steps.tick hF | exact Steps.panicWith hF _
    | exact resolveProjectID_logs env _ _ hF hA hIns
    | apply Steps.bind hF | intro _ | split | dsimp only)

theorem refreshIfExpiring_logs (env : Env) {A : Event → Prop} {F : Config → Config → Prop} (hF : Frame F)
    (hA : ∀ f ∈ [Fn.reloadSecurityKey, Fn.getAuthConfigByMeta, Fn.buildClientByAKSK, Fn.genClient], A (Event.call f))
    (hCred : ∀ c a b d e, F c { c with AccessKey := a, SecretKey := b, SecurityToken := d, SecurityKeyExpiresAt := e })
    (hHw : ∀ (c : Config) (x : ProviderClient), F c { c with HwClient := some x }) (hDc : ∀ (c : Config) (x : ProviderClient), F c { c with DomainClient := some x }) :
    Steps A F (refreshIfExpiring env) := by
  unfold refreshIfExpiring
  repeat (first
    | exact Steps.pure hF _ | exact Steps.getC hF | exact Steps.tick hF | exact Steps.panicWith hF _
    | exact reloadSecurityKey_logs env hF hA hCred hHw hDc
    | apply Steps.bind hF | intro _ | split | dsimp only)

theorem ObjectStorageClient_logs (env : Env) (region : String) {A : Event → Prop} {F : Config → Config → Prop} (hF : Frame F)
    (hA : ∀ f ∈ [Fn.reloadSecurityKey, Fn.getAuthConfigByMeta, Fn.buildClientByAKSK, Fn.genClient, Fn.obsNew], A (Event.call f))
    (hCred : ∀ c a b d e, F c { c with AccessKey := a, SecretKey := b, SecurityToken := d, SecurityKeyExpiresAt := e })
    (hHw : ∀ (c : Config) (x : ProviderClient), F c { c with HwClient := some x }) (hDc : ∀ (c : Config) (x : ProviderClient), F c { c with DomainClient := some x }) :
    Steps A F (ObjectStorageClient env region) := by
  unfold ObjectStorageClient
  repeat (first
    | exact Steps.pure hF _ | exact Steps.getC hF | exact Steps.tick hF | exact Steps.panicWith hF _
    | exact refreshIfExpiring_logs env hF (fun f hf => hA f ((by decide : ∀ g ∈ [Fn.reloadSecurityKey, Fn.getAuthConfigByMeta, Fn.buildClientByAKSK, Fn.genClient], g ∈ [Fn.reloadSecurityKey, Fn.getAuthConfigByMeta, Fn.buildClientByAKSK, Fn.genClient, Fn.obsNew]) f hf)) hCred hHw hDc
    | exact obsNew_logs env _ hF (fun f hf => hA f ((by decide : ∀ g ∈ [Fn.obsNew], g ∈ [Fn.reloadSecurityKey, Fn.getAuthConfigByMeta, Fn.buildClientByAKSK, Fn.genClient, Fn.obsNew]) f hf))
    | apply Steps.bind hF | intro _ | split | dsimp only)

theorem buildServiceClient_logs (env : Env) (srv region : String) (catalog : ServiceCatalog)
    {A : Event → Prop} {F : Config → Config → Prop} (hF : Frame F)
    (hA : ∀ f ∈ [Fn.loadUserProjects], A (Event.call f))
    (hIns : ∀ c k v, F c { c with RegionProjectIDMap := mapInsert c.RegionProjectIDMap k v }) :
    Steps A F (buildServiceClient env srv region catalog) := by
  unfold buildServiceClient
  refine Steps.bind hF (Steps.getC hF) ?_
  intro c
  dsimp only
  split
  · exact newServiceClientByEndpoint_steps env _ _ _ hF
  · exact newServiceClientByName_logs env _ _ _ hF hA hIns

theorem NewServiceClient_logs (env : Env) (srv region : String) {A : Event → Prop} {F : Config → Config → Prop} (hF : Frame F)
    (hA : ∀ f ∈ [Fn.reloadSecurityKey, Fn.getAuthConfigByMeta, Fn.buildClientByAKSK, Fn.genClient, Fn.loadUserProjects], A (Event.call f))
    (hCred : ∀ c a b d e, F c { c with AccessKey := a, SecretKey := b, SecurityToken := d, SecurityKeyExpiresAt := e })
    (hHw : ∀ (c : Config) (x : ProviderClient), F c { c with HwClient := some x }) (hDc : ∀ (c : Config) (x : ProviderClient), F c { c with DomainClient := some x })
    (hIns : ∀ c k v, F c { c with RegionProjectIDMap := mapInsert c.RegionProjectIDMap k v }) :
    Steps A F (NewServiceClient env srv region) := by
  unfold NewServiceClient
  repeat (first
    | exact Steps.pure hF _ | exact Steps.getC hF | exact Steps.tick hF | exact Steps.panicWith hF _
    | exact refreshIfExpiring_logs env hF (fun f hf => hA f ((by decide : ∀ g ∈ [Fn.reloadSecurityKey, Fn.getAuthConfigByMeta, Fn.buildClientByAKSK, Fn.genClient], g ∈ [Fn.reloadSecurityKey, Fn.getAuthConfigByMeta, Fn.buildClientByAKSK, Fn.genClient, Fn.loadUserProjects]) f hf)) hCred hHw hDc
    | exact buildServiceClient_logs env _ _ _ hF (fun f hf => hA f ((by decide : ∀ g ∈ [Fn.loadUserProjects], g ∈ [Fn.reloadSecurityKey, Fn.getAuthConfigByMeta, Fn.buildClientByAKSK, Fn.genClient, Fn.loadUserProjects]) f hf)) hIns
    | apply Steps.bind hF | intro _ | split | dsimp only)

theorem getDomainID_logs (env : Env) {A : Event → Prop} {F : Config → Config → Prop} (hF : Frame F)
    (hA : ∀ f ∈ [Fn.getDomainID, Fn.reloadSecurityKey, Fn.getAuthConfigByMeta, Fn.buildClientByAKSK, Fn.genClient, Fn.loadUserProjects], A (Event.call f))
    (hCred : ∀ c a b d e, F c { c with AccessKey := a, SecretKey := b, SecurityToken := d, SecurityKeyExpiresAt := e })
    (hHw : ∀ (c : Config) (x : ProviderClient), F c { c with HwClient := some x }) (hDc : ∀ (c : Config) (x : ProviderClient), F c { c with DomainClient := some x })
    (hIns : ∀ c k v, F c { c with RegionProjectIDMap := mapInsert c.RegionProjectIDMap k v }) :
    Steps A F (getDomainID env) := by
  unfold getDomainID IdentityV3Client
  repeat (first
    | exact Steps.pure hF _ | exact Steps.getC hF | exact Steps.tick hF | exact Steps.panicWith hF _
    | exact Steps.logEvent hF (hA _ (by decide))
    | exact NewServiceClient_logs env _ _ hF (fun f hf => hA f ((by decide : ∀ g ∈ [Fn.reloadSecurityKey, Fn.getAuthConfigByMeta, Fn.buildClientByAKSK, Fn.genClient, Fn.loadUserProjects], g ∈ [Fn.getDomainID, Fn.reloadSecurityKey, Fn.getAuthConfigByMeta, Fn.buildClientByAKSK, Fn.genClient, Fn.loadUserProjects]) f hf)) hCred hHw hDc hIns
    | apply Steps.bind hF | intro _ | split | dsimp only)

theorem getUserIDbyName_logs (env : Env) (name : String) {A : Event → Prop} {F : Config → Config → Prop} (hF : Frame F)
    (hA : ∀ f ∈ [Fn.getUserIDbyName, Fn.reloadSecurityKey, Fn.getAuthConfigByMeta, Fn.buildClientByAKSK, Fn.genClient, Fn.loadUserProjects], A (Event.call f))
    (hCred : ∀ c a b d e, F c { c with AccessKey := a, SecretKey := b, SecurityToken := d, SecurityKeyExpiresAt := e })
    (hHw : ∀ (c : Config) (x : ProviderClient), F c { c with HwClient := some x }) (hDc : ∀ (c : Config) (x : ProviderClient), F c { c with DomainClient := some x })
    (hIns : ∀ c k v, F c { c with RegionProjectIDMap := mapInsert c.RegionProjectIDMap k v }) :
    Steps A F (getUserIDbyName env name) := by
  unfold getUserIDbyName IdentityV3Client
  repeat (first
    | exact Steps.pure hF _ | exact Steps.getC hF | exact Steps.tick hF | exact Steps.panicWith hF _
    | exact Steps.logEvent hF (hA _ (by decide))
    | exact NewServiceClient_logs env _ _ hF (fun f hf => hA f ((by decide : ∀ g ∈ [Fn.reloadSecurityKey, Fn.getAuthConfigByMeta, Fn.buildClientByAKSK, Fn.genClient, Fn.loadUserProjects], g ∈ [Fn.getUserIDbyName, Fn.reloadSecurityKey, Fn.getAuthConfigByMeta, Fn.buildClientByAKSK, Fn.genClient, Fn.loadUserProjects]) f hf)) hCred hHw hDc hIns
    | apply Steps.bind hF | intro _ | split | dsimp only)

set_option maxRecDepth 8000 in
theorem afterCredentials_logs (env : Env) {A : Event → Prop} {F : Config → Config → Prop} (hF : Frame F)
    (hA : ∀ f ∈ [Fn.getDomainID, Fn.getUserIDbyName, Fn.reloadSecurityKey, Fn.getAuthConfigByMeta, Fn.buildClientByAKSK, Fn.genClient, Fn.loadUserProjects], A (Event.call f))
    (hOther : ∀ a b : Config, b.RegionProjectIDMap = a.RegionProjectIDMap → F a b)
    (hIns : ∀ c k v, F c { c with RegionProjectIDMap := mapInsert c.RegionProjectIDMap k v }) :
    Steps A F (afterCredentials env) := by
  have hCred : ∀ (c : Config) (a b d : String) (e : Time), F c { c with AccessKey := a, SecretKey := b, SecurityToken := d, SecurityKeyExpiresAt := e } :=
    fun _ _ _ _ _ => hOther _ _ rfl
  have hHw : ∀ (c : Config) (x : ProviderClient), F c { c with HwClient := some x } := fun _ _ => hOther _ _ rfl
  have hDc : ∀ (c : Config) (x : ProviderClient), F c { c with DomainClient := some x } := fun _ _ => hOther _ _ rfl
  have hDomainID : ∀ (c : Config) (x : String), F c { c with DomainID := x } := fun _ _ => hOther _ _ rfl
  have hUserID : ∀ (c : Config) (x : String), F c { c with UserID := x } := fun _ _ => hOther _ _ rfl
  have hDom := getDomainID_logs env hF (fun f hf => hA f ((by decide : ∀ g ∈ [Fn.getDomainID, Fn.reloadSecurityKey, Fn.getAuthConfigByMeta, Fn.buildClientByAKSK, Fn.genClient, Fn.loadUserProjects], g ∈ [Fn.getDomainID, Fn.getUserIDbyName, Fn.reloadSecurityKey, Fn.getAuthConfigByMeta, Fn.buildClientByAKSK, Fn.genClient, Fn.loadUserProjects]) f hf)) hCred hHw hDc hIns
  have hUsr := fun name => getUserIDbyName_logs env name hF (fun f hf => hA f ((by decide : ∀ g ∈ [Fn.getUserIDbyName, Fn.reloadSecurityKey, Fn.getAuthConfigByMeta, Fn.buildClientByAKSK, Fn.genClient, Fn.loadUserProjects], g ∈ [Fn.getDomainID, Fn.getUserIDbyName, Fn.reloadSecurityKey, Fn.getAuthConfigByMeta, Fn.buildClientByAKSK, Fn.genClient, Fn.loadUserProjects]) f hf)) hCred hHw hDc hIns
  unfold afterCredentials
  repeat (first
    | exact Steps.pure hF _ | exact Steps.getC hF | exact Steps.tick hF | exact Steps.panicWith hF _
    | exact hDom
    | exact hUsr _
    | exact Steps.modifyC (fun c => hIns c _ _)
    | exact Steps.modifyC (fun c => hDomainID c _)
    | exact Steps.modifyC (fun c => hUserID c _)
    | exact Steps.modifyC (fun c => hDc c _)
    | apply Steps.bind hF | intro _ | split | dsimp only)

theorem powToInt_small (outOfRange : Int) (retries : Nat) (h : retries < 63) :
    powToInt outOfRange retries = 2 ^ retries := by
  simp [powToInt, h]

/-- Below 63 attempts the minutes are the power of two capped at 30, on every
platform. -/
theorem backoffMinutes_small (outOfRange : Int) (retries : Nat) (h : retries < 63) :
    backoffMinutes outOfRange retries = min (2 ^ retries) 30 := by
  unfold backoffMinutes
  simp only [powToInt_small outOfRange retries h]
  by_cases h30 : (2 : Int) ^ retries > 30
  · rw [if_pos h30, min_eq_right (le_of_lt h30)]
  · rw [if_neg h30, min_eq_left (not_lt.mp h30)]

theorem retryBackoffFunc_sleep (outOfRange : Int) (ctx : Option Context) (tie : Bool)
    (e : Option String) (retries : Nat) :
    retryBackoffFunc outOfRange ctx tie e retries =
      match ctx with
      | some ctx =>
        match ctx.doneAt with
        | some t =>
          if t < (backoffSleep outOfRange retries).toNat then ⟨e, t⟩
          else if (backoffSleep outOfRange retries).toNat < t then
            ⟨none, (backoffSleep outOfRange retries).toNat⟩
          else if tie then ⟨e, t⟩
          else ⟨none, (backoffSleep outOfRange retries).toNat⟩
        | none => ⟨none, (backoffSleep outOfRange retries).toNat⟩
      | none => ⟨none, (backoffSleep outOfRange retries).toNat⟩ := rfl

theorem overridesKept_frame : Frame overridesKept := by
  constructor
  · intro a
    exact ⟨rfl, rfl, id, id⟩
  · intro a b c hab hbc
    exact ⟨hbc.1.trans hab.1, hbc.2.1.trans hab.2.1, fun h => hbc.2.2.1 (hab.2.2.1 h),
      fun h => hbc.2.2.2 (hab.2.2.2 h)⟩

/-- The expiry check makes no project lookup, leaves `RegionProjectIDMap` and
`Endpoints` as they are and unsets no identity client. -/
theorem refreshIfExpiring_overridesKept (env : Env) :
    Steps (fun e => e ≠ Event.call Fn.loadUserProjects) overridesKept (refreshIfExpiring env) :=
  refreshIfExpiring_logs env overridesKept_frame (by decide)
    (fun _ _ _ _ _ => ⟨rfl, rfl, id, id⟩)
    (fun _ _ => ⟨rfl, rfl, fun _ => Option.some_ne_none _, id⟩)
    (fun _ _ => ⟨rfl, rfl, id, fun _ => Option.some_ne_none _⟩)

/-- With an endpoint override for the service, `NewServiceClient` is the
expiry check followed by the constructor by endpoint; the requested region
does not occur in it. -/
theorem NewServiceClient_override_run (env : Env) (srv region : String) (catalog : ServiceCatalog)
    (endpoint : String) (s : St) (hsrv : env.allServiceCatalog.lookup srv = some catalog)
    (hover : s.c.Endpoints.lookup srv = some endpoint) :
    NewServiceClient env srv region s =
      match refreshIfExpiring env s with
      | (Outcome.ret _, s1) =>
        newServiceClientByEndpoint env (if catalog.Admin then s1.c.DomainClient else s1.c.HwClient)
          srv endpoint s1
      | (Outcome.panic p, s1) => (Outcome.panic p, s1) := by
  rw [NewServiceClient_split env srv region catalog hsrv]
  have hfr := ((refreshIfExpiring_overridesKept env).run s).2
  simp only [bind_run]
  cases h : refreshIfExpiring env s with
  | mk o s1 =>
    rw [h] at hfr
    cases o with
    | panic p => rfl
    | ret a =>
      have hend : s1.c.Endpoints.lookup srv = some endpoint := by rw [hfr.2.1]; exact hover
      unfold buildServiceClient
      simp only [bind_run, getC_run, hend]

/-- A run of `NewServiceClient` that records no call of `reloadSecurityKey` is
a run of the part after the expiry check. -/
theorem NewServiceClient_no_refresh (env : Env) (srv region : String) (catalog : ServiceCatalog)
    (s : St) (hsrv : env.allServiceCatalog.lookup srv = some catalog)
    (hno : reloadCalls (NewServiceClient env srv region s).2.trace = reloadCalls s.trace) :
    NewServiceClient env srv region s = buildServiceClient env srv region catalog s := by
  rw [NewServiceClient_split env srv region catalog hsrv] at hno ⊢
  have hrun := refreshIfExpiring_run env s
  by_cases hc : s.c.SecurityKeyExpiresAt.IsZero = false ∧
      wrapInt64 (env.now s.trace.length + keyExpiresDuration) > s.c.SecurityKeyExpiresAt.Unix
  · exfalso
    rw [reloadCalls_bind _ _ (fun _ => buildServiceClient_steps env srv region catalog anyChange_frame
      notReload_call (fun _ _ => trivial)), hrun, if_pos hc] at hno
    have h2 := reloadSecurityKey_reloadCalls env s
    cases hr : reloadSecurityKey env s with
    | mk o s1 =>
      rw [hr] at hno h2
      cases o <;> (dsimp only at hno h2; omega)
  · simp only [bind_run]
    rw [hrun, if_neg hc]

/-- A key that is the name of no listed project keeps its value. -/
theorem lookup_foldl_mapInsert_other (k : String) (all : List Entity) :
    ∀ m : List (String × String), (∀ item ∈ all, item.Name ≠ k) →
      (all.foldl (fun m item => mapInsert m item.Name item.ID) m).lookup k = m.lookup k := by
  induction all with
  | nil => intro m _; rfl
  | cons a rest ih =>
    intro m h
    simp only [List.foldl_cons]
    rw [ih _ (fun item hmem => h item (List.mem_cons_of_mem _ hmem))]
    have hne : (k == a.Name) = false := by
      simpa using fun hk : k = a.Name => h a (List.mem_cons_self _ _) hk.symm
    simp [mapInsert, List.lookup, hne]

/-- The name of a listed project that no later project of the listing shares
is mapped to the ID of that project. -/
theorem lookup_foldl_mapInsert_last (pre post : List Entity) (item : Entity)
    (m : List (String × String)) (hlast : ∀ x ∈ post, x.Name ≠ item.Name) :
    ((pre ++ item :: post).foldl (fun m item => mapInsert m item.Name item.ID) m).lookup item.Name =
      some item.ID := by
  rw [List.foldl_append, List.foldl_cons, lookup_foldl_mapInsert_other item.Name post _ hlast]
  simp [mapInsert, List.lookup]

/-- With pairwise distinct names every listed project is mapped to its ID. -/
theorem lookup_foldl_mapInsert_nodup (all : List Entity) (m : List (String × String))
    (hnodup : (all.map (fun item => item.Name)).Nodup) (item : Entity) (hmem : item ∈ all) :
    (all.foldl (fun m item => mapInsert m item.Name item.ID) m).lookup item.Name = some item.ID := by
  obtain ⟨pre, post, hall⟩ := List.append_of_mem hmem
  subst hall
  apply lookup_foldl_mapInsert_last
  intro x hx hname
  rw [List.map_append, List.map_cons] at hnodup
  have h1 := (List.nodup_append.mp hnodup).2.1
  have h2 := (List.nodup_cons.mp h1).1
  exact h2 (hname ▸ List.mem_map_of_mem (fun item => item.Name) hx)

/-- What `newServiceClientByName` does when the region is in the map: in
every case the state is as before. -/
theorem newServiceClientByName_hit (env : Env) (client : Option ProviderClient)
    (catalog : ServiceCatalog) (region projectID : String) (s : St)
    (hlk : s.c.RegionProjectIDMap.lookup region = some projectID) :
    newServiceClientByName env client catalog region s =
      if catalog.Name = "" then (Outcome.ret (Except.error "must specify the service name"), s)
      else if region ≠ s.c.Region ∧ (s.c.AccessKey = "" ∨ s.c.SecretKey = "") then
        (Outcome.ret (Except.error ("Resource-level region must be the same as Provider-level region " ++
          "when using non AK/SK authentication if Resource-level region set")), s)
      else
        match client with
        | none => (Outcome.panic "invalid memory address or nil pointer dereference", s)
        | some pc => (Outcome.ret (Except.ok (assembleByName s.c pc catalog region projectID)), s) := by
  unfold newServiceClientByName resolveProjectID
  simp only [bind_run, getC_run]
  by_cases hname : catalog.Name = ""
  · simp only [if_pos hname, pure_run]
  · by_cases hg : region ≠ s.c.Region ∧ (s.c.AccessKey = "" ∨ s.c.SecretKey = "")
    · simp only [if_neg hname, if_pos hg, pure_run]
    · simp only [if_neg hname, if_neg hg, bind_run, getC_run, pure_run, hlk]
      cases client <;> rfl

theorem mapGrows_frame : Frame mapGrows := by
  constructor
  · intro a
    exact ⟨[], rfl⟩
  · intro a b c hab hbc
    obtain ⟨w1, h1⟩ := hab
    obtain ⟨w2, h2⟩ := hbc
    exact ⟨w2 ++ w1, by rw [h2, h1, List.append_assoc]⟩

theorem mapGrows_of_same_map (a b : Config) (h : b.RegionProjectIDMap = a.RegionProjectIDMap) :
    mapGrows a b :=
  ⟨[], h⟩

theorem mapGrows_insert (c : Config) (k v : String) :
    mapGrows c { c with RegionProjectIDMap := mapInsert c.RegionProjectIDMap k v } :=
  ⟨[(k, v)], rfl⟩

/-- A key that is present stays present when pairs are written in front. -/
theorem lookup_append_present (k p : String) (written m : List (String × String))
    (h : m.lookup k = some p) : ∃ q, (written ++ m).lookup k = some q := by
  induction written with
  | nil => exact ⟨p, h⟩
  | cons a rest ih =>
    obtain ⟨q, hq⟩ := ih
    cases hk : k == a.1 with
    | true => exact ⟨a.2, by simp [List.lookup, hk]⟩
    | false => exact ⟨q, by simp [List.lookup, hk, hq]⟩

/-- A key that is not written again keeps its value. -/
theorem lookup_append_other (k : String) (written m : List (String × String))
    (h : ∀ w ∈ written, w.1 ≠ k) : (written ++ m).lookup k = m.lookup k := by
  induction written with
  | nil => rfl
  | cons a rest ih =>
    have hne : (k == a.1) = false := by
      simpa using fun hk : k = a.1 => h a (List.mem_cons_self _ _) hk.symm
    rw [List.cons_append]
    simp only [List.lookup, hne]
    exact ih (fun w hw => h w (List.mem_cons_of_mem _ hw))

/-- The whole of `LoadAndValidate` stays within a frame that allows every
change outside `RegionProjectIDMap` and single insertions into it. -/
theorem LoadAndValidate_logs (env : Env) {F : Config → Config → Prop} (hF : Frame F)
    (hOther : ∀ a b : Config, b.RegionProjectIDMap = a.RegionProjectIDMap → F a b)
    (hIns : ∀ c k v, F c { c with RegionProjectIDMap := mapInsert c.RegionProjectIDMap k v }) :
    Steps (fun _ => True) F (LoadAndValidate env) := by
  have hCred : ∀ (c : Config) a b d e, F c { c with AccessKey := a, SecretKey := b, SecurityToken := d, SecurityKeyExpiresAt := e } :=
    fun c _ _ _ _ => hOther c _ rfl
  have hHw : ∀ (c : Config) (x : ProviderClient), F c { c with HwClient := some x } :=
    fun c _ => hOther c _ rfl
  have hDc : ∀ (c : Config) (x : ProviderClient), F c { c with DomainClient := some x } :=
    fun c _ => hOther c _ rfl
  have hTok := buildClientByToken_logs (A := fun _ => True) env hF (fun _ _ => trivial) hHw hDc
  have hAk := buildClientByAKSK_logs (A := fun _ => True) env hF (fun _ _ => trivial) hHw hDc
  have hPw := buildClientByPassword_logs (A := fun _ => True) env hF (fun _ _ => trivial) hHw hDc
  have hCfg := buildClientByConfig_logs (A := fun _ => True) env hF (fun _ _ => trivial) hOther
  have hMeta := getAuthConfigByMeta_logs (A := fun _ => True) env hF (fun _ _ => trivial) hCred
  have hAft := afterCredentials_logs (A := fun _ => True) env hF (fun _ _ => trivial) hOther hIns
  unfold LoadAndValidate
  repeat (first
    | exact Steps.pure hF _ | exact Steps.getC hF | exact Steps.tick hF | exact Steps.panicWith hF _
    | exact Steps.logEvent hF trivial
    | exact hTok | exact hAk | exact hPw | exact hCfg | exact hMeta | exact hAft
    | apply Steps.bind hF | intro _ | split | dsimp only)

/-- For a supported service, `NewServiceClient` is the expiry check followed
by the choice between the two constructors. -/
theorem NewServiceClient_run (env : Env) (srv region : String) (catalog : ServiceCatalog) (s : St)
    (hsrv : env.allServiceCatalog.lookup srv = some catalog) :
    NewServiceClient env srv region s =
      match refreshIfExpiring env s with
      | (Outcome.ret _, s1) => buildServiceClient env srv region catalog s1
      | (Outcome.panic p, s1) => (Outcome.panic p, s1) := by
  rw [NewServiceClient_split env srv region catalog hsrv]
  simp only [bind_run]
  cases refreshIfExpiring env s with
  | mk o s1 => cases o <;> rfl

theorem buildServiceClient_run (env : Env) (srv region : String) (catalog : ServiceCatalog) (s : St) :
    buildServiceClient env srv region catalog s =
      match s.c.Endpoints.lookup srv with
      | some endpoint =>
        newServiceClientByEndpoint env (if catalog.Admin then s.c.DomainClient else s.c.HwClient)
          srv endpoint s
      | none =>
        newServiceClientByName env (if catalog.Admin then s.c.DomainClient else s.c.HwClient)
          catalog region s := by
  unfold buildServiceClient
  simp only [bind_run, getC_run]
  cases s.c.Endpoints.lookup srv <;> rfl

/-- When a segment follows the endpoint, the resource base ends with the
separator. -/
theorem resourceBaseSpec_ends_with_separator (E V P : String) (w : Bool) (R : String)
    (h : V ≠ "" ∨ w = false ∨ R ≠ "") : ∃ pre, resourceBaseSpec E V P w R = pre ++ "/" := by
  unfold resourceBaseSpec
  by_cases hR : R = ""
  · cases w with
    | false =>
      refine ⟨E ++ (if V ≠ "" then V ++ "/" else "") ++ P, ?_⟩
      simp [hR, String.append_assoc]
    | true =>
      have hV : V ≠ "" := by
        rcases h with h | h | h
        · exact h
        · cases h
        · exact absurd hR h
      refine ⟨E ++ V, ?_⟩
      simp [hR, hV, String.append_assoc]
  · refine ⟨E ++ (if V ≠ "" then V ++ "/" else "") ++ (if w then "" else P ++ "/") ++ R, ?_⟩
    simp [hR, String.append_assoc]

/-- The endpoint that `assembleByName` builds begins with `https://` and ends
with the separator. -/
theorem assembleByName_endpoint (c : Config) (pc : ProviderClient) (catalog : ServiceCatalog)
    (region projectID : String) :
    ∃ host, (assembleByName c pc catalog region projectID).Endpoint = "https://" ++ host ++ "/" := by
  have hend : (assembleByName c pc catalog region projectID).Endpoint =
      if catalog.Scope = "global" ∧ ¬ c.RegionClient then
        "https://" ++ catalog.Name ++ "." ++ c.Cloud ++ "/"
      else
        "https://" ++ catalog.Name ++ "." ++ region ++ "." ++ c.Cloud ++ "/" := rfl
  rw [hend]
  by_cases h : catalog.Scope = "global" ∧ ¬ c.RegionClient
  · rw [if_pos h]
    exact ⟨catalog.Name ++ "." ++ c.Cloud, by simp only [String.append_assoc]⟩
  · rw [if_neg h]
    exact ⟨catalog.Name ++ "." ++ region ++ "." ++ c.Cloud, by simp only [String.append_assoc]⟩
/-- A resource base begins with its endpoint. -/
theorem resourceBaseSpec_begins_with_endpoint (E V P : String) (w : Bool) (R : String) :
    ∃ rest, resourceBaseSpec E V P w R = E ++ rest :=
  ⟨(if V ≠ "" then V ++ "/" else "") ++ (if w then "" else P ++ "/") ++
    (if R ≠ "" then R ++ "/" else ""), by simp only [resourceBaseSpec, String.append_assoc]⟩

/-- A resource base whose endpoint ends with the separator ends with it too. -/
theorem resourceBaseSpec_of_endpoint_with_separator (pre V P : String) (w : Bool) (R : String) :
    ∃ pre2, resourceBaseSpec (pre ++ "/") V P w R = pre2 ++ "/" := by
  by_cases h : V ≠ "" ∨ w = false ∨ R ≠ ""
  · exact resourceBaseSpec_ends_with_separator _ V P w R h
  · have hV : V = "" := by
      by_contra hc
      exact h (Or.inl hc)
    have hw : w = true := by
      cases w with
      | false => exact absurd (Or.inr (Or.inl rfl)) h
      | true => rfl
    have hR : R = "" := by
      by_contra hc
      exact h (Or.inr (Or.inr hc))
    exact ⟨pre, by simp [resourceBaseSpec, hV, hw, hR]⟩

theorem profileFieldsKept_frame : Frame profileFieldsKept := by
  constructor
  · intro a
    exact ⟨rfl, rfl, rfl, rfl, rfl⟩
  · intro a b c hab hbc
    exact ⟨hbc.1.trans hab.1, hbc.2.1.trans hab.2.1, hbc.2.2.1.trans hab.2.2.1,
      hbc.2.2.2.1.trans hab.2.2.2.1, hbc.2.2.2.2.trans hab.2.2.2.2⟩

/-- The loop of `buildClientByConfig` takes the first profile of the name. -/
theorem findProfile_eq_find (current : String) (profiles : List Profile) :
    findProfile current profiles =
      (profiles.find? (fun v => decide (current = v.Name))).getD {} := by
  induction profiles with
  | nil => rfl
  | cons v rest ih =>
    by_cases h : current = v.Name
    · simp [findProfile, List.find?, h]
    · simp [findProfile, List.find?, h, ih]

theorem findProfile_of_no_match (current : String) (profiles : List Profile)
    (h : ∀ v ∈ profiles, v.Name ≠ current) : findProfile current profiles = {} := by
  induction profiles with
  | nil => rfl
  | cons v rest ih =>
    have hv : ¬ current = v.Name := fun hc => h v (List.mem_cons_self _ _) hc.symm
    simp only [findProfile, if_neg hv]
    exact ih (fun w hw => h w (List.mem_cons_of_mem _ hw))

/-- What `buildClientByConfig` does once the shared config file is read. -/
theorem buildClientByConfig_run (env : Env) (s : St) (path : String) (sharedConfig : SharedConfig)
    (hpath : env.homedirExpand s.c.SharedConfigFile = Except.ok path)
    (hfile : env.sharedFile (s.trace.length + 1) path = SharedFile.parsed sharedConfig) :
    buildClientByConfig env s =
      if findProfile (profileName s.c sharedConfig) sharedConfig.Profiles = {} then
        (Outcome.ret (some ("Error finding profile " ++ profileName s.c sharedConfig ++
          " from shared config file")),
          { s with trace := s.trace ++ [Event.call Fn.buildClientByConfig] })
      else if (findProfile (profileName s.c sharedConfig) sharedConfig.Profiles).Mode = "AKSK" then
        buildClientByAKSK env
          { c :=
              (let providerConfig := findProfile (profileName s.c sharedConfig) sharedConfig.Profiles
               let c := { s.c with AccessKey := providerConfig.AccessKeyId,
                                   SecretKey := providerConfig.SecretAccessKey }
               let c := if providerConfig.Region ≠ "" then { c with Region := providerConfig.Region } else c
               let c := if providerConfig.DomainId ≠ "" then { c with DomainID := providerConfig.DomainId } else c
               if providerConfig.ProjectId ≠ "" then { c with TenantID := providerConfig.ProjectId } else c),
            trace := s.trace ++ [Event.call Fn.buildClientByConfig] }
      else
        (Outcome.ret (some ("Unsupported mode " ++
          (findProfile (profileName s.c sharedConfig) sharedConfig.Profiles).Mode ++
          " in shared config file")),
          { s with trace := s.trace ++ [Event.call Fn.buildClientByConfig] }) := by
  unfold buildClientByConfig profileName
  simp only [bind_run, logEvent_run, getC_run, tick_run, List.length_append, List.length_singleton,
    hpath, hfile]
  by_cases h1 : findProfile (if s.c.Profile = "" then sharedConfig.Current else s.c.Profile)
      sharedConfig.Profiles = {}
  · rw [if_pos h1, if_pos h1]
    rfl
  · rw [if_neg h1, if_neg h1]
    by_cases h2 : (findProfile (if s.c.Profile = "" then sharedConfig.Current else s.c.Profile)
        sharedConfig.Profiles).Mode = "AKSK"
    · rw [if_pos h2, if_pos h2]
      rfl
    · rw [if_neg h2, if_neg h2]
      rfl

theorem identityKept_frame : Frame identityKept := by
  constructor
  · intro a
    exact ⟨id, id, rfl, rfl, rfl, rfl, rfl⟩
  · intro a b c hab hbc
    exact ⟨fun h => hbc.1 (hab.1 h), fun h => hbc.2.1 (hab.2.1 h), hbc.2.2.1.trans hab.2.2.1,
      hbc.2.2.2.1.trans hab.2.2.2.1, hbc.2.2.2.2.1.trans hab.2.2.2.2.1,
      hbc.2.2.2.2.2.1.trans hab.2.2.2.2.2.1, hbc.2.2.2.2.2.2.trans hab.2.2.2.2.2.2⟩

/-- The whole of `NewServiceClient` keeps what `identityKept` names. -/
theorem NewServiceClient_identityKept (env : Env) (srv region : String) (s : St) :
    identityKept s.c (NewServiceClient env srv region s).2.c :=
  ((NewServiceClient_logs (A := fun _ => True) env srv region identityKept_frame
    (fun _ _ => trivial)
    (fun _ _ _ _ _ => ⟨id, id, rfl, rfl, rfl, rfl, rfl⟩)
    (fun _ _ => ⟨fun _ => Option.some_ne_none _, id, rfl, rfl, rfl, rfl, rfl⟩)
    (fun _ _ => ⟨id, fun _ => Option.some_ne_none _, rfl, rfl, rfl, rfl, rfl⟩)
    (fun _ _ _ => ⟨id, id, rfl, rfl, rfl, rfl, rfl⟩)).run s).2

/-- With a client, `newServiceClientByName` does not panic. -/
theorem newServiceClientByName_returns (env : Env) (pc : ProviderClient) (catalog : ServiceCatalog)
    (region : String) (s : St) (p : String) :
    (newServiceClientByName env (some pc) catalog region s).1 ≠ Outcome.panic p := by
  cases hlk : s.c.RegionProjectIDMap.lookup region with
  | some projectID =>
    rw [newServiceClientByName_hit env (some pc) catalog region projectID s hlk]
    split
    · intro h; cases h
    · split
      · intro h; cases h
      · intro h; cases h
  | none =>
    by_cases hname : catalog.Name = ""
    · unfold newServiceClientByName
      simp only [bind_run, getC_run, if_pos hname, pure_run]
      intro h; cases h
    · by_cases hg : region ≠ s.c.Region ∧ (s.c.AccessKey = "" ∨ s.c.SecretKey = "")
      · unfold newServiceClientByName
        simp only [bind_run, getC_run, if_neg hname, if_pos hg, pure_run]
        intro h; cases h
      · have hguard : region = s.c.Region ∨ (s.c.AccessKey ≠ "" ∧ s.c.SecretKey ≠ "") := by
          by_cases hr : region = s.c.Region
          · exact Or.inl hr
          · right
            constructor
            · intro ha; exact hg ⟨hr, Or.inl ha⟩
            · intro hs; exact hg ⟨hr, Or.inr hs⟩
        rw [newServiceClientByName_miss env (some pc) catalog region s hname hguard hlk,
          loadUserProjects_run env pc region s]
        cases env.projectsList (s.trace.length + 1)
            { Endpoint := s.c.IdentityEndpoint ++ "/", ProviderClient := some pc } pc.DomainID region with
        | pagesError msg => intro h; cases h
        | extractError msg => intro h; cases h
        | items all =>
          by_cases hlen : all.length = 0
          · simp only [if_pos hlen]
            intro h; cases h
          · simp only [if_neg hlen]
            intro h; cases h

/-- With both identity clients set and an expiry check that does not panic,
`NewServiceClient` does not panic. -/
theorem NewServiceClient_returns (env : Env) (srv region : String) (s : St)
    (hrefresh : ∀ p, (refreshIfExpiring env s).1 ≠ Outcome.panic p)
    (hhw : s.c.HwClient ≠ none) (hdc : s.c.DomainClient ≠ none) (p : String) :
    (NewServiceClient env srv region s).1 ≠ Outcome.panic p := by
  cases hsrv : env.allServiceCatalog.lookup srv with
  | none =>
    unfold NewServiceClient
    simp only [hsrv]
    intro h; cases h
  | some catalog =>
    rw [NewServiceClient_run env srv region catalog s hsrv]
    have hfr := ((refreshIfExpiring_overridesKept env).run s).2
    cases h : refreshIfExpiring env s with
    | mk o s1 =>
      rw [h] at hfr
      cases o with
      | panic q => exact absurd (by rw [h]) (hrefresh q)
      | ret a =>
        dsimp only
        rw [buildServiceClient_run]
        cases hclient : (if catalog.Admin then s1.c.DomainClient else s1.c.HwClient) with
        | none =>
          exfalso
          by_cases hadmin : catalog.Admin = true
          · rw [if_pos hadmin] at hclient
            exact hfr.2.2.2 hdc hclient
          · rw [if_neg hadmin] at hclient
            exact hfr.2.2.1 hhw hclient
        | some pc =>
          cases s1.c.Endpoints.lookup srv with
          | some endpoint =>
            dsimp only
            rw [newServiceClientByEndpoint_run env _ srv endpoint catalog s1 hsrv]
            intro h; cases h
          | none =>
            dsimp only
            exact newServiceClientByName_returns env pc catalog region s1 p

/-- What `getDomainID` does: the identity client, then the listing. -/
theorem getDomainID_run (env : Env) (s : St) :
    getDomainID env s =
      match IdentityV3Client env s.c.Region { s with trace := s.trace ++ [Event.call Fn.getDomainID] } with
      | (Outcome.ret (Except.error err), s1) =>
        (Outcome.ret (Except.error ("Error creating IAM client: " ++ err)), s1)
      | (Outcome.ret (Except.ok identityClient), s1) =>
        (Outcome.ret (domainFromListing s1.c (env.domainsList s1.trace.length
          { identityClient with ResourceBase := identityClient.ResourceBase ++ "auth/" })), s1)
      | (Outcome.panic p, s1) => (Outcome.panic p, s1) := by
  unfold getDomainID
  simp only [bind_run, logEvent_run, getC_run]
  cases IdentityV3Client env s.c.Region { s with trace := s.trace ++ [Event.call Fn.getDomainID] } with
  | mk o s1 =>
    cases o with
    | panic p => rfl
    | ret r =>
      cases r with
      | error err => rfl
      | ok identityClient =>
        simp only [bind_run, tick_run, getC_run]
        cases hl : env.domainsList s1.trace.length
            { identityClient with ResourceBase := identityClient.ResourceBase ++ "auth/" } with
        | pagesError msg => rfl
        | extractError msg => rfl
        | items all =>
          cases all with
          | nil => rfl
          | cons first rest =>
            simp only [domainFromListing, bind_run, getC_run]
            split <;> rfl

/-- What `getUserIDbyName` does: the identity client, then the listing. -/
theorem getUserIDbyName_run (env : Env) (name : String) (s : St) :
    getUserIDbyName env name s =
      match IdentityV3Client env s.c.Region
          { s with trace := s.trace ++ [Event.call Fn.getUserIDbyName] } with
      | (Outcome.ret (Except.error err), s1) =>
        (Outcome.ret (Except.error ("Error creating IAM client: " ++ err)), s1)
      | (Outcome.ret (Except.ok identityClient), s1) =>
        (Outcome.ret (userFromListing name (env.usersList s1.trace.length identityClient name)), s1)
      | (Outcome.panic p, s1) => (Outcome.panic p, s1) := by
  unfold getUserIDbyName
  simp only [bind_run, logEvent_run, getC_run]
  cases IdentityV3Client env s.c.Region
      { s with trace := s.trace ++ [Event.call Fn.getUserIDbyName] } with
  | mk o s1 =>
    cases o with
    | panic p => rfl
    | ret r =>
      cases r with
      | error err => rfl
      | ok identityClient =>
        simp only [bind_run, tick_run]
        cases hl : env.usersList s1.trace.length identityClient name with
        | pagesError msg => rfl
        | extractError msg => rfl
        | items all =>
          cases all with
          | nil => rfl
          | cons first rest =>
            simp only [userFromListing]
            split <;> rfl

/-- What `afterCredentials` does for a region and no domain ID: the project
of the region is recorded, `getDomainID` is asked, its answer is adopted when
it is one, and the user ID is inferred. -/
theorem afterCredentials_run (env : Env) (s : St) (hregion : s.c.Region ≠ "")
    (hdomain : s.c.DomainID = "") :
    afterCredentials env s =
      match getDomainID env { c := withRegionProject s.c, trace := s.trace } with
      | (Outcome.ret (Except.ok domainID), s1) =>
        match s1.c.DomainClient with
        | none =>
          (Outcome.panic "invalid memory address or nil pointer dereference",
            { s1 with c := { s1.c with DomainID := domainID } })
        | some dc => inferUserID env { s1 with c := adoptDomainID domainID dc s1.c }
      | (Outcome.ret (Except.error _), s1) => inferUserID env s1
      | (Outcome.panic p, s1) => (Outcome.panic p, s1) := by
  have hcases : ∀ (c0 : Config) (t : St), c0.DomainID = "" →
      (do
        if c0.DomainID = "" then
          match ← getDomainID env with
          | Except.ok domainID =>
            modifyC (fun c => { c with DomainID := domainID })
            let c ← getC
            match c.DomainClient with
            | none => panicWith "invalid memory address or nil pointer dereference"
            | some dc =>
              if dc.AKSKAuthOptions.AccessKey ≠ "" then
                modifyC (fun c =>
                  let akskAuthOptions := { dc.AKSKAuthOptions with DomainID := c.DomainID }
                  { c with DomainClient := some { dc with AKSKAuthOptions := akskAuthOptions } })
          | Except.error _ => pure ()
        let c ← getC
        if c.UserID = "" ∧ c.Username ≠ "" then
          match ← getUserIDbyName env c.Username with
          | Except.ok userID => modifyC (fun c => { c with UserID := userID })
          | Except.error _ => pure ()
        pure none : Prog (Option String)) t =
      match getDomainID env t with
      | (Outcome.ret (Except.ok domainID), s1) =>
        match s1.c.DomainClient with
        | none =>
          (Outcome.panic "invalid memory address or nil pointer dereference",
            { s1 with c := { s1.c with DomainID := domainID } })
        | some dc => inferUserID env { s1 with c := adoptDomainID domainID dc s1.c }
      | (Outcome.ret (Except.error _), s1) => inferUserID env s1
      | (Outcome.panic p, s1) => (Outcome.panic p, s1) := by
    intro c0 t htd
    simp only [bind_run, htd, if_true]
    cases getDomainID env t with
    | mk o s1 =>
      cases o with
      | panic p => rfl
      | ret r =>
        cases r with
        | error err => rfl
        | ok domainID =>
          simp only [bind_run, modifyC_run, getC_run]
          rcases Option.eq_none_or_eq_some s1.c.DomainClient with hdc | ⟨dc, hdc⟩
          · simp only [hdc]
            rfl
          · unfold adoptDomainID
            by_cases hak : dc.AKSKAuthOptions.AccessKey ≠ ""
            · simp only [if_pos hak, bind_run, modifyC_run, hdc]
              rfl
            · simp only [if_neg hak, bind_run, pure_run, hdc]
              rfl
  have hstep : afterCredentials env s =
      (do
        if s.c.DomainID = "" then
          match ← getDomainID env with
          | Except.ok domainID =>
            modifyC (fun c => { c with DomainID := domainID })
            let c ← getC
            match c.DomainClient with
            | none => panicWith "invalid memory address or nil pointer dereference"
            | some dc =>
              if dc.AKSKAuthOptions.AccessKey ≠ "" then
                modifyC (fun c =>
                  let akskAuthOptions := { dc.AKSKAuthOptions with DomainID := c.DomainID }
                  { c with DomainClient := some { dc with AKSKAuthOptions := akskAuthOptions } })
          | Except.error _ => pure ()
        let c ← getC
        if c.UserID = "" ∧ c.Username ≠ "" then
          match ← getUserIDbyName env c.Username with
          | Except.ok userID => modifyC (fun c => { c with UserID := userID })
          | Except.error _ => pure ()
        pure none : Prog (Option String)) { c := withRegionProject s.c, trace := s.trace } := by
    unfold afterCredentials withRegionProject
    rcases Option.eq_none_or_eq_some s.c.HwClient with h | ⟨hw, h⟩
    · simp only [bind_run, getC_run, if_neg hregion, h, pure_run]
    · by_cases hp : hw.ProjectID ≠ ""
      · simp only [bind_run, getC_run, if_neg hregion, h, if_pos hp, modifyC_run]
      · simp only [bind_run, getC_run, if_neg hregion, h, if_neg hp, pure_run]
  rw [hstep]
  exact hcases s.c _ hdomain

/-- What `genClients` does, in terms of the two authentications. -/
theorem genClients_run (env : Env) (pao dao : AuthOptionsProvider) (s : St) :
    genClients env pao dao s =
      match env.authenticate (s.trace.length + 1) s.c pao with
      | Except.error err =>
        (Outcome.ret (some err), { s with trace := s.trace ++ [Event.call Fn.genClient] })
      | Except.ok client =>
        match env.authenticate (s.trace.length + 2) { s.c with HwClient := some client } dao with
        | Except.error err =>
          (Outcome.ret (some err),
            { c := { s.c with HwClient := some client },
              trace := s.trace ++ [Event.call Fn.genClient] ++ [Event.call Fn.genClient] })
        | Except.ok domainClient =>
          (Outcome.ret none,
            { c := { s.c with HwClient := some client, DomainClient := some domainClient },
              trace := s.trace ++ [Event.call Fn.genClient] ++ [Event.call Fn.genClient] }) := by
  unfold genClients genClient
  simp only [bind_run, logEvent_run, tick_run, getC_run, pure_run, List.length_append,
    List.length_singleton]
  cases env.authenticate (s.trace.length + 1) s.c pao with
  | error err => rfl
  | ok client =>
    simp only [bind_run, modifyC_run, logEvent_run, tick_run, getC_run, pure_run, List.length_append,
      List.length_singleton]
    cases env.authenticate (s.trace.length + 1 + 1) { s.c with HwClient := some client } dao with
    | error err => rfl
    | ok domainClient => rfl

theorem SetsClients.pure_some (err : String) : SetsClients (pure (some err)) :=
  ⟨fun _ h => by cases h⟩

theorem SetsClients.of_bind {α : Type} (m : Prog α) (f : α → Prog (Option String))
    (hf : ∀ a, SetsClients (f a)) : SetsClients (m >>= f) := by
  constructor
  intro s
  simp only [bind_run]
  cases m s with
  | mk o s1 =>
    cases o with
    | panic p => intro h; cases h
    | ret a => exact (hf a).run s1

theorem genClients_setsClients (env : Env) (pao dao : AuthOptionsProvider) :
    SetsClients (genClients env pao dao) := by
  constructor
  intro s
  rw [genClients_run]
  cases env.authenticate (s.trace.length + 1) s.c pao with
  | error err => intro h; cases h
  | ok client =>
    dsimp only
    cases env.authenticate (s.trace.length + 2) { s.c with HwClient := some client } dao with
    | error err => intro h; cases h
    | ok domainClient =>
      intro _
      exact ⟨Option.some_ne_none _, Option.some_ne_none _⟩

theorem buildClientByToken_setsClients (env : Env) : SetsClients (buildClientByToken env) := by
  unfold buildClientByToken
  repeat (first
    | exact SetsClients.pure_some _ | exact genClients_setsClients env _ _
    | apply SetsClients.of_bind | intro _ | split | dsimp only)

theorem buildClientByAKSK_setsClients (env : Env) : SetsClients (buildClientByAKSK env) := by
  unfold buildClientByAKSK
  repeat (first
    | exact SetsClients.pure_some _ | exact genClients_setsClients env _ _
    | apply SetsClients.of_bind | intro _ | split | dsimp only)

theorem buildClientByPassword_setsClients (env : Env) : SetsClients (buildClientByPassword env) := by
  unfold buildClientByPassword
  repeat (first
    | exact SetsClients.pure_some _ | exact genClients_setsClients env _ _
    | apply SetsClients.of_bind | intro _ | split | dsimp only)

theorem buildClientByConfig_setsClients (env : Env) : SetsClients (buildClientByConfig env) := by
  unfold buildClientByConfig
  repeat (first
    | exact SetsClients.pure_some _ | exact buildClientByAKSK_setsClients env
    | apply SetsClients.of_bind | intro _ | split | dsimp only)

theorem resolveCredentials_setsClients (env : Env) : SetsClients (resolveCredentials env) := by
  unfold resolveCredentials
  repeat (first
    | exact SetsClients.pure_some _ | exact buildClientByToken_setsClients env
    | exact buildClientByAKSK_setsClients env | exact buildClientByPassword_setsClients env
    | exact buildClientByConfig_setsClients env
    | apply SetsClients.of_bind | intro _ | split | dsimp only)

/-- With a `MaxRetries` that is not negative, `LoadAndValidate` is the
credential decision followed, when that returns nil, by `afterCredentials`. -/
theorem LoadAndValidate_run (env : Env) (s : St) (hretries : 0 ≤ s.c.MaxRetries) :
    LoadAndValidate env s =
      match resolveCredentials env s with
      | (Outcome.ret none, s1) => afterCredentials env s1
      | (Outcome.ret (some err), s1) => (Outcome.ret (some err), s1)
      | (Outcome.panic p, s1) => (Outcome.panic p, s1) := by
  have h : LoadAndValidate env s =
      (resolveCredentials env >>= fun err =>
        match err with
        | some err => (pure (some err) : Prog (Option String))
        | none => afterCredentials env) s := by
    unfold LoadAndValidate resolveCredentials
    simp only [bind_run, getC_run, if_neg (not_lt.mpr hretries)]
  rw [h]
  simp only [bind_run]
  cases resolveCredentials env s with
  | mk o s1 =>
    cases o with
    | panic p => rfl
    | ret r => cases r <;> rfl

/-- With both identity clients set and an expiry check that never panics,
`getDomainID` returns, and keeps what `identityKept` names. -/
theorem getDomainID_returns (env : Env) (s : St)
    (hrefresh : ∀ t p, (refreshIfExpiring env t).1 ≠ Outcome.panic p)
    (hhw : s.c.HwClient ≠ none) (hdc : s.c.DomainClient ≠ none) :
    ∃ r s1, getDomainID env s = (Outcome.ret r, s1) ∧ identityKept s.c s1.c := by
  rw [getDomainID_run]
  unfold IdentityV3Client
  have hkept := NewServiceClient_identityKept env "identity" s.c.Region
    { s with trace := s.trace ++ [Event.call Fn.getDomainID] }
  have hnp := NewServiceClient_returns env "identity" s.c.Region
    { s with trace := s.trace ++ [Event.call Fn.getDomainID] } (hrefresh _) hhw hdc
  cases h : NewServiceClient env "identity" s.c.Region
      { s with trace := s.trace ++ [Event.call Fn.getDomainID] } with
  | mk o s1 =>
    rw [h] at hkept hnp
    cases o with
    | panic p => exact absurd rfl (hnp p)
    | ret r =>
      cases r with
      | error err => exact ⟨_, s1, rfl, hkept⟩
      | ok identityClient => exact ⟨_, s1, rfl, hkept⟩

theorem getUserIDbyName_returns (env : Env) (name : String) (s : St)
    (hrefresh : ∀ t p, (refreshIfExpiring env t).1 ≠ Outcome.panic p)
    (hhw : s.c.HwClient ≠ none) (hdc : s.c.DomainClient ≠ none) :
    ∃ r s1, getUserIDbyName env name s = (Outcome.ret r, s1) ∧ identityKept s.c s1.c := by
  rw [getUserIDbyName_run]
  unfold IdentityV3Client
  have hkept := NewServiceClient_identityKept env "identity" s.c.Region
    { s with trace := s.trace ++ [Event.call Fn.getUserIDbyName] }
  have hnp := NewServiceClient_returns env "identity" s.c.Region
    { s with trace := s.trace ++ [Event.call Fn.getUserIDbyName] } (hrefresh _) hhw hdc
  cases h : NewServiceClient env "identity" s.c.Region
      { s with trace := s.trace ++ [Event.call Fn.getUserIDbyName] } with
  | mk o s1 =>
    rw [h] at hkept hnp
    cases o with
    | panic p => exact absurd rfl (hnp p)
    | ret r =>
      cases r with
      | error err => exact ⟨_, s1, rfl, hkept⟩
      | ok identityClient => exact ⟨_, s1, rfl, hkept⟩

/-- With both identity clients set and an expiry check that never panics, the
end of `LoadAndValidate` returns nil and leaves `DomainID` as it is. -/
theorem inferUserID_returns (env : Env) (s : St)
    (hrefresh : ∀ t p, (refreshIfExpiring env t).1 ≠ Outcome.panic p)
    (hhw : s.c.HwClient ≠ none) (hdc : s.c.DomainClient ≠ none) :
    ∃ s2, inferUserID env s = (Outcome.ret none, s2) ∧ s2.c.DomainID = s.c.DomainID := by
  unfold inferUserID
  simp only [bind_run, getC_run]
  by_cases hu : s.c.UserID = "" ∧ s.c.Username ≠ ""
  · simp only [if_pos hu, bind_run]
    obtain ⟨r, s1, hrun, hkept⟩ := getUserIDbyName_returns env s.c.Username s hrefresh hhw hdc
    rw [hrun]
    cases r with
    | error err => exact ⟨s1, rfl, hkept.2.2.2.1⟩
    | ok userID => exact ⟨_, rfl, hkept.2.2.2.1⟩
  · simp only [if_neg hu, pure_run]
    exact ⟨s, rfl, rfl⟩

theorem withRegionProject_fields (c : Config) :
    (withRegionProject c).HwClient = c.HwClient ∧
    (withRegionProject c).DomainClient = c.DomainClient ∧
    (withRegionProject c).DomainID = c.DomainID ∧
    (withRegionProject c).Region = c.Region := by
  unfold withRegionProject
  rcases Option.eq_none_or_eq_some c.HwClient with h | ⟨hw, h⟩
  · simp [h]
  · by_cases hp : hw.ProjectID ≠ ""
    · simp [h, hp]
    · simp [h, hp]

theorem adoptDomainID_fields (domainID : String) (dc : ProviderClient) (c : Config) :
    (adoptDomainID domainID dc c).DomainID = domainID ∧
    (adoptDomainID domainID dc c).HwClient = c.HwClient ∧
    (c.DomainClient ≠ none → (adoptDomainID domainID dc c).DomainClient ≠ none) := by
  unfold adoptDomainID
  by_cases hak : dc.AKSKAuthOptions.AccessKey ≠ ""
  · rw [if_pos hak]
    exact ⟨rfl, rfl, fun _ => Option.some_ne_none _⟩
  · rw [if_neg hak]
    exact ⟨rfl, rfl, id⟩

/-- When `getDomainID` makes an error of the listing of the domains. -/
theorem domainFromListing_error (c : Config) (l : Listing) :
    (∃ err, domainFromListing c l = Except.error err) ↔
      ((∃ msg, l = Listing.pagesError msg) ∨ (∃ msg, l = Listing.extractError msg) ∨
        l = Listing.items [] ∨
        ∃ first rest, l = Listing.items (first :: rest) ∧
          c.DomainName ≠ "" ∧ c.DomainName ≠ first.Name) := by
  cases l with
  | pagesError msg =>
    constructor
    · intro _
      exact Or.inl ⟨msg, rfl⟩
    · intro _
      exact ⟨_, rfl⟩
  | extractError msg =>
    constructor
    · intro _
      exact Or.inr (Or.inl ⟨msg, rfl⟩)
    · intro _
      exact ⟨_, rfl⟩
  | items all =>
    cases all with
    | nil =>
      constructor
      · intro _
        exact Or.inr (Or.inr (Or.inl rfl))
      · intro _
        exact ⟨_, rfl⟩
    | cons first rest =>
      by_cases hn : c.DomainName ≠ "" ∧ c.DomainName ≠ first.Name
      · constructor
        · intro _
          exact Or.inr (Or.inr (Or.inr ⟨first, rest, rfl, hn⟩))
        · intro _
          exact ⟨"domain " ++ c.DomainName ++ " was not found, got " ++ first.Name,
            by simp only [domainFromListing, if_pos hn]⟩
      · constructor
        · rintro ⟨err, h⟩
          simp only [domainFromListing, if_neg hn] at h
          cases h
        · rintro (⟨msg, h⟩ | ⟨msg, h⟩ | h | ⟨f, r, h, hne⟩)
          · cases h
          · cases h
          · cases h
          · injection h with h
            injection h with h1 h2
            subst h1
            exact absurd hne hn

/-- What `getDomainID` returns when it makes an ID of the listing. -/
theorem domainFromListing_ok (c : Config) (l : Listing) (domainID : String)
    (h : domainFromListing c l = Except.ok domainID) :
    ∃ first rest, l = Listing.items (first :: rest) ∧ domainID = first.ID := by
  cases l with
  | pagesError msg => cases h
  | extractError msg => cases h
  | items all =>
    cases all with
    | nil => cases h
    | cons first rest =>
      refine ⟨first, rest, rfl, ?_⟩
      by_cases hn : c.DomainName ≠ "" ∧ c.DomainName ≠ first.Name
      · simp only [domainFromListing, if_pos hn] at h
        cases h
      · simp only [domainFromListing, if_neg hn] at h
        injection h with h
        exact h.symm

/-- When the metadata endpoint never delivers a decoded document, the expiry
check does not panic. -/
theorem refreshIfExpiring_returns_of_no_document (env : Env)
    (hmeta : ∀ n v, env.metadata n ≠ MetaReply.response 200 (MetaBody.parsed v))
    (t : St) (p : String) : (refreshIfExpiring env t).1 ≠ Outcome.panic p := by
  rw [refreshIfExpiring_run]
  split
  · obtain ⟨err, hfail⟩ := getAuthConfigByMeta_failed env
      { t with trace := t.trace ++ [Event.call Fn.reloadSecurityKey] } (fun v => hmeta _ v)
    have hrel : reloadSecurityKey env t =
        (Outcome.ret (some ("Error reloading Auth credentials from ECS Metadata API: " ++ err)),
          { t with trace := t.trace ++ [Event.call Fn.reloadSecurityKey] ++
            [Event.call Fn.getAuthConfigByMeta] }) := by
      unfold reloadSecurityKey
      simp only [bind_run, logEvent_run, hfail, pure_run]
    rw [hrel]
    intro h
    cases h
  · intro h
    cases h

/-- A string without the separator is one piece. -/
theorem splitChars_of_not_mem (sep : Char) (l : List Char) (h : sep ∉ l) :
    splitChars sep l = [l] := by
  induction l with
  | nil => rfl
  | cons c rest ih =>
    have hc : ¬ c = sep := fun hc => h (hc ▸ List.mem_cons_self _ _)
    have hrest : sep ∉ rest := fun hm => h (List.mem_cons_of_mem _ hm)
    simp only [splitChars, if_neg hc, ih hrest]

/-- The first piece ends at the first separator. -/
theorem splitChars_append_sep (sep : Char) (a rest : List Char) (h : sep ∉ a) :
    splitChars sep (a ++ sep :: rest) = a :: splitChars sep rest := by
  induction a with
  | nil => simp only [List.nil_append, splitChars, if_true]
  | cons c a ih =>
    have hc : ¬ c = sep := fun hc => h (hc ▸ List.mem_cons_self _ _)
    have ha : sep ∉ a := fun hm => h (List.mem_cons_of_mem _ hm)
    have hrec := ih ha
    simp only [List.cons_append, splitChars, if_neg hc]
    rw [show a.append (sep :: rest) = a ++ sep :: rest from rfl, hrec]

/-- There is one piece more than there are separators. -/
theorem splitChars_length (sep : Char) (l : List Char) :
    (splitChars sep l).length = l.count sep + 1 := by
  induction l with
  | nil => rfl
  | cons c rest ih =>
    by_cases hc : c = sep
    · subst hc
      simp only [splitChars, if_true, List.length_cons, ih, List.count_cons_self]
    · have hne : (c == sep) = false := by simpa using hc
      simp only [splitChars, if_neg hc, List.count_cons, hne]
      cases hs : splitChars sep rest with
      | nil =>
        rw [hs] at ih
        simp at ih
      | cons first more =>
        rw [hs] at ih
        simpa using ih

theorem pluginID_data (instanceId databaseName name : String) :
    (pluginID instanceId databaseName name).data =
      instanceId.data ++ '/' :: (databaseName.data ++ '/' :: name.data) := by
  simp [pluginID, String.data_append]

/-- What `resourceRdsPgPluginRead` does once the client is built. -/
theorem resourceRdsPgPluginRead_run (env : Env) (rds : RdsEnv) (d : ResourceData) (s s1 : St)
    (region : String) (client : ServiceClient)
    (hregion : GetRegion s.c d = Outcome.ret region)
    (hclient : NewServiceClient env "rds" region s = (Outcome.ret (Except.ok client), s1)) :
    resourceRdsPgPluginRead env rds d s =
      match stringsSplit d.id '/' with
      | [a, b, c] =>
        match queryPluginDetail rds client a b c s1 with
        | (Outcome.ret (Except.error err), s2) => (Outcome.ret (ReadResult.queryFailed err), s2)
        | (Outcome.ret (Except.ok pluginDetail), s2) => (Outcome.ret (ReadResult.found pluginDetail), s2)
        | (Outcome.panic p, s2) => (Outcome.panic p, s2)
      | _ => (Outcome.ret (ReadResult.invalidID ("invalid ID format in ReadContext: " ++ d.id)), s1) := by
  unfold resourceRdsPgPluginRead
  simp only [bind_run, getC_run, hregion, hclient]
  generalize stringsSplit d.id '/' = parts
  rcases parts with _ | ⟨a, _ | ⟨b, _ | ⟨c, _ | ⟨e, rest⟩⟩⟩⟩
  · rfl
  · rfl
  · rfl
  · simp only [bind_run]
    cases queryPluginDetail rds client a b c s1 with
    | mk o s2 =>
      cases o with
      | panic p => rfl
      | ret r => cases r <;> rfl
  · rfl

/-- What `resourceRdsPgPluginRead` does with an ID that does not split into
three parts. -/
theorem resourceRdsPgPluginRead_invalid (env : Env) (rds : RdsEnv) (d : ResourceData) (s : St)
    (hlen : (stringsSplit d.id '/').length ≠ 3) :
    resourceRdsPgPluginRead env rds d s =
      match GetRegion s.c d with
      | Outcome.panic p => (Outcome.panic p, s)
      | Outcome.ret region =>
        match NewServiceClient env "rds" region s with
        | (Outcome.ret (Except.ok _), s1) =>
          (Outcome.ret (ReadResult.invalidID ("invalid ID format in ReadContext: " ++ d.id)), s1)
        | (Outcome.ret (Except.error err), s1) =>
          (Outcome.ret (ReadResult.clientError ("error creating RDS PG plugin client: " ++ err)), s1)
        | (Outcome.panic p, s1) => (Outcome.panic p, s1) := by
  cases hregion : GetRegion s.c d with
  | panic p =>
    unfold resourceRdsPgPluginRead
    simp only [bind_run, getC_run, hregion]
    rfl
  | ret region =>
    dsimp only
    cases hclient : NewServiceClient env "rds" region s with
    | mk o s1 =>
      cases o with
      | panic p =>
        unfold resourceRdsPgPluginRead
        simp only [bind_run, getC_run, hregion, hclient]
      | ret r =>
        cases r with
        | error err =>
          unfold resourceRdsPgPluginRead
          simp only [bind_run, getC_run, hregion, hclient]
          rfl
        | ok client =>
          rw [resourceRdsPgPluginRead_run env rds d s s1 region client hregion hclient]
          generalize stringsSplit d.id '/' = parts at hlen
          rcases parts with _ | ⟨a, _ | ⟨b, _ | ⟨c, _ | ⟨e, rest⟩⟩⟩⟩
          · rfl
          · rfl
          · rfl
          · exact absurd rfl hlen
          · rfl

theorem stringsSplit_pluginID (instanceId databaseName name : String)
    (h1 : '/' ∉ instanceId.data) (h2 : '/' ∉ databaseName.data) (h3 : '/' ∉ name.data) :
    stringsSplit (pluginID instanceId databaseName name) '/' = [instanceId, databaseName, name] := by
  unfold stringsSplit
  rw [pluginID_data, splitChars_append_sep _ _ _ h1, splitChars_append_sep _ _ _ h2,
    splitChars_of_not_mem _ _ h3]
  rfl

theorem stringsSplit_length (s : String) (sep : Char) :
    (stringsSplit s sep).length = s.data.count sep + 1 := by
  unfold stringsSplit
  rw [List.length_map, splitChars_length]

theorem stringsSplit_pluginID_length (instanceId databaseName name : String) :
    (stringsSplit (pluginID instanceId databaseName name) '/').length =
      instanceId.data.count '/' + databaseName.data.count '/' + name.data.count '/' + 3 := by
  rw [stringsSplit_length, pluginID_data]
  simp only [List.count_append, List.count_cons_self]
  omega

/-- What `resourceRdsPgPluginCreate` does once the client is built. -/
theorem resourceRdsPgPluginCreate_run (env : Env) (rds : RdsEnv) (d : ResourceData) (s s1 : St)
    (region : String) (client : ServiceClient)
    (hregion : GetRegion s.c d = Outcome.ret region)
    (hclient : NewServiceClient env "rds" region s = (Outcome.ret (Except.ok client), s1)) :
    resourceRdsPgPluginCreate env rds d s =
      match queryPluginDetail rds client (d.getString "instance_id") (d.getString "database_name")
          (d.getString "name") s1 with
      | (Outcome.ret (Except.error (QueryError.other msg)), s2) =>
        (Outcome.ret (CreateResult.queryFailed msg), s2)
      | (Outcome.ret (Except.ok pluginDetail), s2) =>
        (Outcome.ret (CreateResult.alreadyCreated pluginDetail), s2)
      | (Outcome.ret (Except.error QueryError.notFound), s2) =>
        match client.ProviderClient with
        | none => (Outcome.panic "invalid memory address or nil pointer dereference", s2)
        | some pc =>
          match rds.createPlugin s2.trace.length client
              (((client.Endpoint ++ "v3/{project_id}/instances/{instance_id}/extensions").replace
                "{project_id}" pc.ProjectID).replace "{instance_id}" (d.getString "instance_id"))
              (d.getString "database_name") (d.getString "name") with
          | some err =>
            (Outcome.ret (CreateResult.requestFailed ("error creating RDS PG plugin: " ++ err)), s2)
          | none =>
            match resourceRdsPgPluginRead env rds
                { d with id := pluginID (d.getString "instance_id") (d.getString "database_name") (d.getString "name") } s2 with
            | (Outcome.ret read, s3) =>
              (Outcome.ret (CreateResult.created (pluginID (d.getString "instance_id")
                (d.getString "database_name") (d.getString "name")) read), s3)
            | (Outcome.panic p, s3) => (Outcome.panic p, s3)
      | (Outcome.panic p, s2) => (Outcome.panic p, s2) := by
  unfold resourceRdsPgPluginCreate
  simp only [bind_run, getC_run, hregion, hclient]
  cases queryPluginDetail rds client (d.getString "instance_id") (d.getString "database_name")
      (d.getString "name") s1 with
  | mk o s2 =>
    cases o with
    | panic p => rfl
    | ret r =>
      cases r with
      | ok pluginDetail => rfl
      | error err =>
        cases err with
        | other msg => rfl
        | notFound =>
          dsimp only
          cases client.ProviderClient with
          | none => rfl
          | some pc =>
            simp only [bind_run, tick_run]
            cases rds.createPlugin s2.trace.length client
                (((client.Endpoint ++ "v3/{project_id}/instances/{instance_id}/extensions").replace
                  "{project_id}" pc.ProjectID).replace "{instance_id}" (d.getString "instance_id"))
                (d.getString "database_name") (d.getString "name") with
            | some err => rfl
            | none =>
              simp only [bind_run]
              cases resourceRdsPgPluginRead env rds
                  { d with id := pluginID (d.getString "instance_id") (d.getString "database_name") (d.getString "name") } s2 with
              | mk o3 s3 => cases o3 <;> rfl

/-- When `resourceRdsPgPluginCreate` ends with a created plugin, the client
was built, the query returned the not-found error, and the ID is the one
made of the three attributes. -/
theorem resourceRdsPgPluginCreate_created (env : Env) (rds : RdsEnv) (d : ResourceData) (s : St)
    (id : String) (read : ReadResult)
    (h : (resourceRdsPgPluginCreate env rds d s).1 = Outcome.ret (CreateResult.created id read)) :
    id = pluginID (d.getString "instance_id") (d.getString "database_name") (d.getString "name") ∧
    ∃ region client s1 s2, GetRegion s.c d = Outcome.ret region ∧
      NewServiceClient env "rds" region s = (Outcome.ret (Except.ok client), s1) ∧
      queryPluginDetail rds client (d.getString "instance_id") (d.getString "database_name")
        (d.getString "name") s1 = (Outcome.ret (Except.error QueryError.notFound), s2) := by
  cases hregion : GetRegion s.c d with
  | panic p =>
    exfalso
    unfold resourceRdsPgPluginCreate at h
    simp only [bind_run, getC_run, hregion] at h
    cases h
  | ret region =>
    cases hclient : NewServiceClient env "rds" region s with
    | mk o s1 =>
      cases o with
      | panic p =>
        exfalso
        unfold resourceRdsPgPluginCreate at h
        simp only [bind_run, getC_run, hregion, hclient] at h
        cases h
      | ret r =>
        cases r with
        | error err =>
          exfalso
          unfold resourceRdsPgPluginCreate at h
          simp only [bind_run, getC_run, hregion, hclient] at h
          cases h
        | ok client =>
          rw [resourceRdsPgPluginCreate_run env rds d s s1 region client hregion hclient] at h
          cases hq : queryPluginDetail rds client (d.getString "instance_id")
              (d.getString "database_name") (d.getString "name") s1 with
          | mk o2 s2 =>
            rw [hq] at h
            cases o2 with
            | panic p => cases h
            | ret r2 =>
              cases r2 with
              | ok pluginDetail => cases h
              | error err =>
                cases err with
                | other msg => cases h
                | notFound =>
                  refine ⟨?_, region, client, s1, s2, rfl, hclient, hq⟩
                  dsimp only at h
                  cases hpc : client.ProviderClient with
                  | none =>
                    rw [hpc] at h
                    cases h
                  | some pc =>
                    rw [hpc] at h
                    dsimp only at h
                    cases hpost : rds.createPlugin s2.trace.length client
                        (((client.Endpoint ++ "v3/{project_id}/instances/{instance_id}/extensions").replace
                          "{project_id}" pc.ProjectID).replace "{instance_id}" (d.getString "instance_id"))
                        (d.getString "database_name") (d.getString "name") with
                    | some err =>
                      rw [hpost] at h
                      cases h
                    | none =>
                      rw [hpost] at h
                      dsimp only at h
                      cases hread : resourceRdsPgPluginRead env rds
                          { d with id := pluginID (d.getString "instance_id") (d.getString "database_name") (d.getString "name") } s2 with
                      | mk o3 s3 =>
                        rw [hread] at h
                        cases o3 with
                        | panic p => cases h
                        | ret rr =>
                          injection h with h
                          injection h with h1 h2
                          exact h1.symm

theorem foldl_append_singletons (l : List Char) :
    ∀ acc : String, List.foldl (fun r s => r ++ s) acc (l.map String.singleton) = acc ++ String.mk l := by
  induction l with
  | nil =>
    intro acc
    exact (String.append_empty acc).symm
  | cons c rest ih =>
    intro acc
    simp only [List.map_cons, List.foldl_cons, ih]
    apply String.ext
    simp [String.data_append, String.singleton]

/-- The encoder writes a string that needs no escaping between two double
quotes, as it is, and a line feed after it. -/
theorem utilsMarshal_plain (escapeHTML : Bool) (value : String)
    (h : needsNoEscaping escapeHTML value) :
    utilsMarshal escapeHTML value = Except.ok ("\"" ++ value ++ "\"" ++ "\n") := by
  unfold utilsMarshal
  have hmap : value.data.map (jsonEscape escapeHTML) = value.data.map String.singleton :=
    List.map_congr_left h
  have hjoin : String.join (value.data.map String.singleton) = value := by
    unfold String.join
    rw [foldl_append_singletons]
    apply String.ext
    simp [String.data_append]
  rw [hmap, hjoin]

theorem needsNoEscaping_no_quote (escapeHTML : Bool) (value : String)
    (h : needsNoEscaping escapeHTML value) : '"' ∉ value.data := by
  intro hmem
  have := h '"' hmem
  revert this
  cases escapeHTML <;> decide

theorem dropWhile_of_none (p : Char → Bool) (l : List Char) (h : ∀ x ∈ l, p x = false) :
    l.dropWhile p = l := by
  cases l with
  | nil => rfl
  | cons c rest => simp [List.dropWhile, h c (List.mem_cons_self _ _)]

/-- Trimming the double quotes off a quoted string without a double quote
gives the string. -/
theorem stringsTrim_quoted (value : String) (h : '"' ∉ value.data) :
    stringsTrim ("\"" ++ value ++ "\"") '"' = value := by
  have hall : ∀ x ∈ value.data, (decide (x = '"')) = false := by
    intro x hx
    simpa using fun hq : x = '"' => h (hq ▸ hx)
  have hdata : ("\"" ++ value ++ "\"").data = '"' :: (value.data ++ ['"']) := by
    simp [String.data_append]
  unfold stringsTrim
  apply String.ext
  rw [hdata]
  show (((List.dropWhile (fun c => decide (c = '"')) ('"' :: (value.data ++ ['"']))).reverse.dropWhile
    (fun c => decide (c = '"'))).reverse) = value.data
  have h1 : List.dropWhile (fun c => decide (c = '"')) ('"' :: (value.data ++ ['"'])) =
      List.dropWhile (fun c => decide (c = '"')) (value.data ++ ['"']) := by
    simp [List.dropWhile]
  rw [h1]
  cases hv : value.data with
  | nil => simp [List.dropWhile]
  | cons c rest =>
    rw [hv] at hall
    have hc := hall c (List.mem_cons_self _ _)
    have h2 : List.dropWhile (fun c => decide (c = '"')) (c :: rest ++ ['"']) = c :: rest ++ ['"'] := by
      simp only [List.cons_append, List.dropWhile, hc]
      rfl
    rw [h2]
    have h3 : (c :: rest ++ ['"']).reverse = '"' :: (c :: rest).reverse := by simp
    rw [h3]
    have h4 : List.dropWhile (fun c => decide (c = '"')) ('"' :: (c :: rest).reverse) =
        List.dropWhile (fun c => decide (c = '"')) (c :: rest).reverse := by
      simp [List.dropWhile]
    rw [h4, dropWhile_of_none _ _ (fun x hx => hall x (List.mem_reverse.mp hx)), List.reverse_reverse]

/-- The shared body of the three `UnmarshalJSON` gives back a string that was
quoted. -/
theorem unmarshalEnumValue_quoted (value : String) (h : '"' ∉ value.data) :
    unmarshalEnumValue ("\"" ++ value ++ "\"") = Except.ok value := by
  unfold unmarshalEnumValue stringConverterFactory
  simp only [if_true]
  rw [stringsTrim_quoted value h]

theorem withoutLineFeed_append (b : String) : withoutLineFeed (b ++ "\n") = b := by
  unfold withoutLineFeed
  have hdata : (b ++ "\n").data.reverse = '\n' :: b.data.reverse := by
    simp [String.data_append]
  rw [hdata]
  apply String.ext
  simp

theorem filter_filter_head (p q : JSON → Bool) (items : List JSON) :
    (match (items.filter p).filter q with
      | first :: _ => some first
      | [] => none) = items.find? (fun e => p e && q e) := by
  induction items with
  | nil => rfl
  | cons e rest ih =>
    cases hp : p e with
    | false => simpa [List.filter, List.find?, hp] using ih
    | true =>
      cases hq : q e with
      | false => simpa [List.filter, List.find?, hp, hq] using ih
      | true => simp [List.filter, List.find?, hp, hq]

theorem isNamed_not_nil (name : String) (e : JSON) (h : isNamed name e = true) : e.isNil = false := by
  cases e with
  | null => simp [isNamed, jmesField] at h
  | bool b => rfl
  | num text => rfl
  | str s => rfl
  | arr items => rfl
  | obj fields => rfl

/-- The search of `queryPluginDetail` in terms of `firstCreatedPlugin`. -/
theorem pathSearchPlugin_eq (quoted : String → JSON → JSON) (name : String) (resp : JSON)
    (hname : plainName name) :
    (∀ e, firstCreatedPlugin name resp = some e →
      pathSearchPlugin quoted name resp = e ∧ e.isNil = false) ∧
    (firstCreatedPlugin name resp = none → pathSearchPlugin quoted name resp = JSON.null) := by
  unfold firstCreatedPlugin pathSearchPlugin
  rw [if_pos hname]
  cases hx : jmesField resp "extensions" with
  | arr items =>
    have hff := filter_filter_head (isNamed name) (fun e => (jmesField e "created").truthy) items
    dsimp only
    constructor
    · intro e he
      rw [he] at hff
      have hnamed : isNamed name e = true := by
        have := List.find?_some he
        simp only [Bool.and_eq_true] at this
        exact this.1
      cases hl : (items.filter (isNamed name)).filter (fun e => (jmesField e "created").truthy) with
      | nil =>
        rw [hl] at hff
        cases hff
      | cons first more =>
        rw [hl] at hff
        injection hff with hff
        subst hff
        exact ⟨rfl, isNamed_not_nil name _ hnamed⟩
    · intro hnone
      rw [hnone] at hff
      cases hl : (items.filter (isNamed name)).filter (fun e => (jmesField e "created").truthy) with
      | nil => rfl
      | cons first more =>
        rw [hl] at hff
        cases hff
  | null => exact ⟨fun e he => (by cases he), fun _ => rfl⟩
  | bool b => exact ⟨fun e he => (by cases he), fun _ => rfl⟩
  | num text => exact ⟨fun e he => (by cases he), fun _ => rfl⟩
  | str s => exact ⟨fun e he => (by cases he), fun _ => rfl⟩
  | obj fields => exact ⟨fun e he => (by cases he), fun _ => rfl⟩

/-- The state in which `queryPluginDetail` asks for the listing, and ends
unless it panics inside. -/
theorem queryPluginDetail_run (rds : RdsEnv) (client : ServiceClient) (pc : ProviderClient)
    (instanceId databaseName name : String) (s : St) (hname : plainName name)
    (hpc : client.ProviderClient = some pc) :
    queryPluginDetail rds client instanceId databaseName name s =
      match rds.listAllItems (s.trace.length + 1) client
          ((((client.Endpoint ++
            "v3/{project_id}/instances/{instance_id}/extensions?database_name={database_name}").replace
              "{project_id}" pc.ProjectID).replace "{instance_id}" instanceId).replace
                "{database_name}" databaseName) with
      | ListResult.failure resp err =>
        match parseErrCode resp with
        | Outcome.panic p => (Outcome.panic p, queried s)
        | Outcome.ret errCode =>
          if errCode = "DBS.280238" ∨ errCode = "DBS.200823" then
            (Outcome.ret (Except.error QueryError.notFound), queried s)
          else
            (Outcome.ret (Except.error (QueryError.other ("error retrieving PG plugin: " ++ err))),
              queried s)
      | ListResult.success resp =>
        match firstCreatedPlugin name resp with
        | some e => (Outcome.ret (Except.ok e), queried s)
        | none => (Outcome.ret (Except.error QueryError.notFound), queried s) := by
  unfold queryPluginDetail queried
  simp only [hpc, bind_run, tick_run, logEvent_run, List.length_append, List.length_singleton]
  cases rds.listAllItems (s.trace.length + 1) client
      ((((client.Endpoint ++
        "v3/{project_id}/instances/{instance_id}/extensions?database_name={database_name}").replace
          "{project_id}" pc.ProjectID).replace "{instance_id}" instanceId).replace
            "{database_name}" databaseName) with
  | failure resp err =>
    dsimp only
    cases parseErrCode resp with
    | panic p => rfl
    | ret errCode =>
      dsimp only
      by_cases hcode : errCode = "DBS.280238" ∨ errCode = "DBS.200823"
      · rw [if_pos hcode, if_pos hcode]
        rfl
      · rw [if_neg hcode, if_neg hcode]
        rfl
  | success resp =>
    dsimp only
    have hsearch := pathSearchPlugin_eq rds.searchQuoted name resp hname
    cases hf : firstCreatedPlugin name resp with
    | some e =>
      obtain ⟨h1, h2⟩ := hsearch.1 e hf
      rw [h1]
      simp only [h2, Bool.false_eq_true, if_false]
      rfl
    | none =>
      rw [hsearch.2 hf]
      rfl

/-- For a supported service with an endpoint override, `NewServiceClient`
never returns an error, makes no project lookup, leaves `RegionProjectIDMap`
unchanged, returns only a client whose `Endpoint` is the override, and does
the same for every other region; it returns such a client whenever both
identity clients are set and the expiry check does not panic. -/
theorem NewServiceClient_override_facts (env : Env) (srv region : String)
    (catalog : ServiceCatalog) (endpoint : String) (s : St)
    (hsrv : env.allServiceCatalog.lookup srv = some catalog)
    (hover : s.c.Endpoints.lookup srv = some endpoint) :
    (∀ err, (NewServiceClient env srv region s).1 ≠ Outcome.ret (Except.error err)) ∧
    projectLookups (NewServiceClient env srv region s).2.trace = projectLookups s.trace ∧
    (NewServiceClient env srv region s).2.c.RegionProjectIDMap = s.c.RegionProjectIDMap ∧
    (∀ sc, (NewServiceClient env srv region s).1 = Outcome.ret (Except.ok sc) →
      sc.Endpoint = endpoint) ∧
    (∀ other, NewServiceClient env srv other s = NewServiceClient env srv region s) ∧
    (s.c.HwClient ≠ none → s.c.DomainClient ≠ none →
      (∀ p, (refreshIfExpiring env s).1 ≠ Outcome.panic p) →
      ∃ sc, (NewServiceClient env srv region s).1 = Outcome.ret (Except.ok sc) ∧
        sc.Endpoint = endpoint) := by
  have hrun := NewServiceClient_override_run env srv region catalog endpoint s hsrv hover
  have hother : ∀ other, NewServiceClient env srv other s = NewServiceClient env srv region s := by
    intro other
    rw [hrun, NewServiceClient_override_run env srv other catalog endpoint s hsrv hover]
  have hcount := (refreshIfExpiring_overridesKept env).count_eq (Event.call Fn.loadUserProjects) s
  have hfr := ((refreshIfExpiring_overridesKept env).run s).2
  rw [hrun]
  unfold projectLookups
  cases h : refreshIfExpiring env s with
  | mk o s1 =>
    rw [h] at hcount hfr
    cases o with
    | panic p =>
      dsimp only
      refine ⟨(fun err he => by cases he), hcount, hfr.1, (fun sc he => by cases he),
        (fun other => by rw [hother other, hrun, h]), ?_⟩
      intro _ _ hnopanic
      exact absurd rfl (hnopanic p)
    | ret a =>
      dsimp only
      have hsame : ∀ other, NewServiceClient env srv other s =
          newServiceClientByEndpoint env (if catalog.Admin then s1.c.DomainClient else s1.c.HwClient)
            srv endpoint s1 := by
        intro other
        rw [hother other, hrun, h]
      rw [newServiceClientByEndpoint_run env _ srv endpoint catalog s1 hsrv] at hsame ⊢
      cases hclient : (if catalog.Admin then s1.c.DomainClient else s1.c.HwClient) with
      | some pc =>
        rw [hclient] at hsame
        dsimp only at hsame ⊢
        refine ⟨(fun err he => by cases he), hcount, hfr.1, ?_, hsame, ?_⟩
        · intro sc he
          injection he with he
          injection he with he
          rw [← he]
          rfl
        · intro _ _ _
          exact ⟨_, rfl, rfl⟩
      | none =>
        rw [hclient] at hsame
        dsimp only at hsame ⊢
        cases hw : catalog.WithOutProjectID with
        | false =>
          rw [hw] at hsame
          simp only [if_true] at hsame ⊢
          refine ⟨(fun err he => by cases he), hcount, hfr.1, (fun sc he => by cases he), hsame, ?_⟩
          intro hhw hdc _
          exfalso
          by_cases hadmin : catalog.Admin = true
          · rw [if_pos hadmin] at hclient
            exact hfr.2.2.2 hdc hclient
          · rw [if_neg hadmin] at hclient
            exact hfr.2.2.1 hhw hclient
        | true =>
          rw [hw] at hsame
          simp only [Bool.true_eq_false, if_false] at hsame ⊢
          refine ⟨(fun err he => by cases he), hcount, hfr.1, ?_, hsame, ?_⟩
          · intro sc he
            injection he with he
            injection he with he
            rw [← he]
            rfl
          · intro _ _ _
            exact ⟨_, rfl, rfl⟩

/-- The credential decision enters the arm of the first match and runs it. -/
theorem resolveCredentials_run (env : Env) (s : St) :
    resolveCredentials env s =
      credentialArm env s.c (firstMatch s.c)
        { s with trace := s.trace ++ [Event.branch (firstMatch s.c)] } := by
  unfold resolveCredentials firstMatch
  simp only [bind_run, getC_run]
  by_cases hTok : s.c.Token ≠ ""
  · simp only [if_pos hTok, bind_run, logEvent_run]
    rfl
  · simp only [if_neg hTok]
    by_cases hAk : s.c.AccessKey ≠ "" ∧ s.c.SecretKey ≠ ""
    · simp only [if_pos hAk, bind_run, logEvent_run]
      rfl
    · simp only [if_neg hAk]
      by_cases hPw : s.c.Password ≠ ""
      · simp only [if_pos hPw, bind_run, logEvent_run]
        rfl
      · simp only [if_neg hPw]
        by_cases hSh : s.c.SharedConfigFile ≠ ""
        · simp only [if_pos hSh, bind_run, logEvent_run]
          rfl
        · simp only [if_neg hSh, bind_run, logEvent_run]
          rfl

/-- With a `MaxRetries` that is not negative, the log of `LoadAndValidate`
gains exactly one arm of the credential decision, the first match. -/
theorem LoadAndValidate_branches (env : Env) (s : St)
    (hretries : 0 ≤ s.c.MaxRetries) :
    branchesOf (LoadAndValidate env s).2.trace = branchesOf s.trace ++ [firstMatch s.c] ∧
    (s.c.Token ≠ "" → s.c.AccessKey ≠ "" → s.c.SecretKey ≠ "" →
      branchesOf (LoadAndValidate env s).2.trace = branchesOf s.trace ++ [Branch.token]) := by
  have hF := anyChange_frame
  have hT : ∀ (c : Config) (x : Option ProviderClient) {d : Config}, anyChange c d :=
    fun _ _ _ => trivial
  have key : ∀ (b : Branch) (m : Prog (Option String)), Steps isCall anyChange m →
      branchesOf (((logEvent (Event.branch b) >>= fun _ => m) >>= fun err =>
        match err with
        | some err => (pure (some err) : Prog (Option String))
        | none => afterCredentials env) s).2.trace = branchesOf s.trace ++ [b] := by
    intro b m hm
    have h1 : Steps isCall anyChange (m >>= fun err =>
        match err with
        | some err => (pure (some err) : Prog (Option String))
        | none => afterCredentials env) :=
      Steps.bind hF hm (fun err => afterBuilder_steps env err)
    have h2 := h1.branchesOf_eq { s with trace := s.trace ++ [Event.branch b] }
    rw [branchesOf_append] at h2
    simp only [bind_run, logEvent_run] at h2 ⊢
    exact h2
  have hcall : ∀ f, f ≠ Fn.reloadSecurityKey → isCall (Event.call f) := fun f _ => isCall_call f
  have main : branchesOf (LoadAndValidate env s).2.trace = branchesOf s.trace ++ [firstMatch s.c] := by
    unfold LoadAndValidate firstMatch
    simp only [bind_run, getC_run, if_neg (not_lt.mpr hretries)]
    by_cases hTok : s.c.Token ≠ ""
    · simp only [if_pos hTok]
      exact key Branch.token _ (buildClientByToken_steps env hF hcall (fun c x => hT c x) (fun c x => hT c x))
    · simp only [if_neg hTok]
      by_cases hAk : s.c.AccessKey ≠ "" ∧ s.c.SecretKey ≠ ""
      · simp only [if_pos hAk]
        exact key Branch.aksk _ (buildClientByAKSK_steps env hF hcall (fun c x => hT c x) (fun c x => hT c x))
      · simp only [if_neg hAk]
        by_cases hPw : s.c.Password ≠ ""
        · simp only [if_pos hPw]
          refine key Branch.password _ ?_
          split
          · exact Steps.pure hF _
          · exact buildClientByPassword_steps env hF hcall (fun c x => hT c x) (fun c x => hT c x)
        · simp only [if_neg hPw]
          by_cases hSh : s.c.SharedConfigFile ≠ ""
          · simp only [if_pos hSh]
            exact key Branch.sharedConfig _ (buildClientByConfig_steps env hcall)
          · simp only [if_neg hSh]
            refine key Branch.metadata _ ?_
            refine Steps.bind hF (getAuthConfigByMeta_steps env hF hcall (fun _ _ _ _ _ => trivial)) ?_
            intro r
            split
            · exact Steps.pure hF _
            · exact buildClientByAKSK_steps env hF hcall (fun c x => hT c x) (fun c x => hT c x)
  refine ⟨main, ?_⟩
  intro hTok _ _
  rw [main]
  simp [firstMatch, hTok]

/-- The resource base of every client that `newServiceClientByName` returns,
and of the client that `newServiceClientByEndpoint` builds, is the one the
spec words. -/
theorem resourceBase_of_built_client (env : Env) (client : Option ProviderClient) (catalog : ServiceCatalog)
    (srv region endpoint : String) (s : St) :
    (∀ sc, (newServiceClientByName env client catalog region s).1 = Outcome.ret (Except.ok sc) →
      ∃ pc, sc.ProviderClient = some pc ∧
        sc.ResourceBase = resourceBaseSpec sc.Endpoint catalog.Version pc.ProjectID
          catalog.WithOutProjectID catalog.ResourceBase ∧
        (catalog.Version = "v3" → catalog.WithOutProjectID = false → catalog.ResourceBase = "users" →
          sc.Endpoint = "https://iam.region.example.com/" →
          sc.ResourceBase = "https://iam.region.example.com/v3/" ++ pc.ProjectID ++ "/users/")) ∧
    (env.allServiceCatalog.lookup srv = some catalog →
      (∀ pc, client = some pc → ∃ sc,
        (newServiceClientByEndpoint env client srv endpoint s).1 = Outcome.ret (Except.ok sc) ∧
        sc.Endpoint = endpoint ∧
        sc.ResourceBase = resourceBaseSpec endpoint catalog.Version pc.ProjectID
          catalog.WithOutProjectID catalog.ResourceBase ∧
        (catalog.Version = "v3" → catalog.WithOutProjectID = false → catalog.ResourceBase = "users" →
          endpoint = "https://iam.region.example.com/" →
          sc.ResourceBase = "https://iam.region.example.com/v3/" ++ pc.ProjectID ++ "/users/")) ∧
      (∀ sc, client = none →
        (newServiceClientByEndpoint env client srv endpoint s).1 = Outcome.ret (Except.ok sc) →
        catalog.WithOutProjectID = true ∧ sc.Endpoint = endpoint ∧
        ∀ P, sc.ResourceBase = resourceBaseSpec endpoint catalog.Version P
          catalog.WithOutProjectID catalog.ResourceBase)) := by
  have hlit : ∀ P : String, resourceBaseSpec "https://iam.region.example.com/" "v3" P false "users" =
      "https://iam.region.example.com/v3/" ++ P ++ "/users/" := by
    intro P
    have h1 : "https://iam.region.example.com/" ++ ("v3" ++ "/") = "https://iam.region.example.com/v3/" := by
      decide
    have h2 : "/" ++ ("users" ++ "/") = "/users/" := by decide
    have h3 : ("v3" : String) ≠ "" := by decide
    have h4 : ("users" : String) ≠ "" := by decide
    have h5 : ¬ (false = true) := by decide
    simp only [resourceBaseSpec, if_pos h3, if_pos h4, if_neg h5]
    rw [h1, String.append_assoc, String.append_assoc, h2, ← String.append_assoc]
  refine ⟨?_, ?_⟩
  · intro sc h
    obtain ⟨pc, _, _, hsc⟩ := newServiceClientByName_ok env client catalog region s sc h
    have hrb := assembleByName_resourceBase (newServiceClientByName env client catalog region s).2.c
      pc catalog region
      ((((newServiceClientByName env client catalog region s).2.c.RegionProjectIDMap).lookup region).getD "")
    rw [← hsc] at hrb
    have hpc : sc.ProviderClient = some { pc with
        ProjectID := ((((newServiceClientByName env client catalog region s).2.c.RegionProjectIDMap).lookup region).getD ""),
        AKSKAuthOptions := { pc.AKSKAuthOptions with
          ProjectId := ((((newServiceClientByName env client catalog region s).2.c.RegionProjectIDMap).lookup region).getD ""),
          Region := region } } := by
      rw [hsc]; rfl
    refine ⟨_, hpc, hrb, ?_⟩
    intro hV hw hR hE
    rw [hrb, hV, hw, hR, hE]
    exact hlit _
  · intro hcat
    have hrun := newServiceClientByEndpoint_run env client srv endpoint catalog s hcat
    refine ⟨?_, ?_⟩
    · intro pc hc
      subst hc
      simp only at hrun
      refine ⟨_, by rw [hrun], rfl, assembleByEndpoint_resourceBase _ _ _ _, ?_⟩
      intro hV hw hR hE
      rw [assembleByEndpoint_resourceBase, hV, hw, hR, hE]
      exact hlit _
    · intro sc hc h
      subst hc
      simp only at hrun
      rw [hrun] at h
      cases hw : catalog.WithOutProjectID with
      | false => simp [hw] at h
      | true =>
        simp [hw] at h
        subst h
        refine ⟨rfl, rfl, ?_⟩
        intro P
        rw [assembleByEndpoint_resourceBase]
        simp [resourceBaseSpec, hw]

/-! ## The claims -/

/-- C1: for every `Config` with `MaxRetries >= 0`, `LoadAndValidate` enters
exactly one arm of the credential decision and runs it: the run is the run of
that arm (the token builder, the AK/SK builder, the password check and
builder, the shared config file builder, or the metadata fetch and the AK/SK
builder), followed by the rest of the function when the arm returns nil.  The
arm is the first match of the order token, AK/SK, password, shared config
file, instance metadata; a `Config` with both a token and AK/SK runs the
token builder. -/
theorem C1_LoadAndValidate_runs_first_matching_branch (env : Env) (s : St)
    (hretries : 0 ≤ s.c.MaxRetries) :
    branchesOf (LoadAndValidate env s).2.trace = branchesOf s.trace ++ [firstMatch s.c] ∧
    LoadAndValidate env s =
      (match credentialArm env s.c (firstMatch s.c)
          { s with trace := s.trace ++ [Event.branch (firstMatch s.c)] } with
        | (Outcome.ret none, s1) => afterCredentials env s1
        | (Outcome.ret (some err), s1) => (Outcome.ret (some err), s1)
        | (Outcome.panic p, s1) => (Outcome.panic p, s1)) ∧
    (s.c.Token ≠ "" → firstMatch s.c = Branch.token) ∧
    (s.c.Token = "" → s.c.AccessKey ≠ "" → s.c.SecretKey ≠ "" →
      firstMatch s.c = Branch.aksk) ∧
    (s.c.Token = "" → (s.c.AccessKey = "" ∨ s.c.SecretKey = "") → s.c.Password ≠ "" →
      firstMatch s.c = Branch.password) ∧
    (s.c.Token = "" → (s.c.AccessKey = "" ∨ s.c.SecretKey = "") → s.c.Password = "" →
      s.c.SharedConfigFile ≠ "" → firstMatch s.c = Branch.sharedConfig) ∧
    (s.c.Token = "" → (s.c.AccessKey = "" ∨ s.c.SecretKey = "") → s.c.Password = "" →
      s.c.SharedConfigFile = "" → firstMatch s.c = Branch.metadata) ∧
    (s.c.Token ≠ "" → s.c.AccessKey ≠ "" → s.c.SecretKey ≠ "" →
      branchesOf (LoadAndValidate env s).2.trace = branchesOf s.trace ++ [Branch.token] ∧
      LoadAndValidate env s =
        match buildClientByToken env { s with trace := s.trace ++ [Event.branch Branch.token] } with
        | (Outcome.ret none, s1) => afterCredentials env s1
        | (Outcome.ret (some err), s1) => (Outcome.ret (some err), s1)
        | (Outcome.panic p, s1) => (Outcome.panic p, s1)) := by
  have hbranches := LoadAndValidate_branches env s hretries
  have hrun : LoadAndValidate env s =
      (match credentialArm env s.c (firstMatch s.c)
          { s with trace := s.trace ++ [Event.branch (firstMatch s.c)] } with
        | (Outcome.ret none, s1) => afterCredentials env s1
        | (Outcome.ret (some err), s1) => (Outcome.ret (some err), s1)
        | (Outcome.panic p, s1) => (Outcome.panic p, s1)) := by
    rw [LoadAndValidate_run env s hretries, resolveCredentials_run]
  have hnot : ∀ a b : String, (a = "" ∨ b = "") → ¬ (a ≠ "" ∧ b ≠ "") := by
    intro a b h hab
    rcases h with h | h
    · exact hab.1 h
    · exact hab.2 h
  refine ⟨hbranches.1, hrun, ?_, ?_, ?_, ?_, ?_, ?_⟩
  · intro hTok
    simp [firstMatch, hTok]
  · intro hTok hAk hSk
    simp [firstMatch, hTok, hAk, hSk]
  · intro hTok hAk hPw
    simp only [firstMatch, hTok, ne_eq, not_true_eq_false, if_false, if_neg (hnot _ _ hAk), hPw,
      not_false_eq_true, if_true]
  · intro hTok hAk hPw hSh
    simp only [firstMatch, hTok, ne_eq, not_true_eq_false, if_false, if_neg (hnot _ _ hAk), hPw, hSh,
      not_false_eq_true, if_true]
  · intro hTok hAk hPw hSh
    simp only [firstMatch, hTok, ne_eq, not_true_eq_false, if_false, if_neg (hnot _ _ hAk), hPw, hSh]
  · intro hTok hAk hSk
    have hfm : firstMatch s.c = Branch.token := by simp [firstMatch, hTok]
    refine ⟨hbranches.2 hTok hAk hSk, ?_⟩
    rw [hfm] at hrun
    exact hrun

/-- C1, at a sample input: a configuration with a token and AK/SK enters the
token arm only and runs the token builder, which authenticates twice; the
identity client it sets is the one of the token authentication. -/
theorem C1_witness :
    0 ≤ tokenAndAkskConfig.MaxRetries ∧
    (LoadAndValidate sampleEnv ⟨tokenAndAkskConfig, []⟩).2.trace =
      [Event.branch Branch.token, Event.call Fn.buildClientByToken, Event.call Fn.genClient,
        Event.call Fn.genClient, Event.call Fn.getDomainID] ∧
    (LoadAndValidate sampleEnv ⟨tokenAndAkskConfig, []⟩).2.c.HwClient =
      some { ProjectID := "p1", DomainID := "d1" } ∧
    branchesOf (LoadAndValidate sampleEnv ⟨tokenAndAkskConfig, []⟩).2.trace = [] ++ [Branch.token] ∧
    LoadAndValidate sampleEnv ⟨tokenAndAkskConfig, []⟩ =
      match buildClientByToken sampleEnv ⟨tokenAndAkskConfig, [] ++ [Event.branch Branch.token]⟩ with
      | (Outcome.ret none, s1) => afterCredentials sampleEnv s1
      | (Outcome.ret (some err), s1) => (Outcome.ret (some err), s1)
      | (Outcome.panic p, s1) => (Outcome.panic p, s1) :=
  ⟨by decide, by decide, by decide,
    (C1_LoadAndValidate_runs_first_matching_branch sampleEnv ⟨tokenAndAkskConfig, []⟩
      (by decide)).2.2.2.2.2.2.2 (by decide) (by decide) (by decide)⟩

/-- C2: the resource base of the client built by `newServiceClientByName` and
by `newServiceClientByEndpoint` is the endpoint followed by the version, the
project ID and the fixed suffix, each with the separator and each only when
applicable; for version `v3`, a project-scoped entry, suffix `users` and the
endpoint `https://iam.region.example.com/` it is that endpoint followed by
`v3/`, the project ID and `/users/`.  `newServiceClientByName` builds such a
client, with the project ID of the region, whenever it has a client, the
entry has a name, the region check passes and the region is in the map or
the project listing returns projects; with a client,
`newServiceClientByEndpoint` always builds one. -/
theorem C2_resourceBase (env : Env) (client : Option ProviderClient) (catalog : ServiceCatalog)
    (srv region endpoint : String) (s : St) :
    (∀ sc, (newServiceClientByName env client catalog region s).1 = Outcome.ret (Except.ok sc) →
      ∃ pc, sc.ProviderClient = some pc ∧
        sc.ResourceBase = resourceBaseSpec sc.Endpoint catalog.Version pc.ProjectID
          catalog.WithOutProjectID catalog.ResourceBase ∧
        (catalog.Version = "v3" → catalog.WithOutProjectID = false → catalog.ResourceBase = "users" →
          sc.Endpoint = "https://iam.region.example.com/" →
          sc.ResourceBase = "https://iam.region.example.com/v3/" ++ pc.ProjectID ++ "/users/")) ∧
    (∀ pc projectID, client = some pc → catalog.Name ≠ "" →
      region = s.c.Region ∨ (s.c.AccessKey ≠ "" ∧ s.c.SecretKey ≠ "") →
      s.c.RegionProjectIDMap.lookup region = some projectID →
      ∃ sc clone, newServiceClientByName env client catalog region s =
          (Outcome.ret (Except.ok sc), s) ∧
        sc.ProviderClient = some clone ∧ clone.ProjectID = projectID ∧
        sc.Endpoint =
          (if catalog.Scope = "global" ∧ s.c.RegionClient = false then
            "https://" ++ catalog.Name ++ "." ++ s.c.Cloud ++ "/"
          else
            "https://" ++ catalog.Name ++ "." ++ region ++ "." ++ s.c.Cloud ++ "/") ∧
        sc.ResourceBase = resourceBaseSpec sc.Endpoint catalog.Version projectID
          catalog.WithOutProjectID catalog.ResourceBase ∧
        (catalog.Version = "v3" → catalog.WithOutProjectID = false → catalog.ResourceBase = "users" →
          sc.Endpoint = "https://iam.region.example.com/" →
          sc.ResourceBase = "https://iam.region.example.com/v3/" ++ projectID ++ "/users/")) ∧
    (∀ pc all, client = some pc → catalog.Name ≠ "" →
      region = s.c.Region ∨ (s.c.AccessKey ≠ "" ∧ s.c.SecretKey ≠ "") →
      s.c.RegionProjectIDMap.lookup region = none →
      env.projectsList (s.trace.length + 1)
        { Endpoint := s.c.IdentityEndpoint ++ "/", ProviderClient := some pc } pc.DomainID region =
          Listing.items all →
      all.length ≠ 0 →
      ∃ sc clone s1, newServiceClientByName env client catalog region s =
          (Outcome.ret (Except.ok sc), s1) ∧
        sc.ProviderClient = some clone ∧
        clone.ProjectID = (s1.c.RegionProjectIDMap.lookup region).getD "" ∧
        sc.ResourceBase = resourceBaseSpec sc.Endpoint catalog.Version clone.ProjectID
          catalog.WithOutProjectID catalog.ResourceBase) ∧
    (env.allServiceCatalog.lookup srv = some catalog →
      (∀ pc, client = some pc → ∃ sc,
        (newServiceClientByEndpoint env client srv endpoint s).1 = Outcome.ret (Except.ok sc) ∧
        sc.Endpoint = endpoint ∧
        sc.ResourceBase = resourceBaseSpec endpoint catalog.Version pc.ProjectID
          catalog.WithOutProjectID catalog.ResourceBase ∧
        (catalog.Version = "v3" → catalog.WithOutProjectID = false → catalog.ResourceBase = "users" →
          endpoint = "https://iam.region.example.com/" →
          sc.ResourceBase = "https://iam.region.example.com/v3/" ++ pc.ProjectID ++ "/users/")) ∧
      (∀ sc, client = none →
        (newServiceClientByEndpoint env client srv endpoint s).1 = Outcome.ret (Except.ok sc) →
        catalog.WithOutProjectID = true ∧ sc.Endpoint = endpoint ∧
        ∀ P, sc.ResourceBase = resourceBaseSpec endpoint catalog.Version P
          catalog.WithOutProjectID catalog.ResourceBase)) := by
  obtain ⟨hbyname, hbyendpoint⟩ :=
    resourceBase_of_built_client env client catalog srv region endpoint s
  refine ⟨hbyname, ?_, ?_, hbyendpoint⟩
  · intro pc projectID hc hname hguard hlk
    subst hc
    have hrun := newServiceClientByName_cached env pc catalog region projectID s hname hguard hlk
    obtain ⟨pc2, hpc2, hrb, hlit⟩ := hbyname (assembleByName s.c pc catalog region projectID)
      (by rw [hrun])
    have hclone : (assembleByName s.c pc catalog region projectID).ProviderClient =
        some { pc with ProjectID := projectID,
                       AKSKAuthOptions := { pc.AKSKAuthOptions with
                         ProjectId := projectID, Region := region } } := rfl
    refine ⟨_, _, hrun, hclone, rfl, ?_, assembleByName_resourceBase _ _ _ _ _, ?_⟩
    · simp [assembleByName]
    · intro hV hw hR hE
      rw [hclone] at hpc2
      injection hpc2 with hpc2
      have := hlit hV hw hR hE
      rw [← hpc2] at this
      exact this
  · intro pc all hc hname hguard hlk hlist hlen
    subst hc
    have hrun := newServiceClientByName_miss env (some pc) catalog region s hname hguard hlk
    rw [loadUserProjects_run, hlist] at hrun
    simp only [if_neg hlen] at hrun
    exact ⟨_, _, _, hrun, rfl, rfl, assembleByName_resourceBase _ _ _ _ _⟩

/-- C2, at a sample input: the `iam` entry, built by name for the region
`region` and built with an endpoint override. -/
theorem C2_witness :
    sampleEnv.allServiceCatalog.lookup "iam" = some { Name := "iam", Version := "v3", ResourceBase := "users" } ∧
    (∃ sc, newServiceClientByName sampleEnv regionConfig.HwClient
        { Name := "iam", Version := "v3", ResourceBase := "users" } "region" ⟨regionConfig, []⟩ =
          (Outcome.ret (Except.ok sc), ⟨regionConfig, []⟩) ∧
      sc.Endpoint = "https://iam.region.example.com/" ∧
      sc.ResourceBase = "https://iam.region.example.com/v3/" ++ "p1" ++ "/users/") ∧
    ∃ sc, (newServiceClientByEndpoint sampleEnv (some { ProjectID := "p1" }) "iam"
        "https://iam.region.example.com/" ⟨akskConfig, []⟩).1 = Outcome.ret (Except.ok sc) ∧
      sc.ResourceBase = "https://iam.region.example.com/v3/" ++ "p1" ++ "/users/" := by
  refine ⟨by decide, ?_, ?_⟩
  · obtain ⟨sc, _, h1, _, _, h4, _, h6⟩ := (C2_resourceBase sampleEnv regionConfig.HwClient
      { Name := "iam", Version := "v3", ResourceBase := "users" } "iam" "region"
      "https://iam.region.example.com/" ⟨regionConfig, []⟩).2.1
        { ProjectID := "p1", DomainID := "d1" } "p1" rfl (by decide) (Or.inl rfl) (by decide)
    have hE : sc.Endpoint = "https://iam.region.example.com/" := by
      rw [h4]
      decide
    exact ⟨sc, h1, hE, h6 rfl rfl rfl hE⟩
  · obtain ⟨sc, h1, _, _, h4⟩ := ((C2_resourceBase sampleEnv (some { ProjectID := "p1" })
      { Name := "iam", Version := "v3", ResourceBase := "users" } "iam" "r1"
      "https://iam.region.example.com/" ⟨akskConfig, []⟩).2.2.2 (by decide)).1 { ProjectID := "p1" } rfl
    exact ⟨sc, h1, h4 rfl rfl rfl rfl⟩

/-- C3: the endpoint of the client built by `newServiceClientByName` (which
needs a non-empty `Name`) is `https://Name.Cloud/` when the entry has the scope
`global` and `RegionClient` is false, and `https://Name.region.Cloud/` in every
other case; a client is built whenever the region is in the map, the client is
not nil and the region check passes. -/
theorem C3_newServiceClientByName_endpoint (env : Env) (client : Option ProviderClient)
    (catalog : ServiceCatalog) (region : String) (s : St) :
    (∀ sc, (newServiceClientByName env client catalog region s).1 = Outcome.ret (Except.ok sc) →
      catalog.Name ≠ "" ∧
      sc.Endpoint =
        if catalog.Scope = "global" ∧ s.c.RegionClient = false then
          "https://" ++ catalog.Name ++ "." ++ s.c.Cloud ++ "/"
        else
          "https://" ++ catalog.Name ++ "." ++ region ++ "." ++ s.c.Cloud ++ "/") ∧
    (∀ pc projectID, client = some pc → catalog.Name ≠ "" →
      region = s.c.Region ∨ (s.c.AccessKey ≠ "" ∧ s.c.SecretKey ≠ "") →
      s.c.RegionProjectIDMap.lookup region = some projectID →
      ∃ sc, (newServiceClientByName env client catalog region s).1 = Outcome.ret (Except.ok sc)) := by
  constructor
  · intro sc h
    obtain ⟨pc, _, hname, hsc⟩ := newServiceClientByName_ok env client catalog region s sc h
    have hcfg := newServiceClientByName_config env client catalog region s
    refine ⟨hname, ?_⟩
    rw [hsc, hcfg]
    simp [assembleByName]
  · intro pc projectID hc hname hguard hlk
    subst hc
    exact ⟨_, by rw [newServiceClientByName_cached env pc catalog region projectID s hname hguard hlk]⟩

/-- C3, at a sample input: the `vpc` entry in the region `r1`. -/
theorem C3_witness :
    ∃ sc, (newServiceClientByName sampleEnv akskConfig.HwClient { Name := "vpc", Version := "v1" } "r1"
        ⟨akskConfig, []⟩).1 = Outcome.ret (Except.ok sc) ∧
      sc.Endpoint = "https://vpc.r1.example.com/" := by
  obtain ⟨sc, h⟩ := (C3_newServiceClientByName_endpoint sampleEnv akskConfig.HwClient
    { Name := "vpc", Version := "v1" } "r1" ⟨akskConfig, []⟩).2 _ "p1" rfl (by decide)
    (Or.inl rfl) (by decide)
  have h2 := ((C3_newServiceClientByName_endpoint sampleEnv akskConfig.HwClient
    { Name := "vpc", Version := "v1" } "r1" ⟨akskConfig, []⟩).1 sc h).2
  exact ⟨sc, h, by rw [h2]; decide⟩

/-- C4, where the code departs from it: a `Config` with a token and with
AK/SK takes the token arm of `LoadAndValidate`, and `NewServiceClient` for a
region other than `Config.Region`, with no endpoint override, still returns a
client, because the region check looks at `AccessKey` and `SecretKey` only. -/
theorem C4_token_with_aksk_builds_client_for_other_region :
    tokenAndAkskConfig.Token ≠ "" ∧
    (LoadAndValidate sampleEnv ⟨tokenAndAkskConfig, []⟩).1 = Outcome.ret none ∧
    branchesOf (LoadAndValidate sampleEnv ⟨tokenAndAkskConfig, []⟩).2.trace = [Branch.token] ∧
    "r2" ≠ (LoadAndValidate sampleEnv ⟨tokenAndAkskConfig, []⟩).2.c.Region ∧
    (LoadAndValidate sampleEnv ⟨tokenAndAkskConfig, []⟩).2.c.Endpoints.lookup "vpc" = none ∧
    (NewServiceClient sampleEnv "vpc" "r2" (LoadAndValidate sampleEnv ⟨tokenAndAkskConfig, []⟩).2).1 =
      Outcome.ret (Except.ok
        { ProviderClient := some { ProjectID := "project-of-r2", DomainID := "d1",
                                   AKSKAuthOptions := { ProjectId := "project-of-r2", Region := "r2" } },
          Endpoint := "https://vpc.r2.example.com/",
          ResourceBase := "https://vpc.r2.example.com/v1/project-of-r2/" }) :=
  ⟨by decide, rfl, by decide, by decide, by decide, rfl⟩

/-- C5, where the code departs from it: with AK/SK set, the region `r2` is
not in `RegionProjectIDMap` and the project listing returns only a project
of another name; `loadUserProjects` stores that pair and returns nil, and
`newServiceClientByName` returns without error a client for `r2` whose
project ID is empty, while the map holds no entry for `r2` afterwards. -/
theorem C5_unlisted_region_gives_client_without_project :
    akskConfig.AccessKey ≠ "" ∧ akskConfig.SecretKey ≠ "" ∧
    akskConfig.RegionProjectIDMap.lookup "r2" = none ∧
    (newServiceClientByName strayProjectEnv akskConfig.HwClient { Name := "vpc", Version := "v1" } "r2"
      ⟨akskConfig, []⟩).1 =
      Outcome.ret (Except.ok
        { ProviderClient := some { ProjectID := "", DomainID := "d1",
                                   AKSKAuthOptions := { ProjectId := "", Region := "r2" } },
          Endpoint := "https://vpc.r2.example.com/",
          ResourceBase := "https://vpc.r2.example.com/v1//" }) ∧
    (newServiceClientByName strayProjectEnv akskConfig.HwClient { Name := "vpc", Version := "v1" } "r2"
      ⟨akskConfig, []⟩).2.c.RegionProjectIDMap = [("another-region", "p9"), ("r1", "p1")] ∧
    (newServiceClientByName strayProjectEnv akskConfig.HwClient { Name := "vpc", Version := "v1" } "r2"
      ⟨akskConfig, []⟩).2.c.RegionProjectIDMap.lookup "r2" = none :=
  ⟨by decide, by decide, by decide, rfl, by decide, by decide⟩

/-- C6: for a supported service, `NewServiceClient` calls `reloadSecurityKey`
exactly once when `SecurityKeyExpiresAt` is not the zero time and the clock
plus 600 seconds is past it, and not at all otherwise; so not at all when more
than 600 seconds of validity remain, and not at all when
`SecurityKeyExpiresAt` is the zero time.  The clock is a 64 bit value to which
600 can be added without overflow. -/
theorem C6_NewServiceClient_refreshes_once (env : Env) (srv region : String) (s : St)
    (catalog : ServiceCatalog) (hsrv : env.allServiceCatalog.lookup srv = some catalog)
    (hlow : -2 ^ 63 ≤ env.now s.trace.length + 600) (hhigh : env.now s.trace.length + 600 < 2 ^ 63) :
    reloadCalls (NewServiceClient env srv region s).2.trace =
      reloadCalls s.trace +
        (if s.c.SecurityKeyExpiresAt.IsZero = false ∧
            env.now s.trace.length + 600 > s.c.SecurityKeyExpiresAt.Unix then 1 else 0) ∧
    (env.now s.trace.length + 600 < s.c.SecurityKeyExpiresAt.Unix →
      reloadCalls (NewServiceClient env srv region s).2.trace = reloadCalls s.trace) ∧
    (s.c.SecurityKeyExpiresAt = Time.zero →
      reloadCalls (NewServiceClient env srv region s).2.trace = reloadCalls s.trace) := by
  have hmain : reloadCalls (NewServiceClient env srv region s).2.trace =
      reloadCalls s.trace +
        (if s.c.SecurityKeyExpiresAt.IsZero = false ∧
            env.now s.trace.length + 600 > s.c.SecurityKeyExpiresAt.Unix then 1 else 0) := by
    rw [NewServiceClient_split env srv region catalog hsrv,
      reloadCalls_bind _ _ (fun _ => buildServiceClient_steps env srv region catalog anyChange_frame
        notReload_call (fun _ _ => trivial)),
      refreshIfExpiring_run]
    have hw : wrapInt64 (env.now s.trace.length + keyExpiresDuration) = env.now s.trace.length + 600 :=
      wrapInt64_of_range _ hlow hhigh
    rw [hw]
    by_cases hc : s.c.SecurityKeyExpiresAt.IsZero = false ∧
        env.now s.trace.length + 600 > s.c.SecurityKeyExpiresAt.Unix
    · rw [if_pos hc, if_pos hc, ← reloadSecurityKey_reloadCalls env s]
      cases hr : reloadSecurityKey env s with
      | mk o s1 => cases o <;> rfl
    · rw [if_neg hc, if_neg hc]
      rfl
  refine ⟨hmain, ?_, ?_⟩
  · intro hlt
    rw [hmain, if_neg (by intro h; omega)]
    rfl
  · intro hz
    rw [hmain, if_neg (by rw [hz]; simp [Time.zero, Time.IsZero])]
    rfl

/-- C6, at a sample input: credentials that expire at 1100, asked for at
1000, are refreshed once. -/
theorem C6_witness :
    sampleEnv.allServiceCatalog.lookup "vpc" = some { Name := "vpc", Version := "v1" } ∧
    reloadCalls (NewServiceClient sampleEnv "vpc" "r1" ⟨expiringConfig, []⟩).2.trace = 0 + 1 :=
  ⟨by decide, (C6_NewServiceClient_refreshes_once sampleEnv "vpc" "r1" ⟨expiringConfig, []⟩
    { Name := "vpc", Version := "v1" } (by decide) (by decide) (by decide)).1⟩

/-- C7, as stated, fails: the refresh succeeds, but the metadata endpoint
hands out a credential that expires at 1200 while the clock stands at 1000;
`NewServiceClient` returns a client and the stored expiry is less than 600
seconds away. -/
theorem C7_counterexample :
    expiringConfig.SecurityKeyExpiresAt.IsZero = false ∧
    (reloadSecurityKey shortLivedEnv ⟨expiringConfig, []⟩).1 = Outcome.ret none ∧
    (∃ sc, (NewServiceClient shortLivedEnv "vpc" "r1" ⟨expiringConfig, []⟩).1 =
      Outcome.ret (Except.ok sc)) ∧
    (NewServiceClient shortLivedEnv "vpc" "r1" ⟨expiringConfig, []⟩).2.c.SecurityKeyExpiresAt.Unix = 1200 ∧
    ¬ (shortLivedEnv.now 0 + 600 ≤
      (NewServiceClient shortLivedEnv "vpc" "r1" ⟨expiringConfig, []⟩).2.c.SecurityKeyExpiresAt.Unix) :=
  ⟨by decide, rfl, ⟨_, rfl⟩, by decide, by decide⟩

/-- C7, amended: for a `Config` with a non-zero `SecurityKeyExpiresAt`,
whenever `NewServiceClient` returns a client without error at the time `now`
and the refresh, if one is due, fetches without error a credential whose
expiry is at least `now + 600`, then `now + 600 <= SecurityKeyExpiresAt` holds
in the `Config` the client was built from.  The clock is a 64 bit value to
which 600 can be added without overflow. -/
theorem C7_amended_expiry_after_fresh_refresh (env : Env) (srv region : String) (s : St)
    (sc : ServiceClient)
    (hnonzero : s.c.SecurityKeyExpiresAt.IsZero = false)
    (hlow : -2 ^ 63 ≤ env.now s.trace.length + 600) (hhigh : env.now s.trace.length + 600 < 2 ^ 63)
    (hfresh : env.now s.trace.length + 600 > s.c.SecurityKeyExpiresAt.Unix →
      ∃ s1, getAuthConfigByMeta env { s with trace := s.trace ++ [Event.call Fn.reloadSecurityKey] } =
          (Outcome.ret none, s1) ∧
        env.now s.trace.length + 600 ≤ s1.c.SecurityKeyExpiresAt.Unix)
    (hclient : (NewServiceClient env srv region s).1 = Outcome.ret (Except.ok sc)) :
    env.now s.trace.length + 600 ≤
      (NewServiceClient env srv region s).2.c.SecurityKeyExpiresAt.Unix := by
  cases hsrv : env.allServiceCatalog.lookup srv with
  | none =>
    unfold NewServiceClient at hclient
    simp [hsrv] at hclient
  | some catalog =>
    rw [NewServiceClient_split env srv region catalog hsrv]
    have htail : sameExpiry (refreshIfExpiring env s).2.c
        ((refreshIfExpiring env >>= fun _ => buildServiceClient env srv region catalog) s).2.c :=
      Steps.after_bind (A := fun _ => True) sameExpiry_frame _ _
        (fun _ => buildServiceClient_steps env srv region catalog sameExpiry_frame
          (fun _ _ => trivial) (fun _ _ => rfl)) s
    unfold sameExpiry at htail
    rw [htail, refreshIfExpiring_run]
    have hw : wrapInt64 (env.now s.trace.length + keyExpiresDuration) = env.now s.trace.length + 600 :=
      wrapInt64_of_range _ hlow hhigh
    rw [hw]
    by_cases hexp : env.now s.trace.length + 600 > s.c.SecurityKeyExpiresAt.Unix
    · rw [if_pos ⟨hnonzero, hexp⟩]
      obtain ⟨s1, hget, hge⟩ := hfresh hexp
      have hreload : reloadSecurityKey env s = buildClientByAKSK env s1 := by
        unfold reloadSecurityKey
        simp only [bind_run, logEvent_run, hget]
      have hbuild : sameExpiry s1.c (buildClientByAKSK env s1).2.c :=
        ((buildClientByAKSK_steps (A := fun _ => True) env sameExpiry_frame (fun _ _ => trivial)
          (fun _ _ => rfl) (fun _ _ => rfl)).run s1).2
      unfold sameExpiry at hbuild
      rw [hreload]
      cases hb : buildClientByAKSK env s1 with
      | mk o s2 =>
        rw [hb] at hbuild
        simp only at hbuild
        cases o <;> (simp only; rw [hbuild]; exact hge)
    · rw [if_neg (fun h => hexp h.2)]
      simpa using hexp

/-- C7 amended, at a sample input: the refreshed credential expires at
1000000000. -/
theorem C7_witness :
    expiringConfig.SecurityKeyExpiresAt.IsZero = false ∧
    (∃ sc, (NewServiceClient sampleEnv "vpc" "r1" ⟨expiringConfig, []⟩).1 = Outcome.ret (Except.ok sc)) ∧
    sampleEnv.now 0 + 600 ≤
      (NewServiceClient sampleEnv "vpc" "r1" ⟨expiringConfig, []⟩).2.c.SecurityKeyExpiresAt.Unix :=
  ⟨by decide, ⟨_, rfl⟩,
    C7_amended_expiry_after_fresh_refresh sampleEnv "vpc" "r1" ⟨expiringConfig, []⟩ _ (by decide)
      (by decide) (by decide)
      (fun _ => ⟨(getAuthConfigByMeta sampleEnv ⟨expiringConfig, [Event.call Fn.reloadSecurityKey]⟩).2,
        rfl, by decide⟩)
      rfl⟩

/-- C8, where the code departs from it: the metadata endpoint answers 500,
`reloadSecurityKey` returns an error, and `NewServiceClient` and
`ObjectStorageClient` still return a client, built from the old credentials;
the `Config` is as before. -/
theorem C8_refresh_error_is_dropped :
    (∃ err, (reloadSecurityKey failingMetadataEnv ⟨expiringConfig, []⟩).1 = Outcome.ret (some err)) ∧
    (NewServiceClient failingMetadataEnv "vpc" "r1" ⟨expiringConfig, []⟩).1 =
      Outcome.ret (Except.ok
        { ProviderClient := some { ProjectID := "p1", DomainID := "d1",
                                   AKSKAuthOptions := { ProjectId := "p1", Region := "r1" } },
          Endpoint := "https://vpc.r1.example.com/",
          ResourceBase := "https://vpc.r1.example.com/v1/p1/" }) ∧
    (ObjectStorageClient failingMetadataEnv "r1" ⟨expiringConfig, []⟩).1 =
      Outcome.ret (Except.ok ⟨"AK", "SK", "https://obs.r1.example.com/", none, some "ST"⟩) ∧
    (NewServiceClient failingMetadataEnv "vpc" "r1" ⟨expiringConfig, []⟩).2.c = expiringConfig :=
  ⟨⟨_, rfl⟩, rfl, rfl, by decide⟩

/-- C9, where the code departs from it: for credentials within 600 seconds of
their expiry, `ObjectStorageClientWithSignature` builds its client from the
stored keys without calling `reloadSecurityKey`, while `ObjectStorageClient`
on the same state refreshes first and uses the new keys. -/
theorem C9_signature_client_skips_refresh :
    expiringConfig.SecurityKeyExpiresAt.IsZero = false ∧
    sampleEnv.now 0 + 600 > expiringConfig.SecurityKeyExpiresAt.Unix ∧
    ObjectStorageClientWithSignature sampleEnv "r1" ⟨expiringConfig, []⟩ =
      (Outcome.ret (Except.ok ⟨"AK", "SK", "https://obs.r1.example.com/", some "OBS", some "ST"⟩),
        ⟨expiringConfig, [Event.call Fn.obsNew]⟩) ∧
    reloadCalls (ObjectStorageClientWithSignature sampleEnv "r1" ⟨expiringConfig, []⟩).2.trace = 0 ∧
    reloadCalls (ObjectStorageClient sampleEnv "r1" ⟨expiringConfig, []⟩).2.trace = 1 ∧
    (ObjectStorageClient sampleEnv "r1" ⟨expiringConfig, []⟩).1 =
      Outcome.ret (Except.ok ⟨"AK2", "SK2", "https://obs.r1.example.com/", none, some "ST2"⟩) :=
  ⟨by decide, by decide, rfl, by decide, by decide, rfl⟩

/-- C10: `getAuthConfigByMeta` returns an error when the status is not 200,
when the body is not valid JSON, when one of `credential.access`,
`credential.secret`, `credential.securitytoken`, `credential.expires_at` is
absent or null, and when `expires_at` is a string that is not an RFC3339
timestamp; whenever it does not succeed the `Config` is left as it is; and it
succeeds exactly when the four fields are strings and `expires_at` parses, and
then sets `AccessKey`, `SecretKey`, `SecurityToken` and `SecurityKeyExpiresAt`
together to the values of the response and nothing else. -/
theorem C10_getAuthConfigByMeta (env : Env) (s : St) :
    (∀ status body, env.metadata (s.trace.length + 1) = MetaReply.response status body →
      status ≠ 200 → ∃ err, (getAuthConfigByMeta env s).1 = Outcome.ret (some err)) ∧
    (∀ msg, env.metadata (s.trace.length + 1) = MetaReply.response 200 (MetaBody.invalidJSON msg) →
      ∃ err, (getAuthConfigByMeta env s).1 = Outcome.ret (some err)) ∧
    (∀ v, env.metadata (s.trace.length + 1) = MetaReply.response 200 (MetaBody.parsed v) →
      (jmesSearch "credential" "access" v = JSON.null ∨
        jmesSearch "credential" "secret" v = JSON.null ∨
        jmesSearch "credential" "securitytoken" v = JSON.null ∨
        jmesSearch "credential" "expires_at" v = JSON.null) →
      ∃ err, (getAuthConfigByMeta env s).1 = Outcome.ret (some err)) ∧
    (∀ v text msg, env.metadata (s.trace.length + 1) = MetaReply.response 200 (MetaBody.parsed v) →
      jmesSearch "credential" "expires_at" v = JSON.str text →
      env.parseRFC3339 text = Except.error msg →
      ∃ err, (getAuthConfigByMeta env s).1 = Outcome.ret (some err)) ∧
    ((getAuthConfigByMeta env s).1 ≠ Outcome.ret none → (getAuthConfigByMeta env s).2.c = s.c) ∧
    (∀ v ak sk st text t,
      env.metadata (s.trace.length + 1) = MetaReply.response 200 (MetaBody.parsed v) →
      jmesSearch "credential" "access" v = JSON.str ak →
      jmesSearch "credential" "secret" v = JSON.str sk →
      jmesSearch "credential" "securitytoken" v = JSON.str st →
      jmesSearch "credential" "expires_at" v = JSON.str text →
      env.parseRFC3339 text = Except.ok t →
      (getAuthConfigByMeta env s).1 = Outcome.ret none ∧
      (getAuthConfigByMeta env s).2.c =
        { s.c with AccessKey := ak, SecretKey := sk, SecurityToken := st, SecurityKeyExpiresAt := t }) ∧
    ((getAuthConfigByMeta env s).1 = Outcome.ret none →
      ∃ v ak sk st text t,
        env.metadata (s.trace.length + 1) = MetaReply.response 200 (MetaBody.parsed v) ∧
        jmesSearch "credential" "access" v = JSON.str ak ∧
        jmesSearch "credential" "secret" v = JSON.str sk ∧
        jmesSearch "credential" "securitytoken" v = JSON.str st ∧
        jmesSearch "credential" "expires_at" v = JSON.str text ∧
        env.parseRFC3339 text = Except.ok t ∧
        (getAuthConfigByMeta env s).2.c =
          { s.c with AccessKey := ak, SecretKey := sk, SecurityToken := st, SecurityKeyExpiresAt := t }) := by
  refine ⟨?_, ?_, ?_, ?_, ?_, ?_, ?_⟩
  · intro status body hm hst
    obtain ⟨err, h⟩ := getAuthConfigByMeta_failed env s (by
      intro v hv
      rw [hv] at hm
      injection hm with h1 _
      exact hst h1.symm)
    exact ⟨err, by rw [h]⟩
  · intro msg hm
    obtain ⟨err, h⟩ := getAuthConfigByMeta_failed env s (by
      intro v hv
      rw [hv] at hm
      injection hm with _ h2
      cases h2)
    exact ⟨err, by rw [h]⟩
  · intro v hm hnull
    rw [getAuthConfigByMeta_parsed env s v hm]
    have hn : ((jmesSearch "credential" "access" v).isNil || (jmesSearch "credential" "secret" v).isNil ||
          (jmesSearch "credential" "securitytoken" v).isNil ||
          (jmesSearch "credential" "expires_at" v).isNil) = true := by
      rcases hnull with h | h | h | h <;> simp [h, JSON.isNil]
    rw [if_pos hn]
    exact ⟨_, rfl⟩
  · intro v text msg hm hexp hparse
    rw [getAuthConfigByMeta_parsed env s v hm]
    split
    · exact ⟨_, rfl⟩
    · simp only [hexp, hparse]
      exact ⟨_, rfl⟩
  · intro hne
    by_cases hv : ∃ v, env.metadata (s.trace.length + 1) = MetaReply.response 200 (MetaBody.parsed v)
    · obtain ⟨v, hm⟩ := hv
      rw [getAuthConfigByMeta_parsed env s v hm] at hne ⊢
      split
      · rfl
      · rename_i hnil
        rw [if_neg hnil] at hne
        split
        · rename_i text he
          split
          · rfl
          · rename_i t hp
            split
            · rename_i ak sk st ha hs ht
              simp [he, hp, ha, hs, ht] at hne
            · rfl
        · rfl
    · obtain ⟨err, h⟩ := getAuthConfigByMeta_failed env s (fun v hm => hv ⟨v, hm⟩)
      rw [h]
  · intro v ak sk st text t hm ha hs ht he hp
    rw [getAuthConfigByMeta_parsed env s v hm]
    simp [ha, hs, ht, he, hp, JSON.isNil]
  · intro hok
    by_cases hv : ∃ v, env.metadata (s.trace.length + 1) = MetaReply.response 200 (MetaBody.parsed v)
    · obtain ⟨v, hm⟩ := hv
      rw [getAuthConfigByMeta_parsed env s v hm] at hok ⊢
      split at hok
      · simp at hok
      · rename_i hnil
        rw [if_neg hnil]
        split at hok
        · rename_i text he
          split at hok
          · simp at hok
          · rename_i t hp
            split at hok
            · rename_i ak sk st ha hs ht
              refine ⟨v, ak, sk, st, text, t, hm, ha, hs, ht, he, hp, ?_⟩
              simp [ha, hs, ht, he, hp]
            · simp at hok
        · simp at hok
    · obtain ⟨err, h⟩ := getAuthConfigByMeta_failed env s (fun v hm => hv ⟨v, hm⟩)
      rw [h] at hok
      simp at hok

/-- C10, at sample inputs: the credential of the sample world is stored, and a
reply with the status 500 is an error that leaves the `Config` as it is. -/
theorem C10_witness :
    ((getAuthConfigByMeta sampleEnv ⟨akskConfig, []⟩).1 = Outcome.ret none ∧
      (getAuthConfigByMeta sampleEnv ⟨akskConfig, []⟩).2.c =
        { akskConfig with AccessKey := "AK2", SecretKey := "SK2", SecurityToken := "ST2",
                          SecurityKeyExpiresAt := ⟨1000000000, 0⟩ }) ∧
    (∃ err, (getAuthConfigByMeta failingMetadataEnv ⟨akskConfig, []⟩).1 = Outcome.ret (some err)) :=
  ⟨(C10_getAuthConfigByMeta sampleEnv ⟨akskConfig, []⟩).2.2.2.2.2.1
      (sampleCredential "2001-09-09T01:46:40Z") "AK2" "SK2" "ST2" "2001-09-09T01:46:40Z"
      ⟨1000000000, 0⟩ rfl rfl rfl rfl rfl rfl,
    (C10_getAuthConfigByMeta failingMetadataEnv ⟨akskConfig, []⟩).1 500 (MetaBody.readError "") rfl
      (by decide)⟩

/-- C11, where the code departs from it: the minutes are 1, 2, 4, 8, 16 and
then 30 up to 62 attempts, but at 63 attempts the power of two no longer fits
`int`; with the conversion of amd64 the minutes are the minimum `int64`, not
30, the 64 bit product with `time.Minute` is 0 and the function does not
sleep at all. -/
theorem C11_backoff_minutes_overflow_at_63 :
    [0, 1, 2, 3, 4, 5, 6, 62].map (backoffMinutes minInt64) = [1, 2, 4, 8, 16, 30, 30, 30] ∧
    backoffMinutes minInt64 63 = -9223372036854775808 ∧
    backoffSleep minInt64 63 = 0 ∧
    retryBackoffFunc minInt64 none false (some "too many requests") 63 = ⟨none, 0⟩ ∧
    retryBackoffFunc minInt64 none false (some "too many requests") 5 = ⟨none, 30 * 60000000000⟩ := by
  decide

/-- C12: with a context, `retryBackoffFunc` returns exactly `e`, at the moment
of the cancellation, when the context is cancelled before the sleep is over,
and returns nil after the sleep when the sleep is over first or the context is
never cancelled; without a context it returns nil after the sleep. -/
theorem C12_retryBackoffFunc_cancellation (outOfRange : Int) (tie : Bool) (e : Option String)
    (retries : Nat) :
    (∀ ctx t, ctx.doneAt = some t → t < (backoffSleep outOfRange retries).toNat →
      retryBackoffFunc outOfRange (some ctx) tie e retries = ⟨e, t⟩) ∧
    (∀ ctx t, ctx.doneAt = some t → (backoffSleep outOfRange retries).toNat < t →
      retryBackoffFunc outOfRange (some ctx) tie e retries =
        ⟨none, (backoffSleep outOfRange retries).toNat⟩) ∧
    (∀ ctx, ctx.doneAt = none →
      retryBackoffFunc outOfRange (some ctx) tie e retries =
        ⟨none, (backoffSleep outOfRange retries).toNat⟩) ∧
    retryBackoffFunc outOfRange none tie e retries =
      ⟨none, (backoffSleep outOfRange retries).toNat⟩ := by
  refine ⟨?_, ?_, ?_, ?_⟩
  · intro ctx t hdone hlt
    rw [retryBackoffFunc_sleep]
    simp only [hdone, if_pos hlt]
  · intro ctx t hdone hlt
    rw [retryBackoffFunc_sleep]
    simp only [hdone, if_neg (Nat.lt_asymm hlt), if_pos hlt]
  · intro ctx hdone
    rw [retryBackoffFunc_sleep]
    simp only [hdone]
  · rw [retryBackoffFunc_sleep]

/-- C12, at sample inputs: a cancellation after one second of a sleep of two
minutes returns the error at once; a cancellation after three minutes comes
too late. -/
theorem C12_witness :
    retryBackoffFunc minInt64 (some ⟨some 1000000000⟩) false (some "too many requests") 1 =
      ⟨some "too many requests", 1000000000⟩ ∧
    retryBackoffFunc minInt64 (some ⟨some 180000000000⟩) true (some "too many requests") 1 =
      ⟨none, 120000000000⟩ :=
  ⟨(C12_retryBackoffFunc_cancellation minInt64 false (some "too many requests") 1).1
      ⟨some 1000000000⟩ 1000000000 rfl (by decide),
    (C12_retryBackoffFunc_cancellation minInt64 true (some "too many requests") 1).2.1
      ⟨some 180000000000⟩ 180000000000 rfl (by decide)⟩

/-- C13: with `MaxRetries` at least 0, no token, AK/SK not both set, a
password and neither `Username` nor `UserID`, `LoadAndValidate` returns the
validation error; the run only logs that the password arm is entered, so no
client builder is called, and `HwClient`, `DomainClient` and
`RegionProjectIDMap` (the whole `Config`) are as before. -/
theorem C13_password_without_user_fails_before_any_client (env : Env) (s : St)
    (hretries : 0 ≤ s.c.MaxRetries) (htoken : s.c.Token = "")
    (haksk : ¬ (s.c.AccessKey ≠ "" ∧ s.c.SecretKey ≠ ""))
    (hpassword : s.c.Password ≠ "") (husername : s.c.Username = "") (huserid : s.c.UserID = "") :
    LoadAndValidate env s =
      (Outcome.ret (some "\"password\": one of `user_name, user_id` must be specified"),
        { s with trace := s.trace ++ [Event.branch Branch.password] }) ∧
    (∀ f, Event.call f ∉ (LoadAndValidate env s).2.trace.drop s.trace.length) ∧
    (LoadAndValidate env s).2.c.HwClient = s.c.HwClient ∧
    (LoadAndValidate env s).2.c.DomainClient = s.c.DomainClient ∧
    (LoadAndValidate env s).2.c.RegionProjectIDMap = s.c.RegionProjectIDMap := by
  have main : LoadAndValidate env s =
      (Outcome.ret (some "\"password\": one of `user_name, user_id` must be specified"),
        { s with trace := s.trace ++ [Event.branch Branch.password] }) := by
    unfold LoadAndValidate
    simp only [bind_run, getC_run, if_neg (not_lt.mpr hretries), htoken, ne_eq, not_true_eq_false,
      if_false]
    rw [if_neg haksk, if_pos hpassword]
    simp only [bind_run, logEvent_run, husername, huserid, and_self, if_true, pure_run]
  refine ⟨main, ?_, ?_, ?_, ?_⟩
  · intro f
    rw [main]
    simp
  · rw [main]
  · rw [main]
  · rw [main]

/-- C13, at a sample input: a configuration with only a password. -/
theorem C13_witness :
    (LoadAndValidate sampleEnv ⟨passwordOnlyConfig, []⟩).1 =
      Outcome.ret (some "\"password\": one of `user_name, user_id` must be specified") ∧
    (LoadAndValidate sampleEnv ⟨passwordOnlyConfig, []⟩).2 =
      ⟨passwordOnlyConfig, [Event.branch Branch.password]⟩ :=
  have h := (C13_password_without_user_fails_before_any_client sampleEnv ⟨passwordOnlyConfig, []⟩
    (by decide) (by decide) (by decide) (by decide) (by decide) (by decide)).1
  ⟨congrArg Prod.fst h, congrArg Prod.snd h⟩

/-- C14: for a service name that the static catalog does not hold,
`NewServiceClient` returns an error and no client; the state is as before, so
no event is logged (the expiry check is not reached, no refresh is made) and
no field of the `Config` is changed. -/
theorem C14_unknown_service_fails_before_expiry_check (env : Env) (srv region : String) (s : St)
    (hsrv : env.allServiceCatalog.lookup srv = none) :
    NewServiceClient env srv region s =
      (Outcome.ret (Except.error ("service type " ++ srv ++ " is invalid or not supportted")), s) ∧
    reloadCalls (NewServiceClient env srv region s).2.trace = reloadCalls s.trace ∧
    (NewServiceClient env srv region s).2.c = s.c := by
  have main : NewServiceClient env srv region s =
      (Outcome.ret (Except.error ("service type " ++ srv ++ " is invalid or not supportted")), s) := by
    unfold NewServiceClient
    simp only [hsrv]
    rfl
  exact ⟨main, by rw [main], by rw [main]⟩

/-- C14, at a sample input: the sample catalog has no service `nosuch`; the
credential of `expiringConfig` is about to expire, and still no refresh is
made. -/
theorem C14_witness :
    sampleEnv.allServiceCatalog.lookup "nosuch" = none ∧
    NewServiceClient sampleEnv "nosuch" "r1" ⟨expiringConfig, []⟩ =
      (Outcome.ret (Except.error "service type nosuch is invalid or not supportted"),
        ⟨expiringConfig, []⟩) :=
  ⟨by decide, (C14_unknown_service_fails_before_expiry_check sampleEnv "nosuch" "r1"
    ⟨expiringConfig, []⟩ (by decide)).1⟩

/-- C15: for a supported service with an endpoint override, every requested
region and a `Config` that has authenticated (both identity clients are set),
`NewServiceClient` skips the region and project resolution: it never returns
an error and its result is the same for every region, whatever
`Config.Region`, the access key and the secret key are; it makes no project
lookup and leaves `RegionProjectIDMap` unchanged; every client it returns has
the override as `Endpoint`; and it returns such a client unless the expiry
check that precedes the construction panics. -/
theorem C15_override_skips_project_resolution (env : Env) (srv region : String)
    (catalog : ServiceCatalog) (endpoint : String) (s : St)
    (hsrv : env.allServiceCatalog.lookup srv = some catalog)
    (hover : s.c.Endpoints.lookup srv = some endpoint)
    (hhw : s.c.HwClient ≠ none) (hdc : s.c.DomainClient ≠ none) :
    (∀ err, (NewServiceClient env srv region s).1 ≠ Outcome.ret (Except.error err)) ∧
    (∀ other, NewServiceClient env srv other s = NewServiceClient env srv region s) ∧
    projectLookups (NewServiceClient env srv region s).2.trace = projectLookups s.trace ∧
    (NewServiceClient env srv region s).2.c.RegionProjectIDMap = s.c.RegionProjectIDMap ∧
    (∀ sc, (NewServiceClient env srv region s).1 = Outcome.ret (Except.ok sc) →
      sc.Endpoint = endpoint) ∧
    ((∀ p, (refreshIfExpiring env s).1 ≠ Outcome.panic p) →
      ∃ sc, (NewServiceClient env srv region s).1 = Outcome.ret (Except.ok sc) ∧
        sc.Endpoint = endpoint) ∧
    (∀ p, (NewServiceClient env srv region s).1 = Outcome.panic p →
      (refreshIfExpiring env s).1 = Outcome.panic p) := by
  obtain ⟨h1, h2, h3, h4, h5, h6⟩ :=
    NewServiceClient_override_facts env srv region catalog endpoint s hsrv hover
  refine ⟨h1, h5, h2, h3, h4, h6 hhw hdc, ?_⟩
  intro p hp
  have hrun := NewServiceClient_override_run env srv region catalog endpoint s hsrv hover
  cases h : refreshIfExpiring env s with
  | mk o s1 =>
    cases o with
    | panic q =>
      rw [hrun, h] at hp
      simpa using hp
    | ret a =>
      have hnone : ∀ q, (refreshIfExpiring env s).1 ≠ Outcome.panic q := by
        intro q hq
        rw [h] at hq
        cases hq
      obtain ⟨sc, hsc, _⟩ := h6 hhw hdc hnone
      rw [hsc] at hp
      cases hp

/-- C15, at a sample input: `overrideTokenConfig` has a token, no AK/SK, the
region `r1` and an endpoint override for `vpc`; after `LoadAndValidate` has
authenticated it, a client for `vpc` in another region is built at the
override. -/
theorem C15_witness :
    sampleEnv.allServiceCatalog.lookup "vpc" = some { Name := "vpc", Version := "v1" } ∧
    (LoadAndValidate sampleEnv ⟨overrideTokenConfig, []⟩).1 = Outcome.ret none ∧
    (LoadAndValidate sampleEnv ⟨overrideTokenConfig, []⟩).2.c.Endpoints.lookup "vpc" =
      some "https://vpc.example.org/" ∧
    (LoadAndValidate sampleEnv ⟨overrideTokenConfig, []⟩).2.c.HwClient ≠ none ∧
    (LoadAndValidate sampleEnv ⟨overrideTokenConfig, []⟩).2.c.DomainClient ≠ none ∧
    ∃ sc, (NewServiceClient sampleEnv "vpc" "another-region"
        (LoadAndValidate sampleEnv ⟨overrideTokenConfig, []⟩).2).1 =
        Outcome.ret (Except.ok sc) ∧ sc.Endpoint = "https://vpc.example.org/" :=
  ⟨by decide, rfl, by decide, by decide, by decide,
    (C15_override_skips_project_resolution sampleEnv "vpc" "another-region"
      { Name := "vpc", Version := "v1" } "https://vpc.example.org/"
      (LoadAndValidate sampleEnv ⟨overrideTokenConfig, []⟩).2 (by decide) (by decide)
      (by decide) (by decide)).2.2.2.2.2.1 (fun p h => by cases h)⟩

/-- C16: a run of `NewServiceClient` that makes no credential refresh leaves
`Config.HwClient` and `Config.DomainClient` as they were, so also their
`ProjectID`, `AKSKAuthOptions.ProjectId` and `AKSKAuthOptions.Region`; the
client it returns by name holds a copy of the shared identity client in which
these three fields are the resolved project ID and the requested region. -/
theorem C16_service_client_leaves_identity_clients (env : Env) (srv region : String) (s : St)
    (hnorefresh : reloadCalls (NewServiceClient env srv region s).2.trace = reloadCalls s.trace) :
    (NewServiceClient env srv region s).2.c.HwClient = s.c.HwClient ∧
    (NewServiceClient env srv region s).2.c.DomainClient = s.c.DomainClient ∧
    (∀ catalog sc, env.allServiceCatalog.lookup srv = some catalog →
      s.c.Endpoints.lookup srv = none →
      (NewServiceClient env srv region s).1 = Outcome.ret (Except.ok sc) →
      ∃ shared clone,
        (if catalog.Admin then s.c.DomainClient else s.c.HwClient) = some shared ∧
        sc.ProviderClient = some clone ∧
        clone.ProjectID =
          ((NewServiceClient env srv region s).2.c.RegionProjectIDMap.lookup region).getD "" ∧
        clone.AKSKAuthOptions.ProjectId = clone.ProjectID ∧
        clone.AKSKAuthOptions.Region = region ∧
        clone = { shared with
                  ProjectID := clone.ProjectID,
                  AKSKAuthOptions := { shared.AKSKAuthOptions with ProjectId := clone.ProjectID,
                                                                   Region := region } }) := by
  cases hsrv : env.allServiceCatalog.lookup srv with
  | none =>
    have main : NewServiceClient env srv region s =
        (Outcome.ret (Except.error ("service type " ++ srv ++ " is invalid or not supportted")), s) := by
      unfold NewServiceClient
      simp only [hsrv]
      rfl
    rw [main]
    exact ⟨rfl, rfl, fun catalog sc hcat => by cases hcat⟩
  | some catalog =>
    have hbuild := NewServiceClient_no_refresh env srv region catalog s hsrv hnorefresh
    rw [hbuild]
    have hframe : onlyProjectsChange s.c (buildServiceClient env srv region catalog s).2.c :=
      ((buildServiceClient_steps (A := fun _ => True) env srv region catalog onlyProjectsChange_frame
        (fun _ _ => trivial) (fun _ _ => rfl)).run s).2
    have hhw := congrArg Config.HwClient hframe
    have hdc := congrArg Config.DomainClient hframe
    refine ⟨hhw, hdc, ?_⟩
    intro catalog2 sc hcat hover hok
    injection hcat with hcat
    subst hcat
    have hby : buildServiceClient env srv region catalog s =
        newServiceClientByName env (if catalog.Admin then s.c.DomainClient else s.c.HwClient)
          catalog region s := by
      unfold buildServiceClient
      simp only [bind_run, getC_run, hover]
    rw [hby] at hok ⊢
    obtain ⟨pc, hclient, _, hsc⟩ := newServiceClientByName_ok env _ catalog region s sc hok
    rw [hsc]
    exact ⟨pc,
      { pc with
        ProjectID := ((newServiceClientByName env (if catalog.Admin then s.c.DomainClient
          else s.c.HwClient) catalog region s).2.c.RegionProjectIDMap.lookup region).getD "",
        AKSKAuthOptions :=
          { pc.AKSKAuthOptions with
            ProjectId := ((newServiceClientByName env (if catalog.Admin then s.c.DomainClient
              else s.c.HwClient) catalog region s).2.c.RegionProjectIDMap.lookup region).getD "",
            Region := region } },
      hclient, rfl, rfl, rfl, rfl, rfl⟩

/-- C16, at a sample input: a client for `vpc` in the region `r2`, built from
`akskConfig`, whose credentials do not expire. -/
theorem C16_witness :
    reloadCalls (NewServiceClient sampleEnv "vpc" "r2" ⟨akskConfig, []⟩).2.trace = reloadCalls [] ∧
    (NewServiceClient sampleEnv "vpc" "r2" ⟨akskConfig, []⟩).2.c.HwClient = akskConfig.HwClient ∧
    (NewServiceClient sampleEnv "vpc" "r2" ⟨akskConfig, []⟩).2.c.DomainClient =
      akskConfig.DomainClient :=
  ⟨by decide,
    (C16_service_client_leaves_identity_clients sampleEnv "vpc" "r2" ⟨akskConfig, []⟩ (by decide)).1,
    (C16_service_client_leaves_identity_clients sampleEnv "vpc" "r2" ⟨akskConfig, []⟩ (by decide)).2.1⟩

/-- C17, where the code departs from it: the listing of `duplicateNameEnv`
returns the projects `pa` and `pb`, both named `r2`; after `loadUserProjects`
the key `r2` is mapped to `pb`, the later of the two, and not to the ID of
the first item of the list. -/
theorem C17_counterexample :
    akskConfig.RegionProjectIDMap.lookup "r2" = none ∧
    duplicateNameEnv.projectsList 1 { Endpoint := "/", ProviderClient := some { DomainID := "d1" } }
      "d1" "r2" = Listing.items [⟨"pa", "r2"⟩, ⟨"pb", "r2"⟩] ∧
    (loadUserProjects duplicateNameEnv (some { DomainID := "d1" }) "r2" ⟨akskConfig, []⟩).1 =
      Outcome.ret none ∧
    (loadUserProjects duplicateNameEnv (some { DomainID := "d1" }) "r2"
      ⟨akskConfig, []⟩).2.c.RegionProjectIDMap.lookup "r2" = some "pb" := by
  refine ⟨by decide, rfl, rfl, ?_⟩
  decide

/-- C17, amended: when the project-list query returns a non-empty list,
`loadUserProjects` returns nil and afterwards `RegionProjectIDMap[item.Name]`
is `item.ID` for every item of the list that no later item shares its name
with, so for every item when the names are pairwise distinct; every key that
is not the name of an item keeps its previous value. -/
theorem C17_amended_loadUserProjects_inserts_every_pair (env : Env) (pc : ProviderClient)
    (region : String) (s : St) (all : List Entity)
    (hquery : env.projectsList (s.trace.length + 1)
      { Endpoint := s.c.IdentityEndpoint ++ "/", ProviderClient := some pc } pc.DomainID region =
        Listing.items all)
    (hnonempty : all ≠ []) :
    (loadUserProjects env (some pc) region s).1 = Outcome.ret none ∧
    (∀ pre item post, all = pre ++ item :: post → (∀ x ∈ post, x.Name ≠ item.Name) →
      (loadUserProjects env (some pc) region s).2.c.RegionProjectIDMap.lookup item.Name =
        some item.ID) ∧
    ((all.map (fun item => item.Name)).Nodup → ∀ item ∈ all,
      (loadUserProjects env (some pc) region s).2.c.RegionProjectIDMap.lookup item.Name =
        some item.ID) ∧
    (∀ k, (∀ item ∈ all, item.Name ≠ k) →
      (loadUserProjects env (some pc) region s).2.c.RegionProjectIDMap.lookup k =
        s.c.RegionProjectIDMap.lookup k) := by
  have hlen : ¬ all.length = 0 := fun h => hnonempty (List.length_eq_zero.mp h)
  rw [loadUserProjects_run env pc region s, hquery]
  simp only [if_neg hlen]
  refine ⟨trivial, ?_, ?_, ?_⟩
  · intro pre item post hall hlast
    subst hall
    exact lookup_foldl_mapInsert_last pre post item _ hlast
  · intro hnodup item hmem
    exact lookup_foldl_mapInsert_nodup all _ hnodup item hmem
  · intro k hk
    exact lookup_foldl_mapInsert_other k all _ hk

/-- C17 as amended, at a sample input: the listing of the sample world for
`r2` returns one project, which is then mapped to its ID. -/
theorem C17_witness :
    sampleEnv.projectsList 1 { Endpoint := "/", ProviderClient := some { DomainID := "d1" } }
      "d1" "r2" = Listing.items [⟨"project-of-r2", "r2"⟩] ∧
    (loadUserProjects sampleEnv (some { DomainID := "d1" }) "r2"
      ⟨akskConfig, []⟩).2.c.RegionProjectIDMap.lookup "r2" = some "project-of-r2" :=
  ⟨rfl, (C17_amended_loadUserProjects_inserts_every_pair sampleEnv { DomainID := "d1" } "r2"
    ⟨akskConfig, []⟩ [⟨"project-of-r2", "r2"⟩] rfl (by decide)).2.2.1 (by decide)
    ⟨"project-of-r2", "r2"⟩ (List.mem_singleton.mpr rfl)⟩

/-- C18: when `RegionProjectIDMap` holds an entry for the requested region,
`newServiceClientByName` leaves the state as it is, so it logs no call of
`loadUserProjects` (no remote project query) and `RegionProjectIDMap` is
unchanged, and the client it returns carries the stored project ID; after a
request that looked up the projects, every name of the returned list (the
requested region and its siblings) is in the map, so a later request for it,
by whatever client and catalog entry, leaves the state as it is too. -/
theorem C18_cached_region_needs_no_query (env : Env) (client : Option ProviderClient)
    (catalog : ServiceCatalog) (region : String) (s : St) :
    (∀ projectID, s.c.RegionProjectIDMap.lookup region = some projectID →
      (newServiceClientByName env client catalog region s).2 = s ∧
      ∀ sc, (newServiceClientByName env client catalog region s).1 = Outcome.ret (Except.ok sc) →
        ∃ clone, sc.ProviderClient = some clone ∧ clone.ProjectID = projectID ∧
          clone.AKSKAuthOptions.ProjectId = projectID) ∧
    (∀ pc all, client = some pc → s.c.RegionProjectIDMap.lookup region = none →
      catalog.Name ≠ "" → (region = s.c.Region ∨ (s.c.AccessKey ≠ "" ∧ s.c.SecretKey ≠ "")) →
      env.projectsList (s.trace.length + 1)
        { Endpoint := s.c.IdentityEndpoint ++ "/", ProviderClient := some pc } pc.DomainID region =
          Listing.items all →
      all ≠ [] →
      ∀ item ∈ all, ∀ client2 catalog2,
        (newServiceClientByName env client2 catalog2 item.Name
          (newServiceClientByName env client catalog region s).2).2 =
            (newServiceClientByName env client catalog region s).2) := by
  constructor
  · intro projectID hlk
    rw [newServiceClientByName_hit env client catalog region projectID s hlk]
    by_cases hname : catalog.Name = ""
    · rw [if_pos hname]
      exact ⟨rfl, fun sc he => by cases he⟩
    · rw [if_neg hname]
      by_cases hg : region ≠ s.c.Region ∧ (s.c.AccessKey = "" ∨ s.c.SecretKey = "")
      · rw [if_pos hg]
        exact ⟨rfl, fun sc he => by cases he⟩
      · rw [if_neg hg]
        cases client with
        | none => exact ⟨rfl, fun sc he => by cases he⟩
        | some pc =>
          refine ⟨rfl, ?_⟩
          intro sc he
          injection he with he
          injection he with he
          rw [← he]
          exact ⟨_, rfl, rfl, rfl⟩
  · intro pc all hclient hmiss hname hguard hquery hnonempty item hmem client2 catalog2
    subst hclient
    have hlen : ¬ all.length = 0 := fun h => hnonempty (List.length_eq_zero.mp h)
    have hfirst : (newServiceClientByName env (some pc) catalog region s).2 =
        { c := { s.c with RegionProjectIDMap :=
                   all.foldl (fun m item => mapInsert m item.Name item.ID) s.c.RegionProjectIDMap },
          trace := s.trace ++ [Event.call Fn.loadUserProjects] } := by
      rw [newServiceClientByName_miss env (some pc) catalog region s hname hguard hmiss,
        loadUserProjects_run env pc region s, hquery]
      simp only [if_neg hlen]
    rw [hfirst]
    obtain ⟨p, hp⟩ := lookup_foldl_mapInsert item.Name all s.c.RegionProjectIDMap
      (Or.inl ⟨item, hmem, rfl⟩)
    rw [newServiceClientByName_hit env client2 catalog2 item.Name p _ hp]
    by_cases hname2 : catalog2.Name = ""
    · rw [if_pos hname2]
    · rw [if_neg hname2]
      split
      · rfl
      · cases client2 <;> rfl

/-- C18, at a sample input: `akskConfig` holds the project of `r1`; the client
for `vpc` in `r1` is built without a change of the state and carries `p1`. -/
theorem C18_witness :
    akskConfig.RegionProjectIDMap.lookup "r1" = some "p1" ∧
    (newServiceClientByName sampleEnv akskConfig.HwClient { Name := "vpc", Version := "v1" } "r1"
      ⟨akskConfig, []⟩).2 = ⟨akskConfig, []⟩ :=
  ⟨by decide, ((C18_cached_region_needs_no_query sampleEnv akskConfig.HwClient
    { Name := "vpc", Version := "v1" } "r1" ⟨akskConfig, []⟩).1 "p1" (by decide)).1⟩

/-- C19: for a region that is not in `RegionProjectIDMap` (and, for
`newServiceClientByName`, a catalog entry with a name and a region that
passes the region test, without which no query is made), when the
project-list query fails (in the request or in the extraction) or returns no
project, `loadUserProjects` returns an error, `newServiceClientByName` returns
that same error and no client, and the `Config`, so `RegionProjectIDMap`, is
left as it was; the run only logs the call of `loadUserProjects`. -/
theorem C19_failed_project_query_is_returned (env : Env) (pc : ProviderClient)
    (catalog : ServiceCatalog) (region : String) (s : St)
    (hmiss : s.c.RegionProjectIDMap.lookup region = none)
    (hname : catalog.Name ≠ "")
    (hguard : region = s.c.Region ∨ (s.c.AccessKey ≠ "" ∧ s.c.SecretKey ≠ ""))
    (hquery :
      (∃ msg, env.projectsList (s.trace.length + 1)
        { Endpoint := s.c.IdentityEndpoint ++ "/", ProviderClient := some pc } pc.DomainID region =
          Listing.pagesError msg) ∨
      (∃ msg, env.projectsList (s.trace.length + 1)
        { Endpoint := s.c.IdentityEndpoint ++ "/", ProviderClient := some pc } pc.DomainID region =
          Listing.extractError msg) ∨
      env.projectsList (s.trace.length + 1)
        { Endpoint := s.c.IdentityEndpoint ++ "/", ProviderClient := some pc } pc.DomainID region =
          Listing.items []) :
    ∃ err,
      loadUserProjects env (some pc) region s =
        (Outcome.ret (some err), { s with trace := s.trace ++ [Event.call Fn.loadUserProjects] }) ∧
      newServiceClientByName env (some pc) catalog region s =
        (Outcome.ret (Except.error err),
          { s with trace := s.trace ++ [Event.call Fn.loadUserProjects] }) ∧
      (loadUserProjects env (some pc) region s).2.c.RegionProjectIDMap = s.c.RegionProjectIDMap ∧
      (newServiceClientByName env (some pc) catalog region s).2.c.RegionProjectIDMap =
        s.c.RegionProjectIDMap := by
  have key : ∀ err, loadUserProjects env (some pc) region s =
      (Outcome.ret (some err), { s with trace := s.trace ++ [Event.call Fn.loadUserProjects] }) →
      newServiceClientByName env (some pc) catalog region s =
        (Outcome.ret (Except.error err),
          { s with trace := s.trace ++ [Event.call Fn.loadUserProjects] }) := by
    intro err hload
    rw [newServiceClientByName_miss env (some pc) catalog region s hname hguard hmiss, hload]
  have fin : ∀ err, loadUserProjects env (some pc) region s =
      (Outcome.ret (some err), { s with trace := s.trace ++ [Event.call Fn.loadUserProjects] }) →
      ∃ err,
        loadUserProjects env (some pc) region s =
          (Outcome.ret (some err), { s with trace := s.trace ++ [Event.call Fn.loadUserProjects] }) ∧
        newServiceClientByName env (some pc) catalog region s =
          (Outcome.ret (Except.error err),
            { s with trace := s.trace ++ [Event.call Fn.loadUserProjects] }) ∧
        (loadUserProjects env (some pc) region s).2.c.RegionProjectIDMap = s.c.RegionProjectIDMap ∧
        (newServiceClientByName env (some pc) catalog region s).2.c.RegionProjectIDMap =
          s.c.RegionProjectIDMap := by
    intro err hload
    exact ⟨err, hload, key err hload, by rw [hload], by rw [key err hload]⟩
  have hrun := loadUserProjects_run env pc region s
  rcases hquery with ⟨msg, hq⟩ | ⟨msg, hq⟩ | hq
  · rw [hq] at hrun
    exact fin _ hrun
  · rw [hq] at hrun
    exact fin _ hrun
  · rw [hq] at hrun
    exact fin _ hrun

/-- C19, at a sample input: in `noProjectEnv` the listing for `r2` is empty;
the client for `vpc` in `r2` is refused with the error of `loadUserProjects`
and the map of `akskConfig` is as before. -/
theorem C19_witness :
    akskConfig.RegionProjectIDMap.lookup "r2" = none ∧
    ∃ err,
      loadUserProjects noProjectEnv (some { ProjectID := "p1", DomainID := "d1" }) "r2"
          ⟨akskConfig, []⟩ =
        (Outcome.ret (some err), ⟨akskConfig, [Event.call Fn.loadUserProjects]⟩) ∧
      newServiceClientByName noProjectEnv (some { ProjectID := "p1", DomainID := "d1" })
          { Name := "vpc", Version := "v1" } "r2" ⟨akskConfig, []⟩ =
        (Outcome.ret (Except.error err), ⟨akskConfig, [Event.call Fn.loadUserProjects]⟩) :=
  ⟨by decide,
    match C19_failed_project_query_is_returned noProjectEnv { ProjectID := "p1", DomainID := "d1" }
      { Name := "vpc", Version := "v1" } "r2" ⟨akskConfig, []⟩ (by decide) (by decide)
      (Or.inr ⟨by decide, by decide⟩) (Or.inr (Or.inr rfl)) with
    | ⟨err, h1, h2, _⟩ => ⟨err, h1, h2⟩⟩

/-- C20, where the code departs from it: `akskConfig` holds the project `p1`
for `r1` and nothing for `r2`; the listing of `overwritingEnv` for `r2` also
returns a project `p7` named `r1`, and after `newServiceClientByName` for
`r2` the key `r1` is mapped to `p7`.  In the same way `LoadAndValidate`
replaces the project `p0` that `staleProjectConfig` holds for its region by
the project `p1` of the authenticated client. -/
theorem C20_counterexample :
    akskConfig.RegionProjectIDMap.lookup "r1" = some "p1" ∧
    (newServiceClientByName overwritingEnv akskConfig.HwClient { Name := "vpc", Version := "v1" } "r2"
      ⟨akskConfig, []⟩).2.c.RegionProjectIDMap.lookup "r1" = some "p7" ∧
    staleProjectConfig.RegionProjectIDMap.lookup "r1" = some "p0" ∧
    (LoadAndValidate sampleEnv ⟨staleProjectConfig, []⟩).2.c.RegionProjectIDMap.lookup "r1" =
      some "p1" := by
  refine ⟨by decide, ?_, by decide, ?_⟩
  · decide
  · decide

/-- C20, amended: entries of `RegionProjectIDMap` are never evicted: after
`LoadAndValidate`, `newServiceClientByName` and `loadUserProjects` the map is
the map before with further pairs written in front of it, so every region key
that was present is still present; the key keeps its project ID when the
operation does not write it again, and holds the last ID written for it
otherwise. -/
theorem C20_amended_entries_are_never_evicted (env : Env) (client : Option ProviderClient)
    (catalog : ServiceCatalog) (region : String) (s : St) :
    (∃ written, (LoadAndValidate env s).2.c.RegionProjectIDMap = written ++ s.c.RegionProjectIDMap ∧
      ∀ k, (∀ w ∈ written, w.1 ≠ k) →
        (LoadAndValidate env s).2.c.RegionProjectIDMap.lookup k = s.c.RegionProjectIDMap.lookup k) ∧
    (∃ written, (newServiceClientByName env client catalog region s).2.c.RegionProjectIDMap =
        written ++ s.c.RegionProjectIDMap ∧
      ∀ k, (∀ w ∈ written, w.1 ≠ k) →
        (newServiceClientByName env client catalog region s).2.c.RegionProjectIDMap.lookup k =
          s.c.RegionProjectIDMap.lookup k) ∧
    (∃ written, (loadUserProjects env client region s).2.c.RegionProjectIDMap =
        written ++ s.c.RegionProjectIDMap ∧
      ∀ k, (∀ w ∈ written, w.1 ≠ k) →
        (loadUserProjects env client region s).2.c.RegionProjectIDMap.lookup k =
          s.c.RegionProjectIDMap.lookup k) ∧
    (∀ k p, s.c.RegionProjectIDMap.lookup k = some p →
      (∃ q, (LoadAndValidate env s).2.c.RegionProjectIDMap.lookup k = some q) ∧
      (∃ q, (newServiceClientByName env client catalog region s).2.c.RegionProjectIDMap.lookup k =
        some q) ∧
      (∃ q, (loadUserProjects env client region s).2.c.RegionProjectIDMap.lookup k = some q)) := by
  have h1 : mapGrows s.c (LoadAndValidate env s).2.c :=
    ((LoadAndValidate_logs env mapGrows_frame mapGrows_of_same_map mapGrows_insert).run s).2
  have h2 : mapGrows s.c (newServiceClientByName env client catalog region s).2.c :=
    ((newServiceClientByName_logs (A := fun _ => True) env client catalog region mapGrows_frame
      (fun _ _ => trivial) mapGrows_insert).run s).2
  have h3 : mapGrows s.c (loadUserProjects env client region s).2.c :=
    ((loadUserProjects_logs (A := fun _ => True) env client region mapGrows_frame
      (fun _ _ => trivial) mapGrows_insert).run s).2
  obtain ⟨w1, h1⟩ := h1
  obtain ⟨w2, h2⟩ := h2
  obtain ⟨w3, h3⟩ := h3
  refine ⟨⟨w1, h1, ?_⟩, ⟨w2, h2, ?_⟩, ⟨w3, h3, ?_⟩, ?_⟩
  · intro k hk
    rw [h1]
    exact lookup_append_other k w1 _ hk
  · intro k hk
    rw [h2]
    exact lookup_append_other k w2 _ hk
  · intro k hk
    rw [h3]
    exact lookup_append_other k w3 _ hk
  · intro k p hp
    rw [h1, h2, h3]
    exact ⟨lookup_append_present k p w1 _ hp, lookup_append_present k p w2 _ hp,
      lookup_append_present k p w3 _ hp⟩

/-- C20 as amended, at a sample input: the key `r1` of `akskConfig` is still
present after the request for `r2` in `overwritingEnv`. -/
theorem C20_witness :
    akskConfig.RegionProjectIDMap.lookup "r1" = some "p1" ∧
    ∃ q, (newServiceClientByName overwritingEnv akskConfig.HwClient
      { Name := "vpc", Version := "v1" } "r2" ⟨akskConfig, []⟩).2.c.RegionProjectIDMap.lookup "r1" =
        some q :=
  ⟨by decide, ((C20_amended_entries_are_never_evicted overwritingEnv akskConfig.HwClient
    { Name := "vpc", Version := "v1" } "r2" ⟨akskConfig, []⟩).2.2.2 "r1" "p1" (by decide)).2.1⟩

/-- C21, where the code departs from it: `bareOverrideConfig` has the endpoint
override `vpc.example.org` for `vpc`; `NewServiceClient` returns a client
whose `ResourceBase` is `vpc.example.orgv1/p1/`, which begins with no scheme
and whose first segment `v1` follows the endpoint without a separator. -/
theorem C21_counterexample :
    NewServiceClient sampleEnv "vpc" "r1" ⟨bareOverrideConfig, []⟩ =
      (Outcome.ret (Except.ok
        { ProviderClient := some { ProjectID := "p1", DomainID := "d1" },
          Endpoint := "vpc.example.org",
          ResourceBase := "vpc.example.orgv1/p1/" }), ⟨bareOverrideConfig, []⟩) ∧
    ¬ ∃ scheme rest, "vpc.example.orgv1/p1/" = scheme ++ "://" ++ rest := by
  refine ⟨rfl, ?_⟩
  rintro ⟨scheme, rest, h⟩
  have hmem : ':' ∈ (scheme ++ "://" ++ rest).data := by
    simp [String.data_append]
  rw [← h] at hmem
  revert hmem
  decide

/-- C21, amended: the `ResourceBase` of every client that `NewServiceClient`
returns is the `Endpoint` of the client followed by the version, the project
ID of the client and the fixed suffix, each followed by exactly one separator
and each only when applicable; it ends with the separator whenever a segment
follows the endpoint.  Built by name, the endpoint is `https://`, a host and
the separator, so the resource base begins with `https://` and ends with the
separator.  Built from an override, the endpoint is the override as it is
configured, and the resource base begins with it. -/
theorem C21_amended_resource_base_shape (env : Env) (srv region : String) (s : St)
    (sc : ServiceClient)
    (hok : (NewServiceClient env srv region s).1 = Outcome.ret (Except.ok sc)) :
    ∃ catalog, env.allServiceCatalog.lookup srv = some catalog ∧
      sc.ResourceBase =
        resourceBaseSpec sc.Endpoint catalog.Version
          ((sc.ProviderClient.map (fun pc => pc.ProjectID)).getD "")
          catalog.WithOutProjectID catalog.ResourceBase ∧
      ((catalog.Version ≠ "" ∨ catalog.WithOutProjectID = false ∨ catalog.ResourceBase ≠ "") →
        ∃ pre, sc.ResourceBase = pre ++ "/") ∧
      (s.c.Endpoints.lookup srv = none →
        (∃ host, sc.Endpoint = "https://" ++ host ++ "/") ∧
        (∃ rest, sc.ResourceBase = "https://" ++ rest) ∧
        ∃ pre, sc.ResourceBase = pre ++ "/") ∧
      (∀ endpoint, s.c.Endpoints.lookup srv = some endpoint →
        sc.Endpoint = endpoint ∧ ∃ rest, sc.ResourceBase = endpoint ++ rest) := by
  cases hsrv : env.allServiceCatalog.lookup srv with
  | none =>
    exfalso
    unfold NewServiceClient at hok
    simp only [hsrv] at hok
    cases hok
  | some catalog =>
    refine ⟨catalog, rfl, ?_⟩
    rw [NewServiceClient_run env srv region catalog s hsrv] at hok
    have hfr := ((refreshIfExpiring_overridesKept env).run s).2
    cases h : refreshIfExpiring env s with
    | mk o s1 =>
      rw [h] at hok hfr
      cases o with
      | panic p => cases hok
      | ret a =>
        dsimp only at hok
        rw [buildServiceClient_run, hfr.2.1] at hok
        cases hlk : s.c.Endpoints.lookup srv with
        | none =>
          rw [hlk] at hok
          dsimp only at hok
          obtain ⟨pc, _, _, hsc⟩ := newServiceClientByName_ok env _ catalog region s1 sc hok
          have hbase := assembleByName_resourceBase
            (newServiceClientByName env (if catalog.Admin then s1.c.DomainClient else s1.c.HwClient)
              catalog region s1).2.c pc catalog region
            (((newServiceClientByName env (if catalog.Admin then s1.c.DomainClient
              else s1.c.HwClient) catalog region s1).2.c.RegionProjectIDMap.lookup region).getD "")
          obtain ⟨host, hhost⟩ := assembleByName_endpoint
            (newServiceClientByName env (if catalog.Admin then s1.c.DomainClient else s1.c.HwClient)
              catalog region s1).2.c pc catalog region
            (((newServiceClientByName env (if catalog.Admin then s1.c.DomainClient
              else s1.c.HwClient) catalog region s1).2.c.RegionProjectIDMap.lookup region).getD "")
          rw [← hsc] at hbase hhost
          have hshape : sc.ResourceBase =
              resourceBaseSpec sc.Endpoint catalog.Version
                ((sc.ProviderClient.map (fun pc => pc.ProjectID)).getD "")
                catalog.WithOutProjectID catalog.ResourceBase := by
            rw [hbase, hsc]
            rfl
          refine ⟨hshape, ?_, ?_, ?_⟩
          · intro hseg
            rw [hshape]
            exact resourceBaseSpec_ends_with_separator _ _ _ _ _ hseg
          · intro _
            refine ⟨⟨host, hhost⟩, ?_, ?_⟩
            · obtain ⟨rest, hrest⟩ := resourceBaseSpec_begins_with_endpoint sc.Endpoint
                catalog.Version ((sc.ProviderClient.map (fun pc => pc.ProjectID)).getD "")
                catalog.WithOutProjectID catalog.ResourceBase
              exact ⟨host ++ "/" ++ rest, by rw [hshape, hrest, hhost]; simp only [String.append_assoc]⟩
            · rw [hshape, hhost]
              exact resourceBaseSpec_of_endpoint_with_separator _ _ _ _ _
          · intro endpoint he
            cases he
        | some endpoint =>
          rw [hlk] at hok
          dsimp only at hok
          rw [newServiceClientByEndpoint_run env _ srv endpoint catalog s1 hsrv] at hok
          have hshape : sc.Endpoint = endpoint ∧ sc.ResourceBase =
              resourceBaseSpec sc.Endpoint catalog.Version
                ((sc.ProviderClient.map (fun pc => pc.ProjectID)).getD "")
                catalog.WithOutProjectID catalog.ResourceBase := by
            cases hclient : (if catalog.Admin then s1.c.DomainClient else s1.c.HwClient) with
            | some pc =>
              rw [hclient] at hok
              dsimp only at hok
              injection hok with hok
              injection hok with hok
              rw [← hok]
              exact ⟨rfl, assembleByEndpoint_resourceBase _ catalog endpoint pc.ProjectID⟩
            | none =>
              rw [hclient] at hok
              dsimp only at hok
              cases hw : catalog.WithOutProjectID with
              | false =>
                rw [hw] at hok
                simp only [if_true] at hok
                cases hok
              | true =>
                rw [hw] at hok
                simp only [Bool.true_eq_false, if_false] at hok
                injection hok with hok
                injection hok with hok
                rw [← hok]
                refine ⟨rfl, ?_⟩
                rw [assembleByEndpoint_resourceBase]
                simp [resourceBaseSpec, hw, assembleByEndpoint]
          refine ⟨hshape.2, ?_, ?_, ?_⟩
          · intro hseg
            rw [hshape.2]
            exact resourceBaseSpec_ends_with_separator _ _ _ _ _ hseg
          · intro hnone
            cases hnone
          · intro e he
            injection he with he
            subst he
            refine ⟨hshape.1, ?_⟩
            rw [hshape.2, hshape.1]
            exact resourceBaseSpec_begins_with_endpoint _ _ _ _ _

/-- C21 as amended, at a sample input: the client for `vpc` in `r1` built by
name from `akskConfig`. -/
theorem C21_witness :
    (NewServiceClient sampleEnv "vpc" "r1" ⟨akskConfig, []⟩).1 =
      Outcome.ret (Except.ok
        { ProviderClient := some { ProjectID := "p1", DomainID := "d1",
                                   AKSKAuthOptions := { ProjectId := "p1", Region := "r1" } },
          Endpoint := "https://vpc.r1.example.com/",
          ResourceBase := "https://vpc.r1.example.com/v1/p1/" }) ∧
    ∃ catalog, sampleEnv.allServiceCatalog.lookup "vpc" = some catalog ∧
      "https://vpc.r1.example.com/v1/p1/" =
        resourceBaseSpec "https://vpc.r1.example.com/" catalog.Version "p1"
          catalog.WithOutProjectID catalog.ResourceBase :=
  ⟨rfl,
    match C21_amended_resource_base_shape sampleEnv "vpc" "r1" ⟨akskConfig, []⟩
      { ProviderClient := some { ProjectID := "p1", DomainID := "d1",
                                 AKSKAuthOptions := { ProjectId := "p1", Region := "r1" } },
        Endpoint := "https://vpc.r1.example.com/",
        ResourceBase := "https://vpc.r1.example.com/v1/p1/" } rfl with
    | ⟨catalog, h1, h2, _⟩ => ⟨catalog, h1, h2⟩⟩

/-- C22: once the shared config file is read, `buildClientByConfig` selects
the first profile of the list whose name is `Config.Profile`, or the field
`current` of the file when `Config.Profile` is empty.  When no profile has
that name, and when the mode of the selected profile is not `AKSK`, it returns
an error and the `Config` (so `AccessKey`, `SecretKey`, `Region`, `DomainID`
and `TenantID`) is as before.  For a profile of the mode `AKSK` the access key
and the secret key of the `Config` are afterwards those of the profile, and
`Region`, `DomainID` and `TenantID` are the region, the domain ID and the
project ID of the profile where these are not empty and are as before where
they are empty. -/
theorem C22_buildClientByConfig_selects_profile (env : Env) (s : St) (path : String)
    (sharedConfig : SharedConfig)
    (hpath : env.homedirExpand s.c.SharedConfigFile = Except.ok path)
    (hfile : env.sharedFile (s.trace.length + 1) path = SharedFile.parsed sharedConfig) :
    findProfile (profileName s.c sharedConfig) sharedConfig.Profiles =
      (sharedConfig.Profiles.find? (fun v => decide (profileName s.c sharedConfig = v.Name))).getD {} ∧
    ((∀ v ∈ sharedConfig.Profiles, v.Name ≠ profileName s.c sharedConfig) →
      (∃ err, (buildClientByConfig env s).1 = Outcome.ret (some err)) ∧
      (buildClientByConfig env s).2.c = s.c) ∧
    ((findProfile (profileName s.c sharedConfig) sharedConfig.Profiles).Mode ≠ "AKSK" →
      (∃ err, (buildClientByConfig env s).1 = Outcome.ret (some err)) ∧
      (buildClientByConfig env s).2.c = s.c) ∧
    ((findProfile (profileName s.c sharedConfig) sharedConfig.Profiles).Mode = "AKSK" →
      (buildClientByConfig env s).2.c.AccessKey =
        (findProfile (profileName s.c sharedConfig) sharedConfig.Profiles).AccessKeyId ∧
      (buildClientByConfig env s).2.c.SecretKey =
        (findProfile (profileName s.c sharedConfig) sharedConfig.Profiles).SecretAccessKey ∧
      (buildClientByConfig env s).2.c.Region =
        (if (findProfile (profileName s.c sharedConfig) sharedConfig.Profiles).Region ≠ "" then
          (findProfile (profileName s.c sharedConfig) sharedConfig.Profiles).Region
        else s.c.Region) ∧
      (buildClientByConfig env s).2.c.DomainID =
        (if (findProfile (profileName s.c sharedConfig) sharedConfig.Profiles).DomainId ≠ "" then
          (findProfile (profileName s.c sharedConfig) sharedConfig.Profiles).DomainId
        else s.c.DomainID) ∧
      (buildClientByConfig env s).2.c.TenantID =
        (if (findProfile (profileName s.c sharedConfig) sharedConfig.Profiles).ProjectId ≠ "" then
          (findProfile (profileName s.c sharedConfig) sharedConfig.Profiles).ProjectId
        else s.c.TenantID)) := by
  have hrun := buildClientByConfig_run env s path sharedConfig hpath hfile
  have hmode : (findProfile (profileName s.c sharedConfig) sharedConfig.Profiles).Mode ≠ "AKSK" →
      (∃ err, (buildClientByConfig env s).1 = Outcome.ret (some err)) ∧
      (buildClientByConfig env s).2.c = s.c := by
    intro hm
    rw [hrun]
    by_cases h1 : findProfile (profileName s.c sharedConfig) sharedConfig.Profiles = {}
    · rw [if_pos h1]
      exact ⟨⟨_, rfl⟩, rfl⟩
    · rw [if_neg h1, if_neg hm]
      exact ⟨⟨_, rfl⟩, rfl⟩
  refine ⟨findProfile_eq_find _ _, ?_, hmode, ?_⟩
  · intro hnone
    apply hmode
    rw [findProfile_of_no_match _ _ hnone]
    decide
  · intro hm
    have h1 : findProfile (profileName s.c sharedConfig) sharedConfig.Profiles ≠ {} := by
      intro h
      rw [h] at hm
      exact absurd hm (by decide)
    rw [hrun, if_neg h1, if_pos hm]
    have hfr := ((buildClientByAKSK_logs (A := fun _ => True) env profileFieldsKept_frame
      (fun _ _ => trivial) (fun _ _ => ⟨rfl, rfl, rfl, rfl, rfl⟩)
      (fun _ _ => ⟨rfl, rfl, rfl, rfl, rfl⟩)).run
        { c :=
            (let providerConfig := findProfile (profileName s.c sharedConfig) sharedConfig.Profiles
             let c := { s.c with AccessKey := providerConfig.AccessKeyId,
                                 SecretKey := providerConfig.SecretAccessKey }
             let c := if providerConfig.Region ≠ "" then { c with Region := providerConfig.Region } else c
             let c := if providerConfig.DomainId ≠ "" then { c with DomainID := providerConfig.DomainId } else c
             if providerConfig.ProjectId ≠ "" then { c with TenantID := providerConfig.ProjectId } else c),
          trace := s.trace ++ [Event.call Fn.buildClientByConfig] }).2
    obtain ⟨hak, hsk, hreg, hdom, hten⟩ := hfr
    rw [hak, hsk, hreg, hdom, hten]
    by_cases c1 : (findProfile (profileName s.c sharedConfig) sharedConfig.Profiles).Region = "" <;>
      by_cases c2 : (findProfile (profileName s.c sharedConfig) sharedConfig.Profiles).DomainId = "" <;>
      by_cases c3 : (findProfile (profileName s.c sharedConfig) sharedConfig.Profiles).ProjectId = "" <;>
      simp [c1, c2, c3]

/-- C22, at a sample input: the file of `sharedFileEnv` names `default` as the
current profile; the first profile of that name is taken, and the region of
the `Config` becomes the one of the profile while `DomainID` and `TenantID`,
empty in the profile, stay. -/
theorem C22_witness :
    findProfile "default"
      [{ Name := "sso", Mode := "SSO" },
       { Name := "default", Mode := "AKSK", AccessKeyId := "AK9", SecretAccessKey := "SK9",
         Region := "r9" },
       { Name := "default", Mode := "AKSK", AccessKeyId := "AK8", SecretAccessKey := "SK8" }] =
      { Name := "default", Mode := "AKSK", AccessKeyId := "AK9", SecretAccessKey := "SK9",
        Region := "r9" } ∧
    (buildClientByConfig sharedFileEnv ⟨sharedFileConfig, []⟩).2.c.AccessKey = "AK9" ∧
    (buildClientByConfig sharedFileEnv ⟨sharedFileConfig, []⟩).2.c.SecretKey = "SK9" ∧
    (buildClientByConfig sharedFileEnv ⟨sharedFileConfig, []⟩).2.c.Region = "r9" ∧
    (buildClientByConfig sharedFileEnv ⟨sharedFileConfig, []⟩).2.c.DomainID = "d0" ∧
    (buildClientByConfig sharedFileEnv ⟨sharedFileConfig, []⟩).2.c.TenantID = "t0" :=
  ⟨by decide,
    (C22_buildClientByConfig_selects_profile sharedFileEnv ⟨sharedFileConfig, []⟩ "config.json"
      { Current := "default",
        Profiles :=
          [{ Name := "sso", Mode := "SSO" },
           { Name := "default", Mode := "AKSK", AccessKeyId := "AK9", SecretAccessKey := "SK9",
             Region := "r9" },
           { Name := "default", Mode := "AKSK", AccessKeyId := "AK8", SecretAccessKey := "SK8" }] }
      rfl rfl).2.2.2 (by decide)⟩

/-- C23, where the code departs from it: for `tokenConfig` in
`domainScopedEnv` the credential resolution succeeds, the region is `r1` and
`DomainID` is empty; the listing of the domains, whenever it is asked,
returns one domain, and no `DomainName` is configured.  Still `getDomainID`
fails: the authenticated client has no project ID, so the identity client
needs the project of `r1`, and the listing of the projects returns none.
`LoadAndValidate` returns nil and `DomainID` stays empty. -/
theorem C23_counterexample :
    (resolveCredentials domainScopedEnv ⟨tokenConfig, []⟩).1 = Outcome.ret none ∧
    (resolveCredentials domainScopedEnv ⟨tokenConfig, []⟩).2.c.Region = "r1" ∧
    (resolveCredentials domainScopedEnv ⟨tokenConfig, []⟩).2.c.DomainID = "" ∧
    (resolveCredentials domainScopedEnv ⟨tokenConfig, []⟩).2.c.DomainName = "" ∧
    (∀ n sc, domainScopedEnv.domainsList n sc = Listing.items [⟨"d1", "domain"⟩]) ∧
    (getDomainID domainScopedEnv
      ⟨withRegionProject (resolveCredentials domainScopedEnv ⟨tokenConfig, []⟩).2.c,
        (resolveCredentials domainScopedEnv ⟨tokenConfig, []⟩).2.trace⟩).1 =
      Outcome.ret (Except.error
        "Error creating IAM client: Wrong name or no access to the region: r1") ∧
    (LoadAndValidate domainScopedEnv ⟨tokenConfig, []⟩).1 = Outcome.ret none ∧
    (LoadAndValidate domainScopedEnv ⟨tokenConfig, []⟩).2.c.DomainID = "" := by
  refine ⟨rfl, by decide, by decide, by decide, fun _ _ => rfl, rfl, rfl, by decide⟩

/-- C23, amended: when the credential resolution of `LoadAndValidate` has
succeeded with a non-empty `Region` and an empty `DomainID`, and the expiry
check of the credentials does not panic, `LoadAndValidate` returns nil whether
`getDomainID` fails or not; `DomainID` stays empty when it fails and becomes
the ID it returns when it succeeds.  `getDomainID` fails exactly when the
identity client cannot be built or the listing of the domains fails, is empty
or begins with a domain whose name is not the configured `DomainName`; when it
succeeds, the ID is the one of the first listed domain. -/
theorem C23_amended_domain_inference_is_not_fatal (env : Env) (s0 s : St)
    (hretries : 0 ≤ s0.c.MaxRetries)
    (hcred : resolveCredentials env s0 = (Outcome.ret none, s))
    (hregion : s.c.Region ≠ "") (hdomain : s.c.DomainID = "")
    (hrefresh : ∀ t p, (refreshIfExpiring env t).1 ≠ Outcome.panic p) :
    (LoadAndValidate env s0).1 = Outcome.ret none ∧
    (∃ r, (getDomainID env ⟨withRegionProject s.c, s.trace⟩).1 = Outcome.ret r) ∧
    (∀ err, (getDomainID env ⟨withRegionProject s.c, s.trace⟩).1 = Outcome.ret (Except.error err) →
      (LoadAndValidate env s0).2.c.DomainID = "") ∧
    (∀ domainID,
      (getDomainID env ⟨withRegionProject s.c, s.trace⟩).1 = Outcome.ret (Except.ok domainID) →
      (LoadAndValidate env s0).2.c.DomainID = domainID) ∧
    (∀ t : St,
      match IdentityV3Client env t.c.Region { t with trace := t.trace ++ [Event.call Fn.getDomainID] } with
      | (Outcome.ret (Except.error err), _) =>
        (getDomainID env t).1 = Outcome.ret (Except.error ("Error creating IAM client: " ++ err))
      | (Outcome.ret (Except.ok identityClient), s1) =>
        (getDomainID env t).1 = Outcome.ret (domainFromListing s1.c (env.domainsList s1.trace.length
          { identityClient with ResourceBase := identityClient.ResourceBase ++ "auth/" }))
      | (Outcome.panic p, _) => (getDomainID env t).1 = Outcome.panic p) ∧
    (∀ c l, (∃ err, domainFromListing c l = Except.error err) ↔
      ((∃ msg, l = Listing.pagesError msg) ∨ (∃ msg, l = Listing.extractError msg) ∨
        l = Listing.items [] ∨
        ∃ first rest, l = Listing.items (first :: rest) ∧
          c.DomainName ≠ "" ∧ c.DomainName ≠ first.Name)) ∧
    (∀ c l domainID, domainFromListing c l = Except.ok domainID →
      ∃ first rest, l = Listing.items (first :: rest) ∧ domainID = first.ID) := by
  have hcl := (resolveCredentials_setsClients env).run s0 (by rw [hcred])
  rw [hcred] at hcl
  have hw := withRegionProject_fields s.c
  obtain ⟨r, s1, hg, hkept⟩ := getDomainID_returns env ⟨withRegionProject s.c, s.trace⟩ hrefresh
    (by rw [hw.1]; exact hcl.1) (by rw [hw.2.1]; exact hcl.2)
  have hhw1 : s1.c.HwClient ≠ none := hkept.1 (by rw [hw.1]; exact hcl.1)
  have hdc1 : s1.c.DomainClient ≠ none := hkept.2.1 (by rw [hw.2.1]; exact hcl.2)
  have hstart : LoadAndValidate env s0 =
      match getDomainID env { c := withRegionProject s.c, trace := s.trace } with
      | (Outcome.ret (Except.ok domainID), s1) =>
        match s1.c.DomainClient with
        | none =>
          (Outcome.panic "invalid memory address or nil pointer dereference",
            { s1 with c := { s1.c with DomainID := domainID } })
        | some dc => inferUserID env { s1 with c := adoptDomainID domainID dc s1.c }
      | (Outcome.ret (Except.error _), s1) => inferUserID env s1
      | (Outcome.panic p, s1) => (Outcome.panic p, s1) := by
    rw [LoadAndValidate_run env s0 hretries, hcred]
    exact afterCredentials_run env s hregion hdomain
  have hmain : (LoadAndValidate env s0).1 = Outcome.ret none ∧
      (∀ err, r = Except.error err → (LoadAndValidate env s0).2.c.DomainID = "") ∧
      (∀ domainID, r = Except.ok domainID → (LoadAndValidate env s0).2.c.DomainID = domainID) := by
    rw [hstart, hg]
    cases r with
    | error err =>
      obtain ⟨s2, hrun, hdom⟩ := inferUserID_returns env s1 hrefresh hhw1 hdc1
      dsimp only
      rw [hrun]
      refine ⟨rfl, ?_, ?_⟩
      · intro _ _
        dsimp only
        rw [hdom, hkept.2.2.2.1, hw.2.2.1, hdomain]
      · intro _ h
        cases h
    | ok domainID =>
      rcases Option.eq_none_or_eq_some s1.c.DomainClient with hnone | ⟨dc, hsome⟩
      · exact absurd hnone hdc1
      · have had := adoptDomainID_fields domainID dc s1.c
        obtain ⟨s2, hrun, hdom⟩ := inferUserID_returns env
          { s1 with c := adoptDomainID domainID dc s1.c } hrefresh
          (by rw [had.2.1]; exact hhw1) (had.2.2 hdc1)
        simp only [hsome]
        rw [hrun]
        refine ⟨rfl, ?_, ?_⟩
        · intro _ h
          cases h
        · intro d h
          injection h with h
          subst h
          dsimp only
          rw [hdom]
          exact had.1
  refine ⟨hmain.1, ⟨r, by rw [hg]⟩, ?_, ?_, ?_, domainFromListing_error,
    domainFromListing_ok⟩
  · intro err herr
    rw [hg] at herr
    injection herr with herr
    exact hmain.2.1 err herr
  · intro domainID hok
    rw [hg] at hok
    injection hok with hok
    exact hmain.2.2 domainID hok
  · intro t
    rw [getDomainID_run env t]
    cases IdentityV3Client env t.c.Region { t with trace := t.trace ++ [Event.call Fn.getDomainID] } with
    | mk o s2 =>
      cases o with
      | panic p => rfl
      | ret r2 => cases r2 <;> rfl

/-- C23 as amended, at a sample input: `tokenConfig` in the sample world with
a metadata endpoint that answers 500; the domain `d1` of the listing is
adopted. -/
theorem C23_witness :
    resolveCredentials failingMetadataEnv ⟨tokenConfig, []⟩ =
      (Outcome.ret none, (resolveCredentials failingMetadataEnv ⟨tokenConfig, []⟩).2) ∧
    (LoadAndValidate failingMetadataEnv ⟨tokenConfig, []⟩).1 = Outcome.ret none ∧
    (LoadAndValidate failingMetadataEnv ⟨tokenConfig, []⟩).2.c.DomainID = "d1" :=
  have h := C23_amended_domain_inference_is_not_fatal failingMetadataEnv ⟨tokenConfig, []⟩
    (resolveCredentials failingMetadataEnv ⟨tokenConfig, []⟩).2 (by decide) rfl (by decide)
    (by decide)
    (refreshIfExpiring_returns_of_no_document failingMetadataEnv
      (fun _ _ h => by injection h with h1 _; exact absurd h1 (by decide)))
  ⟨rfl, h.1, h.2.2.2.1 "d1" rfl⟩

/-- C24: `DataGetEnterpriseProjectID` returns the `enterprise_project_id` of
the resource when that is set to a string that is not empty; when it is unset
or empty it returns the `EnterpriseProjectID` of the provider when that is not
empty and `all_granted_eps` otherwise, so never the empty string. -/
theorem C24_DataGetEnterpriseProjectID (c : Config) (d : ResourceData) :
    (∀ s, d.attrs.lookup "enterprise_project_id" = some (JSON.str s) → s ≠ "" →
      DataGetEnterpriseProjectID c d = Outcome.ret s) ∧
    ((d.attrs.lookup "enterprise_project_id" = none ∨
        d.attrs.lookup "enterprise_project_id" = some (JSON.str "")) →
      (c.EnterpriseProjectID ≠ "" →
        DataGetEnterpriseProjectID c d = Outcome.ret c.EnterpriseProjectID) ∧
      (c.EnterpriseProjectID = "" →
        DataGetEnterpriseProjectID c d = Outcome.ret "all_granted_eps") ∧
      DataGetEnterpriseProjectID c d ≠ Outcome.ret "") := by
  constructor
  · intro s hs hne
    have hz : (s == "") = false := by simpa using hne
    simp [DataGetEnterpriseProjectID, ResourceData.GetOk, hs, JSON.isZero, hz, stringOf]
  · intro hunset
    have hrun : DataGetEnterpriseProjectID c d =
        if c.EnterpriseProjectID ≠ "" then Outcome.ret c.EnterpriseProjectID
        else Outcome.ret "all_granted_eps" := by
      rcases hunset with h | h
      · simp [DataGetEnterpriseProjectID, ResourceData.GetOk, h]
      · simp [DataGetEnterpriseProjectID, ResourceData.GetOk, h, JSON.isZero]
    rw [hrun]
    by_cases hp : c.EnterpriseProjectID ≠ ""
    · rw [if_pos hp]
      refine ⟨fun _ => rfl, fun h => absurd h hp, ?_⟩
      intro h
      injection h with h
      exact hp h
    · rw [if_neg hp]
      refine ⟨fun h => absurd h hp, fun _ => rfl, ?_⟩
      intro h
      injection h with h
      exact absurd h (by decide)

/-- C24, at a sample input: a data source without the attribute, under a
provider without an enterprise project. -/
theorem C24_witness :
    DataGetEnterpriseProjectID akskConfig {} = Outcome.ret "all_granted_eps" ∧
    DataGetEnterpriseProjectID akskConfig
      { attrs := [("enterprise_project_id", JSON.str "ep1")] } = Outcome.ret "ep1" :=
  ⟨((C24_DataGetEnterpriseProjectID akskConfig {}).2 (Or.inl rfl)).2.1 rfl,
    (C24_DataGetEnterpriseProjectID akskConfig
      { attrs := [("enterprise_project_id", JSON.str "ep1")] }).1 "ep1" rfl (by decide)⟩

/-- C26, where the code departs from it: on a response with the status 200
and a valid JSON body in which `credential.access` is the number 123,
`getAuthConfigByMeta` panics in the type assertion `accessKey.(string)`
instead of returning; the same happens in `expiresAt.(string)` when
`credential.expires_at` is `true`.  With four strings it returns nil. -/
theorem C26_non_string_credential_panics :
    getAuthConfigByMeta (typedCredentialEnv (JSON.num "123") (JSON.str "2001-09-09T01:46:40Z"))
        ⟨{ Region := "r1" }, []⟩ =
      (Outcome.panic "interface conversion: interface {} is not string",
        ⟨{ Region := "r1" }, [Event.call Fn.getAuthConfigByMeta]⟩) ∧
    getAuthConfigByMeta (typedCredentialEnv (JSON.str "AK2") (JSON.bool true))
        ⟨{ Region := "r1" }, []⟩ =
      (Outcome.panic "interface conversion: interface {} is not string",
        ⟨{ Region := "r1" }, [Event.call Fn.getAuthConfigByMeta]⟩) ∧
    (getAuthConfigByMeta (typedCredentialEnv (JSON.str "AK2") (JSON.str "2001-09-09T01:46:40Z"))
        ⟨{ Region := "r1" }, []⟩).1 = Outcome.ret none :=
  ⟨rfl, rfl, rfl⟩

/-- C27: when the authentication of the project-scoped client fails,
`genClients` returns the error and `HwClient` and `DomainClient` are as
before; when it succeeds and the authentication of the domain-scoped client
fails, `genClients` returns that error, `HwClient` is the new client and
`DomainClient` is as before; when both succeed it returns nil and both are
the new clients; and it returns nil only when both succeed. -/
theorem C27_genClients_updates_handles (env : Env) (pao dao : AuthOptionsProvider) (s : St) :
    (∀ err, env.authenticate (s.trace.length + 1) s.c pao = Except.error err →
      (genClients env pao dao s).1 = Outcome.ret (some err) ∧
      (genClients env pao dao s).2.c.HwClient = s.c.HwClient ∧
      (genClients env pao dao s).2.c.DomainClient = s.c.DomainClient) ∧
    (∀ client err, env.authenticate (s.trace.length + 1) s.c pao = Except.ok client →
      env.authenticate (s.trace.length + 2) { s.c with HwClient := some client } dao =
        Except.error err →
      (genClients env pao dao s).1 = Outcome.ret (some err) ∧
      (genClients env pao dao s).2.c.HwClient = some client ∧
      (genClients env pao dao s).2.c.DomainClient = s.c.DomainClient) ∧
    (∀ client domainClient, env.authenticate (s.trace.length + 1) s.c pao = Except.ok client →
      env.authenticate (s.trace.length + 2) { s.c with HwClient := some client } dao =
        Except.ok domainClient →
      (genClients env pao dao s).1 = Outcome.ret none ∧
      (genClients env pao dao s).2.c.HwClient = some client ∧
      (genClients env pao dao s).2.c.DomainClient = some domainClient) ∧
    ((genClients env pao dao s).1 = Outcome.ret none →
      ∃ client domainClient, env.authenticate (s.trace.length + 1) s.c pao = Except.ok client ∧
        env.authenticate (s.trace.length + 2) { s.c with HwClient := some client } dao =
          Except.ok domainClient) := by
  rw [genClients_run]
  refine ⟨?_, ?_, ?_, ?_⟩
  · intro err h1
    rw [h1]
    exact ⟨rfl, rfl, rfl⟩
  · intro client err h1 h2
    rw [h1]
    dsimp only
    rw [h2]
    exact ⟨rfl, rfl, rfl⟩
  · intro client domainClient h1 h2
    rw [h1]
    dsimp only
    rw [h2]
    exact ⟨rfl, rfl, rfl⟩
  · intro hnil
    cases h1 : env.authenticate (s.trace.length + 1) s.c pao with
    | error err =>
      rw [h1] at hnil
      cases hnil
    | ok client =>
      rw [h1] at hnil
      dsimp only at hnil
      cases h2 : env.authenticate (s.trace.length + 2) { s.c with HwClient := some client } dao with
      | error err =>
        rw [h2] at hnil
        cases hnil
      | ok domainClient => exact ⟨client, domainClient, rfl, h2⟩

/-- C27, at a sample input: in the sample world both authentications succeed
and both handles of `tokenConfig` are replaced. -/
theorem C27_witness :
    (genClients sampleEnv (AuthOptionsProvider.authOptions {}) (AuthOptionsProvider.authOptions {})
      ⟨tokenConfig, []⟩).1 = Outcome.ret none ∧
    (genClients sampleEnv (AuthOptionsProvider.authOptions {}) (AuthOptionsProvider.authOptions {})
      ⟨tokenConfig, []⟩).2.c.HwClient = some { ProjectID := "p1", DomainID := "d1" } ∧
    (genClients sampleEnv (AuthOptionsProvider.authOptions {}) (AuthOptionsProvider.authOptions {})
      ⟨tokenConfig, []⟩).2.c.DomainClient = some { ProjectID := "p1", DomainID := "d1" } :=
  (C27_genClients_updates_handles sampleEnv (AuthOptionsProvider.authOptions {})
    (AuthOptionsProvider.authOptions {}) ⟨tokenConfig, []⟩).2.2.1
    { ProjectID := "p1", DomainID := "d1" } { ProjectID := "p1", DomainID := "d1" } rfl rfl

/-- C28, as stated, fails: the ID `i1/a/b/pg_cron` splits into four parts,
but `resourceRdsPgPluginRead` builds its client before it looks at the ID;
for a resource in the region `r2`, with a `Config` that authenticated with a
token for `r1`, the client is refused and the function ends with the error of
the client, not with the error of the invalid ID format. -/
theorem C28_counterexample :
    (LoadAndValidate rdsCatalogEnv ⟨tokenConfig, []⟩).1 = Outcome.ret none ∧
    (stringsSplit "i1/a/b/pg_cron" '/').length = 4 ∧
    resourceRdsPgPluginRead rdsCatalogEnv sampleRds
        { attrs := [("region", JSON.str "r2")], id := "i1/a/b/pg_cron" }
        (LoadAndValidate rdsCatalogEnv ⟨tokenConfig, []⟩).2 =
      (Outcome.ret (ReadResult.clientError ("error creating RDS PG plugin client: " ++
        "Resource-level region must be the same as Provider-level region " ++
        "when using non AK/SK authentication if Resource-level region set")),
        (LoadAndValidate rdsCatalogEnv ⟨tokenConfig, []⟩).2) :=
  ⟨rfl, by decide, rfl⟩

/-- C28, amended: for an instance ID, a database name and a plugin name
without the separator, the ID that `resourceRdsPgPluginCreate` writes, the
three joined with the separator, splits at the separator into exactly these
three, in that order, and `resourceRdsPgPluginRead`, once its client is
built, queries the plugin with them.  For an ID that does not split into
exactly three parts, as the ID made of a component that contains the
separator, `resourceRdsPgPluginRead` fails: with the error of the invalid ID
format once its client is built, and with the error of the client when the
client cannot be built.  `resourceRdsPgPluginCreate`, when its query finds no
plugin and its request succeeds, writes the joined ID and hands over to
`resourceRdsPgPluginRead` with it, and no other ID is ever written. -/
theorem C28_amended_plugin_id_round_trip (env : Env) (rds : RdsEnv) (d : ResourceData) (s : St) :
    (∀ a b c : String, '/' ∉ a.data → '/' ∉ b.data → '/' ∉ c.data →
      stringsSplit (pluginID a b c) '/' = [a, b, c] ∧
      ∀ region client s1, d.id = pluginID a b c → GetRegion s.c d = Outcome.ret region →
        NewServiceClient env "rds" region s = (Outcome.ret (Except.ok client), s1) →
        resourceRdsPgPluginRead env rds d s =
          match queryPluginDetail rds client a b c s1 with
          | (Outcome.ret (Except.error err), s2) => (Outcome.ret (ReadResult.queryFailed err), s2)
          | (Outcome.ret (Except.ok pluginDetail), s2) =>
            (Outcome.ret (ReadResult.found pluginDetail), s2)
          | (Outcome.panic p, s2) => (Outcome.panic p, s2)) ∧
    ((stringsSplit d.id '/').length ≠ 3 →
      resourceRdsPgPluginRead env rds d s =
        match GetRegion s.c d with
        | Outcome.panic p => (Outcome.panic p, s)
        | Outcome.ret region =>
          match NewServiceClient env "rds" region s with
          | (Outcome.ret (Except.ok _), s1) =>
            (Outcome.ret (ReadResult.invalidID ("invalid ID format in ReadContext: " ++ d.id)), s1)
          | (Outcome.ret (Except.error err), s1) =>
            (Outcome.ret (ReadResult.clientError ("error creating RDS PG plugin client: " ++ err)),
              s1)
          | (Outcome.panic p, s1) => (Outcome.panic p, s1)) ∧
    (∀ a b c : String, ('/' ∈ a.data ∨ '/' ∈ b.data ∨ '/' ∈ c.data) →
      (stringsSplit (pluginID a b c) '/').length ≠ 3) ∧
    (∀ region client pc s1 s2, GetRegion s.c d = Outcome.ret region →
      NewServiceClient env "rds" region s = (Outcome.ret (Except.ok client), s1) →
      queryPluginDetail rds client (d.getString "instance_id") (d.getString "database_name")
        (d.getString "name") s1 = (Outcome.ret (Except.error QueryError.notFound), s2) →
      client.ProviderClient = some pc →
      rds.createPlugin s2.trace.length client
        (((client.Endpoint ++ "v3/{project_id}/instances/{instance_id}/extensions").replace
          "{project_id}" pc.ProjectID).replace "{instance_id}" (d.getString "instance_id"))
        (d.getString "database_name") (d.getString "name") = none →
      resourceRdsPgPluginCreate env rds d s =
        match resourceRdsPgPluginRead env rds
            { d with id := pluginID (d.getString "instance_id") (d.getString "database_name") (d.getString "name") } s2 with
        | (Outcome.ret read, s3) =>
          (Outcome.ret (CreateResult.created (pluginID (d.getString "instance_id")
            (d.getString "database_name") (d.getString "name")) read), s3)
        | (Outcome.panic p, s3) => (Outcome.panic p, s3)) ∧
    (∀ id read,
      (resourceRdsPgPluginCreate env rds d s).1 = Outcome.ret (CreateResult.created id read) →
      id = pluginID (d.getString "instance_id") (d.getString "database_name")
        (d.getString "name")) := by
  refine ⟨?_, ?_, ?_, ?_, ?_⟩
  · intro a b c ha hb hc
    have hsplit := stringsSplit_pluginID a b c ha hb hc
    refine ⟨hsplit, ?_⟩
    intro region client s1 hid hregion hclient
    rw [resourceRdsPgPluginRead_run env rds d s s1 region client hregion hclient, hid, hsplit]
  · intro hlen
    exact resourceRdsPgPluginRead_invalid env rds d s hlen
  · intro a b c hmem
    rw [stringsSplit_pluginID_length]
    have hpos : 0 < a.data.count '/' + b.data.count '/' + c.data.count '/' := by
      rcases hmem with h | h | h
      · have := List.count_pos_iff.mpr h
        omega
      · have := List.count_pos_iff.mpr h
        omega
      · have := List.count_pos_iff.mpr h
        omega
    omega
  · intro region client pc s1 s2 hregion hclient hq hpc hpost
    rw [resourceRdsPgPluginCreate_run env rds d s s1 region client hregion hclient, hq]
    dsimp only
    rw [hpc]
    dsimp only
    rw [hpost]
  · intro id read h
    exact (resourceRdsPgPluginCreate_created env rds d s id read h).1

/-- C28 as amended, at a sample input: the ID of the plugin `pg_cron` of the
database `db1` of the instance `i1` splits into the three; the ID made with
the database name `a/b` is refused by `resourceRdsPgPluginRead` as invalid;
and `resourceRdsPgPluginCreate`, with a service that lists the plugin once it
is created, writes the ID `i1/db1/pg_cron`, with which
`resourceRdsPgPluginRead` finds the plugin. -/
theorem C28_witness :
    stringsSplit (pluginID "i1" "db1" "pg_cron") '/' = ["i1", "db1", "pg_cron"] ∧
    resourceRdsPgPluginRead rdsCatalogEnv sampleRds { id := pluginID "i1" "a/b" "pg_cron" }
        ⟨akskConfig, []⟩ =
      (Outcome.ret (ReadResult.invalidID "invalid ID format in ReadContext: i1/a/b/pg_cron"),
        ⟨akskConfig, []⟩) ∧
    resourceRdsPgPluginCreate rdsCatalogEnv freshRds pluginData ⟨akskConfig, []⟩ =
      (Outcome.ret (CreateResult.created "i1/db1/pg_cron"
        (ReadResult.found (sampleExtension "pg_cron" true))),
        ⟨akskConfig, [Event.call Fn.queryPluginDetail, Event.call Fn.queryPluginDetail]⟩) :=
  ⟨((C28_amended_plugin_id_round_trip rdsCatalogEnv sampleRds {} ⟨akskConfig, []⟩).1
      "i1" "db1" "pg_cron" (by decide) (by decide) (by decide)).1,
    (C28_amended_plugin_id_round_trip rdsCatalogEnv sampleRds
      { id := pluginID "i1" "a/b" "pg_cron" } ⟨akskConfig, []⟩).2.1 (by decide),
    (C28_amended_plugin_id_round_trip rdsCatalogEnv freshRds pluginData
      ⟨akskConfig, []⟩).2.2.2.1 "r1" sampleRdsClient sampleRdsProvider ⟨akskConfig, []⟩
      ⟨akskConfig, [Event.call Fn.queryPluginDetail]⟩ rfl rfl rfl rfl rfl⟩

/-- C29, as stated, fails: `MarshalJSON` of the constant `task_done` returns
the quoted string followed by a line feed, and `UnmarshalJSON` of these
bytes, which trims the double quotes at both ends only, gives a wrapper whose
`Value()` still holds the closing double quote and the line feed. -/
theorem C29_counterexample :
    ShowHistoryTasksRequestStatus.MarshalJSON false ⟨"task_done"⟩ = Except.ok "\"task_done\"\n" ∧
    ShowHistoryTasksRequestStatus.UnmarshalJSON "\"task_done\"\n" = Except.ok ⟨"task_done\"\n"⟩ ∧
    (⟨"task_done\"\n"⟩ : ShowHistoryTasksRequestStatus).Value ≠ "task_done" :=
  ⟨rfl, rfl, by decide⟩

/-- C29, amended: for each of the three enum wrappers and every wrapped
string that needs no JSON escaping (so one without a double quote),
`MarshalJSON` returns the string between two double quotes followed by a line
feed, and `UnmarshalJSON` of these bytes without the line feed succeeds with
a wrapper whose `Value()` is the string; this holds for each of the defined
constants. -/
theorem C29_amended_unmarshal_undoes_marshal_without_line_feed (escapeHTML : Bool)
    (value : String) (hplain : needsNoEscaping escapeHTML value) :
    (∃ b, ShowHistoryTasksRequestStatus.MarshalJSON escapeHTML ⟨value⟩ = Except.ok b ∧
      b = "\"" ++ value ++ "\"" ++ "\n" ∧
      ∃ c, ShowHistoryTasksRequestStatus.UnmarshalJSON (withoutLineFeed b) = Except.ok c ∧
        c.Value = value) ∧
    (∃ b, ShowHistoryTasksRequestFileType.MarshalJSON escapeHTML ⟨value⟩ = Except.ok b ∧
      b = "\"" ++ value ++ "\"" ++ "\n" ∧
      ∃ c, ShowHistoryTasksRequestFileType.UnmarshalJSON (withoutLineFeed b) = Except.ok c ∧
        c.Value = value) ∧
    (∃ b, ShowHistoryTasksRequestTaskType.MarshalJSON escapeHTML ⟨value⟩ = Except.ok b ∧
      b = "\"" ++ value ++ "\"" ++ "\n" ∧
      ∃ c, ShowHistoryTasksRequestTaskType.UnmarshalJSON (withoutLineFeed b) = Except.ok c ∧
        c.Value = value) ∧
    (∀ c ∈ statusEnum, needsNoEscaping escapeHTML c.value) ∧
    (∀ c ∈ fileTypeEnum, needsNoEscaping escapeHTML c.value) ∧
    (∀ c ∈ taskTypeEnum, needsNoEscaping escapeHTML c.value) := by
  have hm := utilsMarshal_plain escapeHTML value hplain
  have hu := unmarshalEnumValue_quoted value (needsNoEscaping_no_quote escapeHTML value hplain)
  have hw := withoutLineFeed_append ("\"" ++ value ++ "\"")
  refine ⟨⟨_, hm, rfl, ⟨value⟩, ?_, rfl⟩, ⟨_, hm, rfl, ⟨value⟩, ?_, rfl⟩,
    ⟨_, hm, rfl, ⟨value⟩, ?_, rfl⟩, ?_, ?_, ?_⟩
  · unfold ShowHistoryTasksRequestStatus.UnmarshalJSON
    rw [hw, hu]
  · unfold ShowHistoryTasksRequestFileType.UnmarshalJSON
    rw [hw, hu]
  · unfold ShowHistoryTasksRequestTaskType.UnmarshalJSON
    rw [hw, hu]
  · unfold needsNoEscaping
    cases escapeHTML <;> decide
  · unfold needsNoEscaping
    cases escapeHTML <;> decide
  · unfold needsNoEscaping
    cases escapeHTML <;> decide

/-- C29 as amended, at a sample input: the constant `task_done` of the
status. -/
theorem C29_witness :
    needsNoEscaping false "task_done" ∧
    ShowHistoryTasksRequestStatus.MarshalJSON false ⟨"task_done"⟩ = Except.ok "\"task_done\"\n" ∧
    ShowHistoryTasksRequestStatus.UnmarshalJSON "\"task_done\"" = Except.ok ⟨"task_done"⟩ ∧
    ∃ b, ShowHistoryTasksRequestStatus.MarshalJSON false ⟨"task_done"⟩ = Except.ok b ∧
      b = "\"" ++ "task_done" ++ "\"" ++ "\n" ∧
      ∃ c, ShowHistoryTasksRequestStatus.UnmarshalJSON (withoutLineFeed b) = Except.ok c ∧
        c.Value = "task_done" :=
  ⟨by unfold needsNoEscaping; decide, rfl, rfl,
    (C29_amended_unmarshal_undoes_marshal_without_line_feed false "task_done"
      (by unfold needsNoEscaping; decide)).1⟩

/-- C30, as stated, fails: `queryPluginDetail` returns a listed extension of
the requested name whose `created` is the number 0, which the filter of the
search keeps although it is not `true`; and when the listing fails with a
response whose `errCode` is a number, `parseErrCode` panics, so the function
returns no error at all. -/
theorem C30_counterexample :
    queryPluginDetail numberFlagRds sampleRdsClient "i1" "db1" "pg_cron" ⟨akskConfig, []⟩ =
      (Outcome.ret (Except.ok
        (JSON.obj [("name", JSON.str "pg_cron"), ("created", JSON.num "0")])),
        ⟨akskConfig, [Event.call Fn.queryPluginDetail]⟩) ∧
    jmesField (JSON.obj [("name", JSON.str "pg_cron"), ("created", JSON.num "0")]) "created" =
      JSON.num "0" ∧
    queryPluginDetail (failingRds (JSON.obj [("errCode", JSON.num "404")])) sampleRdsClient
        "i1" "db1" "pg_cron" ⟨akskConfig, []⟩ =
      (Outcome.panic "interface conversion: interface {} is not string",
        ⟨akskConfig, [Event.call Fn.queryPluginDetail]⟩) :=
  ⟨rfl, rfl, rfl⟩

/-- C30, amended: for a name that has no single quote and no backslash,
`queryPluginDetail`, through a client with a provider client, when the
listing succeeds returns the first element of the list `extensions` of the
response that has the requested name and a `created` that the filter of the
search keeps (every value but null, `false` and the empty string, list and
object; for a boolean: `true`), and returns the not-found error exactly when
there is no such element; when the listing fails and the `errCode` of the
response is the string `DBS.280238` or `DBS.200823` it returns the not-found
error, and when it is another string or there is none it returns an error
that is not the not-found one.  `resourceRdsPgPluginCreate`, once its client
is built, ends with the error of a plugin already created when the query
returns a plugin, ends with the error of the query when that is not the
not-found one, and reaches the request that creates the plugin only after
the query returned not-found. -/
theorem C30_amended_queryPluginDetail_finds_created_plugin (env : Env) (rds : RdsEnv)
    (client : ServiceClient) (pc : ProviderClient) (instanceId databaseName name : String)
    (s : St) (hname : plainName name) (hpc : client.ProviderClient = some pc) :
    (∀ resp, rds.listAllItems (s.trace.length + 1) client
        ((((client.Endpoint ++
          "v3/{project_id}/instances/{instance_id}/extensions?database_name={database_name}").replace
            "{project_id}" pc.ProjectID).replace "{instance_id}" instanceId).replace
              "{database_name}" databaseName) = ListResult.success resp →
      (∀ e, firstCreatedPlugin name resp = some e →
        queryPluginDetail rds client instanceId databaseName name s =
          (Outcome.ret (Except.ok e), queried s)) ∧
      (firstCreatedPlugin name resp = none →
        queryPluginDetail rds client instanceId databaseName name s =
          (Outcome.ret (Except.error QueryError.notFound), queried s)) ∧
      ((queryPluginDetail rds client instanceId databaseName name s).1 =
          Outcome.ret (Except.error QueryError.notFound) ↔
        firstCreatedPlugin name resp = none)) ∧
    (∀ resp err code, rds.listAllItems (s.trace.length + 1) client
        ((((client.Endpoint ++
          "v3/{project_id}/instances/{instance_id}/extensions?database_name={database_name}").replace
            "{project_id}" pc.ProjectID).replace "{instance_id}" instanceId).replace
              "{database_name}" databaseName) = ListResult.failure resp err →
      parseErrCode resp = Outcome.ret code →
      ((code = "DBS.280238" ∨ code = "DBS.200823") →
        queryPluginDetail rds client instanceId databaseName name s =
          (Outcome.ret (Except.error QueryError.notFound), queried s)) ∧
      (¬ (code = "DBS.280238" ∨ code = "DBS.200823") →
        queryPluginDetail rds client instanceId databaseName name s =
          (Outcome.ret (Except.error (QueryError.other ("error retrieving PG plugin: " ++ err))),
            queried s))) ∧
    (∀ resp, (∀ code, jmesField resp "errCode" = JSON.str code →
        parseErrCode resp = Outcome.ret code) ∧
      (jmesField resp "errCode" = JSON.null → parseErrCode resp = Outcome.ret "")) ∧
    (∀ resp e, firstCreatedPlugin name resp = some e →
      ∃ items before after, jmesField resp "extensions" = JSON.arr items ∧
        items = before ++ e :: after ∧
        isNamed name e = true ∧ (jmesField e "created").truthy = true ∧
        ∀ x ∈ before, ¬ (isNamed name x = true ∧ (jmesField x "created").truthy = true)) ∧
    (∀ b : Bool, (JSON.bool b).truthy = b) ∧
    (∀ (d : ResourceData) (s0 : St) (region : String),
      GetRegion s0.c d = Outcome.ret region →
      NewServiceClient env "rds" region s0 = (Outcome.ret (Except.ok client), s) →
      (∀ e s2, queryPluginDetail rds client (d.getString "instance_id")
          (d.getString "database_name") (d.getString "name") s = (Outcome.ret (Except.ok e), s2) →
        resourceRdsPgPluginCreate env rds d s0 =
          (Outcome.ret (CreateResult.alreadyCreated e), s2)) ∧
      (∀ msg s2, queryPluginDetail rds client (d.getString "instance_id")
          (d.getString "database_name") (d.getString "name") s =
            (Outcome.ret (Except.error (QueryError.other msg)), s2) →
        resourceRdsPgPluginCreate env rds d s0 =
          (Outcome.ret (CreateResult.queryFailed msg), s2)) ∧
      (∀ id read, (resourceRdsPgPluginCreate env rds d s0).1 =
          Outcome.ret (CreateResult.created id read) →
        (queryPluginDetail rds client (d.getString "instance_id")
          (d.getString "database_name") (d.getString "name") s).1 =
            Outcome.ret (Except.error QueryError.notFound)) ∧
      (∀ msg, (resourceRdsPgPluginCreate env rds d s0).1 =
          Outcome.ret (CreateResult.requestFailed msg) →
        (queryPluginDetail rds client (d.getString "instance_id")
          (d.getString "database_name") (d.getString "name") s).1 =
            Outcome.ret (Except.error QueryError.notFound))) := by
  have hrun := queryPluginDetail_run rds client pc instanceId databaseName name s hname hpc
  refine ⟨?_, ?_, ?_, ?_, ?_, ?_⟩
  · intro resp hlist
    rw [hlist] at hrun
    dsimp only at hrun
    refine ⟨?_, ?_, ?_⟩
    · intro e he
      rw [hrun, he]
    · intro he
      rw [hrun, he]
    · rw [hrun]
      cases hf : firstCreatedPlugin name resp with
      | some e => simp
      | none => simp
  · intro resp err code hlist hcode
    rw [hlist] at hrun
    dsimp only at hrun
    rw [hcode] at hrun
    dsimp only at hrun
    refine ⟨?_, ?_⟩
    · intro h
      rw [hrun, if_pos h]
    · intro h
      rw [hrun, if_neg h]
  · intro resp
    unfold parseErrCode pathSearchKey
    refine ⟨?_, ?_⟩
    · intro code h
      rw [h]
      rfl
    · intro h
      rw [h]
      rfl
  · intro resp e he
    unfold firstCreatedPlugin at he
    cases hx : jmesField resp "extensions" with
    | arr items =>
      rw [hx] at he
      dsimp only at he
      obtain ⟨hp, before, after, hitems, hfirst⟩ := List.find?_eq_some.mp he
      simp only [Bool.and_eq_true] at hp
      refine ⟨items, before, after, rfl, hitems, hp.1, hp.2, ?_⟩
      intro x hxmem hboth
      have := hfirst x hxmem
      simp [hboth.1, hboth.2] at this
    | null => rw [hx] at he; cases he
    | bool b => rw [hx] at he; cases he
    | num text => rw [hx] at he; cases he
    | str t => rw [hx] at he; cases he
    | obj fields => rw [hx] at he; cases he
  · intro b
    rfl
  · intro d s0 region hregion hclient
    have hcreate := resourceRdsPgPluginCreate_run env rds d s0 s region client hregion hclient
    refine ⟨?_, ?_, ?_, ?_⟩
    · intro e s2 hq
      rw [hcreate, hq]
    · intro msg s2 hq
      rw [hcreate, hq]
    · intro id read h
      rw [hcreate] at h
      generalize queryPluginDetail rds client (d.getString "instance_id")
        (d.getString "database_name") (d.getString "name") s = q at h
      rcases q with ⟨o, s2⟩
      cases o with
      | panic p => cases h
      | ret x =>
        cases x with
        | ok v => cases h
        | error er =>
          cases er with
          | notFound => rfl
          | other m => cases h
    · intro msg h
      rw [hcreate] at h
      generalize queryPluginDetail rds client (d.getString "instance_id")
        (d.getString "database_name") (d.getString "name") s = q at h
      rcases q with ⟨o, s2⟩
      cases o with
      | panic p => cases h
      | ret x =>
        cases x with
        | ok v => cases h
        | error er =>
          cases er with
          | notFound => rfl
          | other m => cases h

/-- C30 as amended, at a sample input: of the three listed extensions, the
first named `pg_cron` but not created, `queryPluginDetail` returns the third;
a listing that fails with the error code `DBS.280238` gives not-found; and
`resourceRdsPgPluginCreate` refuses the plugin that is listed as created. -/
theorem C30_witness :
    plainName "pg_cron" ∧
    sampleRdsClient.ProviderClient = some sampleRdsProvider ∧
    queryPluginDetail sampleRds sampleRdsClient "i1" "db1" "pg_cron" ⟨akskConfig, []⟩ =
      (Outcome.ret (Except.ok (sampleExtension "pg_cron" true)),
        ⟨akskConfig, [Event.call Fn.queryPluginDetail]⟩) ∧
    queryPluginDetail (failingRds (JSON.obj [("errCode", JSON.str "DBS.280238")]))
        sampleRdsClient "i1" "db1" "pg_cron" ⟨akskConfig, []⟩ =
      (Outcome.ret (Except.error QueryError.notFound),
        ⟨akskConfig, [Event.call Fn.queryPluginDetail]⟩) ∧
    resourceRdsPgPluginCreate rdsCatalogEnv sampleRds pluginData ⟨akskConfig, []⟩ =
      (Outcome.ret (CreateResult.alreadyCreated (sampleExtension "pg_cron" true)),
        ⟨akskConfig, [Event.call Fn.queryPluginDetail]⟩) :=
  ⟨by decide, rfl,
    ((C30_amended_queryPluginDetail_finds_created_plugin rdsCatalogEnv sampleRds sampleRdsClient
      sampleRdsProvider "i1" "db1" "pg_cron" ⟨akskConfig, []⟩ (by decide) rfl).1
        (JSON.obj [("extensions",
          JSON.arr [sampleExtension "pg_cron" false, sampleExtension "pg_trgm" true,
            sampleExtension "pg_cron" true])]) rfl).1 (sampleExtension "pg_cron" true) rfl,
    ((C30_amended_queryPluginDetail_finds_created_plugin rdsCatalogEnv
      (failingRds (JSON.obj [("errCode", JSON.str "DBS.280238")])) sampleRdsClient
      sampleRdsProvider "i1" "db1" "pg_cron" ⟨akskConfig, []⟩ (by decide) rfl).2.1
        (JSON.obj [("errCode", JSON.str "DBS.280238")]) "Bad Request" "DBS.280238" rfl rfl).1
          (Or.inl rfl),
    ((C30_amended_queryPluginDetail_finds_created_plugin rdsCatalogEnv sampleRds sampleRdsClient
      sampleRdsProvider "i1" "db1" "pg_cron" ⟨akskConfig, []⟩ (by decide) rfl).2.2.2.2.2
        pluginData ⟨akskConfig, []⟩ "r1" rfl rfl).1 (sampleExtension "pg_cron" true)
          ⟨akskConfig, [Event.call Fn.queryPluginDetail]⟩ rfl⟩

end HuaweiCloud
